import Mathlib

/-!
Verification of the audiorouter reconciliation core (`src/audiorouter/core.py`,
`src/audiorouter/pactl.py`) against its natural-language specification.

The sound server is modelled as explicit state (sinks, sources, modules,
sink-inputs) and every mutating `pactl` invocation becomes an element of a
command trace.  Module/object ids are natural numbers allocated from a
server-side counter (Python manipulates them as decimal strings; equality of
decimal strings is equality of the numbers, so `Nat` ids are isomorphic).
Python's falsy-string conventions (`"" or default`) are modelled with
`Option`/`""` as noted at each definition.  Commands that the driver issues
through `try_pactl` never raise; commands issued through `pactl` can fail,
which is modelled by failure oracles in `Env` (a steady server is `Env.ok`).
-/

namespace AudioRouter

/-! ## Python string primitives

`needle in hay` on Python strings is substring containment; we implement it
over character lists. -/

/-- Boolean substring test on character lists: does `hay` contain `needle`? -/
def infixChars (needle : List Char) : List Char → Bool
  | [] => needle.isPrefixOf []
  | c :: rest => needle.isPrefixOf (c :: rest) || infixChars needle rest

/-- Python `needle in hay` for strings. -/
def pyIn (needle hay : String) : Bool := infixChars needle.data hay.data

theorem infixChars_of_prefix {needle hay : List Char} (h : needle.isPrefixOf hay) :
    infixChars needle hay = true := by
  cases hay with
  | nil => simp only [infixChars]; exact h
  | cons c rest => simp [infixChars, h]

theorem infixChars_append_right {needle hay : List Char} (c : Char)
    (h : infixChars needle hay = true) : infixChars needle (c :: hay) = true := by
  simp [infixChars, h]

theorem infixChars_of_middle (pre needle post : List Char) :
    infixChars needle (pre ++ needle ++ post) = true := by
  induction pre with
  | nil =>
      apply infixChars_of_prefix
      exact List.isPrefixOf_iff_prefix.mpr (List.prefix_append needle post)
  | cons c cs ih => simpa using infixChars_append_right c ih

/-- `pyIn` holds whenever the needle occurs literally in the middle. -/
theorem pyIn_of_middle (pre needle post : String) :
    pyIn needle (pre ++ needle ++ post) = true := by
  have h : (pre ++ needle ++ post).data = pre.data ++ needle.data ++ post.data := by
    simp [String.data_append]
  simpa [pyIn, h] using infixChars_of_middle pre.data needle.data post.data

/-- Python `s.startswith(p)` (list-level, so that it evaluates in the kernel). -/
def startsWithS (s p : String) : Bool := p.data.isPrefixOf s.data

/-- Python `s.endswith(p)`. -/
def endsWithS (s p : String) : Bool := p.data.isSuffixOf s.data

/-- ASCII lower-casing of one character (Python `str.lower` restricted to
ASCII, which covers every name and property key the router compares). -/
def lowerChar (c : Char) : Char :=
  if 'A' ≤ c && c ≤ 'Z' then Char.ofNat (c.toNat + 32) else c

/-- Python `s.lower()`. -/
def toLowerS (s : String) : String := ⟨s.data.map lowerChar⟩

def isPyWS (c : Char) : Bool := c == ' ' || c == '\t' || c == '\n' || c == '\r'

/-- Python `s.strip()`. -/
def trimS (s : String) : String :=
  ⟨((s.data.dropWhile isPyWS).reverse.dropWhile isPyWS).reverse⟩

/-! ## Configuration model (`config.py` shapes consumed by `core.py`)

Only the keys `core.py` reads are modelled.  A stream rule's `match` mapping
is consulted only at the keys `binary`, `app`, `app_id`; absent keys are
`none`. `target_bus` may be missing/empty, modelled as `""` (Python falsy). -/

structure MatchSpec where
  binary : Option String
  app : Option String
  appId : Option String
  deriving DecidableEq, Repr

structure StreamRule where
  matchSpec : MatchSpec
  targetBus : String
  deriving DecidableEq, Repr

structure Bus where
  name : String
  label : String
  routeTo : String
  deriving DecidableEq, Repr

structure InputRoute where
  source : String
  targetBus : String
  deriving DecidableEq, Repr

structure Cfg where
  buses : List Bus
  rules : List StreamRule
  micRoutes : List StreamRule
  inputRoutes : List InputRoute
  deriving DecidableEq, Repr

/-! ## Runtime state (`state.json` after `apply_once`'s `setdefault`s)

Python stores module ids as nonempty decimal strings and treats `""`/absence
as "no module" (`str(st[...].get(k, "") or "")`); we store `Nat` ids and model
absence as a missing key. -/

structure RState where
  busModules : List (String × Nat)
  routeModules : List (String × Nat)
  inputRouteModules : List (String × Nat)
  routeTarget : List (String × String)
  inputRouteTarget : List (String × String)
  deriving DecidableEq, Repr

def emptyState : RState := ⟨[], [], [], [], []⟩

/-- Association-list lookup (Python `dict.get`). -/
def lookupS {α : Type} (l : List (String × α)) (k : String) : Option α :=
  (l.find? (fun p => p.1 == k)).map (fun p => p.2)

/-- Association-list update (Python `dict[k] = v`; updates in place or appends). -/
def setS {α : Type} (l : List (String × α)) (k : String) (v : α) : List (String × α) :=
  if (l.find? (fun p => p.1 == k)).isSome then
    l.map (fun p => if p.1 == k then (k, v) else p)
  else l ++ [(k, v)]

/-- Association-list removal (Python `dict.pop(k, None)`). -/
def eraseS {α : Type} (l : List (String × α)) (k : String) : List (String × α) :=
  l.filter (fun p => !(p.1 == k))

/-! ## Observed server state -/

structure SrvSink where
  id : Nat
  name : String
  /-- the module that created this sink, when the router knows it -/
  owner : Option Nat
  deriving DecidableEq, Repr

structure SrvSource where
  id : Nat
  name : String
  owner : Option Nat
  deriving DecidableEq, Repr

structure SrvModule where
  id : Nat
  name : String
  args : String
  deriving DecidableEq, Repr

structure SrvInput where
  id : Nat
  sinkId : Nat
  owner : Option Nat
  props : List (String × String)
  deriving DecidableEq, Repr

structure Server where
  defaultSink : String
  sinks : List SrvSink
  sources : List SrvSource
  modules : List SrvModule
  sinkInputs : List SrvInput
  nextId : Nat
  deriving DecidableEq, Repr

/-- Failure oracles for the fallible (`pactl`-raising) commands; listing and
`try_pactl` commands never fail.  A steady server is `Env.ok`. -/
structure Env where
  nullSinkFails : String → Bool
  loopbackFails : String → String → Bool
  moveFails : Nat → String → Bool

def Env.ok : Env := ⟨fun _ => false, fun _ _ => false, fun _ _ => false⟩

/-! ## Server mutation commands (the trace alphabet) -/

inductive Cmd
  | loadNullSink (name label : String)
  | loadLoopback (source sink : String)
  | ensureLoad (module : String)
  | unloadModule (id : Nat)
  | moveSinkInput (id : Nat) (sink : String)
  | setSinkMute (name : String) (muted : Bool)
  | setSourceMute (name : String) (muted : Bool)
  | setSinkInputMute (id : Nat) (muted : Bool)
  | setSinkProps (name : String)
  | setSourceProps (name : String)
  deriving DecidableEq, Repr

/-! ## Driver operations (`pactl.py`) -/

def sinkExists (srv : Server) (name : String) : Bool :=
  srv.sinks.any (fun s => s.name == name)

def sourceExists (srv : Server) (name : String) : Bool :=
  srv.sources.any (fun s => s.name == name)

def moduleLoaded (srv : Server) (name : String) : Bool :=
  srv.modules.any (fun m => m.name == name)

/-- The argument string `load_loopback` passes and that the server reports
back in `pactl list short modules`. -/
def loopbackArgs (source sink : String) : String :=
  "source=" ++ source ++ " sink=" ++ sink ++ " latency_msec=30 sink_dont_move=true"

/-- `pactl.loopback_exists`: substring scan over the args of loaded
`module-loopback` modules. -/
def loopbackExists (srv : Server) (source sink : String) : Bool :=
  srv.modules.any (fun m =>
    m.name == "module-loopback" && pyIn ("source=" ++ source) m.args &&
      pyIn ("sink=" ++ sink) m.args)

/-- `pactl.unload_module` server effect: the module and the objects it owns
disappear. -/
def unloadSrv (srv : Server) (mid : Nat) : Server :=
  { srv with
    modules := srv.modules.filter (fun m => !(m.id == mid))
    sinks := srv.sinks.filter (fun s => !(s.owner == some mid))
    sources := srv.sources.filter (fun s => !(s.owner == some mid))
    sinkInputs := srv.sinkInputs.filter (fun i => !(i.owner == some mid)) }

/-- `pactl.cleanup_wrong_loopbacks_for_source`: unload every loopback whose
args contain `source=<source>` but not `sink=<wanted_sink>`. -/
def cleanupWrong (srv : Server) (source wantedSink : String) : Server × List Cmd :=
  let bad := srv.modules.filter (fun m =>
    m.name == "module-loopback" && pyIn ("source=" ++ source) m.args &&
      !(pyIn ("sink=" ++ wantedSink) m.args))
  (bad.foldl (fun s m => unloadSrv s m.id) srv, bad.map (fun m => Cmd.unloadModule m.id))

/-- `pactl.tag_system_sink`: a property write, issued only when the sink
exists (`try_pactl`, never raises). -/
def tagSystemSinkTr (srv : Server) (name : String) : List Cmd :=
  if sinkExists srv name then [Cmd.setSinkProps name] else []

/-- `pactl.load_null_sink` effect on a steady server: new module plus its sink
and monitor source; the two property writes are `try`-wrapped in the source
and the system-sink tag is re-applied for `vsink.system`. -/
def loadNullSinkOp (srv : Server) (name label : String) : Nat × Server × List Cmd :=
  let mid := srv.nextId
  let srv' : Server :=
    { srv with
      modules := srv.modules ++ [⟨mid, "module-null-sink", "sink_name=" ++ name⟩]
      sinks := srv.sinks ++ [⟨srv.nextId + 1, name, some mid⟩]
      sources := srv.sources ++ [⟨srv.nextId + 2, name ++ ".monitor", some mid⟩]
      nextId := srv.nextId + 3 }
  let tagTr := if name == "vsink.system" then tagSystemSinkTr srv' name else []
  (mid, srv',
    [Cmd.loadNullSink name label, Cmd.setSourceProps (name ++ ".monitor"),
      Cmd.setSinkProps name] ++ tagTr)

/-- `pactl.load_loopback` effect on a steady server: new loopback module and
the loopback's own playback stream (owned by the module); the two hide-node
property writes are `try`-wrapped in the source. -/
def loadLoopbackOp (srv : Server) (source sink : String) : Nat × Server × List Cmd :=
  let mid := srv.nextId
  let tgtSinkId := ((srv.sinks.find? (fun s => s.name == sink)).map (fun s => s.id)).getD 0
  let srv' : Server :=
    { srv with
      modules := srv.modules ++ [⟨mid, "module-loopback", loopbackArgs source sink⟩]
      sinkInputs := srv.sinkInputs ++ [⟨srv.nextId + 1, tgtSinkId, some mid, []⟩]
      nextId := srv.nextId + 2 }
  (mid, srv',
    [Cmd.loadLoopback source sink,
      Cmd.setSinkProps ("loopback-" ++ toString mid),
      Cmd.setSourceProps ("loopback-" ++ toString mid)])

/-- `pactl.ensure_module_loaded`: load only when no module of that name exists
(`try_pactl`, never raises). -/
def ensureModuleLoadedOp (srv : Server) (name : String) : Server × List Cmd :=
  if moduleLoaded srv name then (srv, [])
  else
    let srv' : Server :=
      { srv with
        modules := srv.modules ++ [⟨srv.nextId, name, ""⟩]
        nextId := srv.nextId + 1 }
    (srv', [Cmd.ensureLoad name])

/-- `pactl.sink_inputs_for_owner_module` (empty module id gives `[]`). -/
def sinkInputsForOwner (srv : Server) (mid : Option Nat) : List Nat :=
  match mid with
  | none => []
  | some m => (srv.sinkInputs.filter (fun i => i.owner == some m)).map (fun i => i.id)

/-- Name of the sink a stream sits on (`sink_name_by_id.get(sink_id, "")`). -/
def sinkNameById (srv : Server) (sid : Nat) : String :=
  ((srv.sinks.find? (fun s => s.id == sid)).map (fun s => s.name)).getD ""

/-- `pactl.move_sink_input`: the command is always issued; it succeeds iff the
target sink exists and the oracle does not fail it, re-attaching the stream. -/
def moveSinkInputOp (env : Env) (srv : Server) (sid : Nat) (target : String) :
    Bool × Server × List Cmd :=
  match srv.sinks.find? (fun s => s.name == target) with
  | none => (false, srv, [Cmd.moveSinkInput sid target])
  | some sk =>
      if env.moveFails sid target then (false, srv, [Cmd.moveSinkInput sid target])
      else
        let reattach := fun (i : SrvInput) =>
          if i.id == sid then { i with sinkId := sk.id } else i
        (true, { srv with sinkInputs := srv.sinkInputs.map reattach },
          [Cmd.moveSinkInput sid target])

/-! ## `core.py` helpers -/

/-- `core._get_physical_default_sink`. -/
def physicalDefaultSink (srv : Server) : String :=
  let dflt := srv.defaultSink
  if dflt != "" && !(startsWithS dflt "vsink.") then dflt
  else
    match srv.sinks.find? (fun s => s.name != "" && !(startsWithS s.name "vsink.")) with
    | some s => s.name
    | none => dflt

/-- Python `props.get(k) or ""`. -/
def propGet (props : List (String × String)) (k : String) : String :=
  (lookupS props k).getD ""

/-- `core._is_system_stream`, translated clause by clause. -/
def isSystemStream (props : List (String × String)) : Bool :=
  let role := toLowerS (propGet props "media.role")
  if role == "event" || role == "notification" then true
  else
    let app := toLowerS (propGet props "application.name")
    let binary := toLowerS (propGet props "application.process.binary")
    let appId := toLowerS (propGet props "pipewire.access.portal.app_id")
    let mediaName := toLowerS (propGet props "media.name")
    let knownApps := ["gnome-shell", "plasmashell", "kded5", "kded6",
      "xfce4-notifyd", "notification-daemon", "mako"]
    let knownBins := ["gnome-shell", "plasmashell", "xfce4-notifyd",
      "notification-daemon", "mako", "canberra-gtk-play"]
    if knownApps.contains app || knownBins.contains binary then true
    else if startsWithS appId "org.freedesktop.impl.portal" && pyIn "portal" mediaName then
      true
    else
      ["system sound", "system sounds", "systemklänge", "benachrichtigung",
        "notification", "event"].any (fun token => pyIn token mediaName)

/-- The per-key substring matching of a `StreamRule` against the lowercased
stream properties (shared by `apply_once` and the fast paths). -/
def matchOK (m : MatchSpec) (binv appv aidv : String) : Bool :=
  (match m.binary with | none => true | some v => pyIn (toLowerS v) binv) &&
  (match m.app with | none => true | some v => pyIn (toLowerS v) appv) &&
  (match m.appId with | none => true | some v => pyIn (toLowerS v) aidv)

/-- `core._move_input_quietly` with the mute window in milliseconds; both call
sites pass `SYSTEM_STREAM_MOVE_MUTE_SEC = 0`, taking the direct-move branch. -/
def moveInputQuietlyOp (env : Env) (srv : Server) (sid : Nat) (target : String)
    (muteMsec : Nat) : Bool × Server × List Cmd :=
  if muteMsec == 0 then moveSinkInputOp env srv sid target
  else
    let (ok, srv', tr) := moveSinkInputOp env srv sid target
    (ok, srv',
      [Cmd.setSinkInputMute sid true] ++ tr ++ [Cmd.setSinkInputMute sid false])

def SYSTEM_STREAM_MOVE_MUTE_MSEC : Nat := 0

/-! ## Fast-path routers (`core.route_sink_input_now`, `core.route_source_output_now`) -/

/-- The rules loop of `route_sink_input_now`: first rule whose `target_bus` is
truthy and exists and whose present keys all match issues the move and returns
its success; move errors are swallowed into `false`.  Returns `none` when no
rule fired. -/
def fastRulesGo (env : Env) (srv : Server) (sid : Nat) (binv appv aidv : String) :
    List StreamRule → Option (Bool × Server × List Cmd)
  | [] => none
  | r :: rest =>
      if r.targetBus == "" || !(sinkExists srv r.targetBus) then
        fastRulesGo env srv sid binv appv aidv rest
      else if matchOK r.matchSpec binv appv aidv then
        some (moveSinkInputOp env srv sid r.targetBus)
      else fastRulesGo env srv sid binv appv aidv rest

/-- `core.route_sink_input_now`. -/
def routeSinkInputNow (cfg : Cfg) (env : Env) (srv : Server) (sidRaw : String) :
    Bool × Server × List Cmd :=
  let sid := trimS sidRaw
  if sid == "" then (false, srv, [])
  else
    match srv.sinkInputs.find? (fun i => trimS (toString i.id) == sid) with
    | none => (false, srv, [])
    | some inp =>
        let appv := toLowerS (propGet inp.props "application.name")
        let binv := toLowerS (propGet inp.props "application.process.binary")
        let aidv := toLowerS (propGet inp.props "pipewire.access.portal.app_id")
        match fastRulesGo env srv inp.id binv appv aidv cfg.rules with
        | some res => res
        | none =>
            if sinkExists srv "vsink.system" && isSystemStream inp.props then
              if sinkNameById srv inp.sinkId == "vsink.system" then (true, srv, [])
              else moveInputQuietlyOp env srv inp.id "vsink.system"
                SYSTEM_STREAM_MOVE_MUTE_MSEC
            else (false, srv, [])

/-- `core.route_source_output_now`.  Past the two guards the source calls
`pa.list_source_outputs`, but `pactl.py` defines neither
`list_source_outputs` nor `move_source_output`, so the call raises
`AttributeError` before touching the server; `none` models that raise. -/
def routeSourceOutputNow (cfg : Cfg) (sidRaw : String) : Option Bool :=
  if trimS sidRaw == "" then some false
  else if cfg.micRoutes.isEmpty then some false
  else none

/-! ## `apply_once` (the Reconciler), phase by phase -/

/-- Phase 0: drop (and unload) input-route state entries whose source is no
longer configured; iterates over a snapshot of the map's entries. -/
def phase0Go (wanted : List String) :
    List (String × Nat) → RState → Server → RState × Server × List Cmd
  | [], st, srv => (st, srv, [])
  | (k, mid) :: rest, st, srv =>
      if wanted.contains k then phase0Go wanted rest st srv
      else
        let srv' := unloadSrv srv mid
        let st' : RState :=
          { st with
            inputRouteModules := eraseS st.inputRouteModules k
            inputRouteTarget := eraseS st.inputRouteTarget k }
        let (st'', srv'', tr) := phase0Go wanted rest st' srv'
        (st'', srv'', Cmd.unloadModule mid :: tr)

def phase0 (wanted : List String) (st : RState) (srv : Server) :
    RState × Server × List Cmd :=
  phase0Go wanted st.inputRouteModules st srv

/-- Phase 1a: unload and drop `route_modules`/`route_target` entries of
removed buses. -/
def phase1RouteGo (names : List String) :
    List (String × Nat) → RState → Server → RState × Server × List Cmd
  | [], st, srv => (st, srv, [])
  | (k, mid) :: rest, st, srv =>
      if names.contains k then phase1RouteGo names rest st srv
      else
        let srv' := unloadSrv srv mid
        let st' : RState :=
          { st with
            routeModules := eraseS st.routeModules k
            routeTarget := eraseS st.routeTarget k }
        let (st'', srv'', tr) := phase1RouteGo names rest st' srv'
        (st'', srv'', Cmd.unloadModule mid :: tr)

/-- Phase 1b: unload and drop `bus_modules` entries of removed buses. -/
def phase1BusGo (names : List String) :
    List (String × Nat) → RState → Server → RState × Server × List Cmd
  | [], st, srv => (st, srv, [])
  | (k, mid) :: rest, st, srv =>
      if names.contains k then phase1BusGo names rest st srv
      else
        let srv' := unloadSrv srv mid
        let st' : RState := { st with busModules := eraseS st.busModules k }
        let (st'', srv'', tr) := phase1BusGo names rest st' srv'
        (st'', srv'', Cmd.unloadModule mid :: tr)

def phase1 (names : List String) (st : RState) (srv : Server) :
    RState × Server × List Cmd :=
  let (st1, srv1, tr1) := phase1RouteGo names st.routeModules st srv
  let (st2, srv2, tr2) := phase1BusGo names st1.busModules st1 srv1
  (st2, srv2, tr1 ++ tr2)

/-- Phase 2: ensure a null sink exists for every bus; `load_null_sink` goes
through the raising `pactl`, so a failure aborts the run.  The system bus is
re-tagged on every run. -/
def phase2 (env : Env) : List Bus → RState → Server →
    Except (Server × List Cmd) (RState × Server × List Cmd)
  | [], st, srv => .ok (st, srv, [])
  | b :: rest, st, srv =>
      if sinkExists srv b.name then
        let tagTr := if b.name == "vsink.system" then tagSystemSinkTr srv b.name else []
        match phase2 env rest st srv with
        | .error (srvE, trE) => .error (srvE, tagTr ++ trE)
        | .ok (st', srv', tr) => .ok (st', srv', tagTr ++ tr)
      else if env.nullSinkFails b.name then
        .error (srv, [Cmd.loadNullSink b.name b.label])
      else
        let (mid, srv1, tr1) := loadNullSinkOp srv b.name b.label
        let st1 : RState := { st with busModules := setS st.busModules b.name mid }
        let tagTr := if b.name == "vsink.system" then tagSystemSinkTr srv1 b.name else []
        match phase2 env rest st1 srv1 with
        | .error (srvE, trE) => .error (srvE, tr1 ++ tagTr ++ trE)
        | .ok (st', srv', tr) => .ok (st', srv', tr1 ++ tagTr ++ tr)

/-- The low-artifact route handover of phase 3 (`try`/`finally`: the four
unmute steps always run; a loopback-load failure then propagates).  Returns
the new module id on success. -/
def handoverOp (env : Env) (name monitor target : String) (prevMod : Option Nat)
    (prevTarget : String) (srv : Server) :
    Except (Server × List Cmd) (Nat × Server × List Cmd) :=
  let prevInputs := sinkInputsForOwner srv prevMod
  let muteTr := [Cmd.setSinkMute name true, Cmd.setSourceMute monitor true] ++
    prevInputs.map (fun i => Cmd.setSinkInputMute i true)
  let involvesVirtual := startsWithS target "vsink." || startsWithS prevTarget "vsink."
  -- body of the `try`: `(newMod?, server, bodyTrace)`; `newMod? = none` when
  -- `load_loopback` raised (the failing load command is still issued)
  let body : Option Nat × Server × List Cmd :=
    if involvesVirtual then
      let (srvA, trA) := cleanupWrong srv monitor target
      if env.loopbackFails monitor target then
        (none, srvA, trA ++ [Cmd.loadLoopback monitor target])
      else
        let (mid, srvB, trB) := loadLoopbackOp srvA monitor target
        (some mid, srvB, trA ++ trB)
    else
      if env.loopbackFails monitor target then
        (none, srv, [Cmd.loadLoopback monitor target])
      else
        let (mid, srvA, trA) := loadLoopbackOp srv monitor target
        let (srvB, trB) := cleanupWrong srvA monitor target
        (some mid, srvB, trA ++ trB)
  let (newMod, srvPost, bodyTr) := body
  let newInputs := sinkInputsForOwner srvPost newMod
  let finallyTr := prevInputs.map (fun i => Cmd.setSinkInputMute i false) ++
    newInputs.map (fun i => Cmd.setSinkInputMute i false) ++
    [Cmd.setSourceMute monitor false, Cmd.setSinkMute name false]
  match newMod with
  | none => .error (srvPost, muteTr ++ bodyTr ++ finallyTr)
  | some mid => .ok (mid, srvPost, muteTr ++ bodyTr ++ finallyTr)

/-- One bus of phase 3 (routing, no loopback churn). -/
def busStep (env : Env) (b : Bus) (st : RState) (srv : Server) :
    Except (Server × List Cmd) (RState × Server × List Cmd) :=
  let rt := toLowerS (trimS b.routeTo)
  if rt == "none" || rt == "no routing" then
    let prevMod := lookupS st.routeModules b.name
    let (srv', tr) :=
      match prevMod with
      | some m => (unloadSrv srv m, [Cmd.unloadModule m])
      | none => (srv, [])
    let st' : RState :=
      { st with
        routeModules := eraseS st.routeModules b.name
        routeTarget := setS st.routeTarget b.name "none" }
    .ok (st', srv', tr)
  else
    let target := if b.routeTo == "default" then physicalDefaultSink srv else b.routeTo
    if target == "" then .ok (st, srv, [])
    else if target == b.name || endsWithS target ".monitor" then .ok (st, srv, [])
    else
      let monitor := b.name ++ ".monitor"
      if !(sourceExists srv monitor) then .ok (st, srv, [])
      else if loopbackExists srv monitor target then
        let (srv', tr) := cleanupWrong srv monitor target
        let st' : RState := { st with routeTarget := setS st.routeTarget b.name target }
        .ok (st', srv', tr)
      else
        let prevTarget := (lookupS st.routeTarget b.name).getD ""
        let prevMod := lookupS st.routeModules b.name
        match handoverOp env b.name monitor target prevMod prevTarget srv with
        | .error e => .error e
        | .ok (mid, srv', tr) =>
            let st' : RState :=
              { st with
                routeModules := setS st.routeModules b.name mid
                routeTarget := setS st.routeTarget b.name target }
            .ok (st', srv', tr)

def phase3 (env : Env) : List Bus → RState → Server →
    Except (Server × List Cmd) (RState × Server × List Cmd)
  | [], st, srv => .ok (st, srv, [])
  | b :: rest, st, srv =>
      match busStep env b st srv with
      | .error e => .error e
      | .ok (st1, srv1, tr1) =>
          match phase3 env rest st1 srv1 with
          | .error (srvE, trE) => .error (srvE, tr1 ++ trE)
          | .ok (st', srv', tr) => .ok (st', srv', tr1 ++ tr)

/-- One input route of phase 4; its `load_loopback` failure is caught
(`except Exception: continue`), leaving the state entries untouched. -/
def inputRouteStep (env : Env) (r : InputRoute) (st : RState) (srv : Server) :
    RState × Server × List Cmd :=
  let src := trimS r.source
  let tgt := trimS r.targetBus
  if src == "" || tgt == "" then (st, srv, [])
  else if !(sourceExists srv src) || !(sinkExists srv tgt) then (st, srv, [])
  else if endsWithS src ".monitor" then (st, srv, [])
  else if loopbackExists srv src tgt then
    let (srv', tr) := cleanupWrong srv src tgt
    let st' : RState := { st with inputRouteTarget := setS st.inputRouteTarget src tgt }
    (st', srv', tr)
  else
    let prevMod := lookupS st.inputRouteModules src
    let prevTarget := (lookupS st.inputRouteTarget src).getD ""
    let (srv1, tr1) :=
      match prevMod with
      | some m => if prevTarget != tgt then (unloadSrv srv m, [Cmd.unloadModule m]) else (srv, [])
      | none => (srv, [])
    let (srv2, tr2) := cleanupWrong srv1 src tgt
    if env.loopbackFails src tgt then
      (st, srv2, tr1 ++ tr2 ++ [Cmd.loadLoopback src tgt])
    else
      let (mid, srv3, tr3) := loadLoopbackOp srv2 src tgt
      let st' : RState :=
        { st with
          inputRouteModules := setS st.inputRouteModules src mid
          inputRouteTarget := setS st.inputRouteTarget src tgt }
      (st', srv3, tr1 ++ tr2 ++ tr3)

def phase4 (env : Env) : List InputRoute → RState → Server →
    RState × Server × List Cmd
  | [], st, srv => (st, srv, [])
  | r :: rest, st, srv =>
      let (st1, srv1, tr1) := inputRouteStep env r st srv
      let (st', srv', tr) := phase4 env rest st1 srv1
      (st', srv', tr1 ++ tr)

/-- The rules loop of phase 6 for one stream: every matching rule with an
existing target issues a move (failures swallowed); there is no break.
Returns whether any rule matched. -/
def streamRulesGo (env : Env) (sid : Nat) (binv appv aidv : String) :
    List StreamRule → Server → Bool × Server × List Cmd
  | [], srv => (false, srv, [])
  | r :: rest, srv =>
      if r.targetBus == "" || !(sinkExists srv r.targetBus) then
        streamRulesGo env sid binv appv aidv rest srv
      else if matchOK r.matchSpec binv appv aidv then
        let (_, srv1, tr1) := moveSinkInputOp env srv sid r.targetBus
        let (_, srv', tr) := streamRulesGo env sid binv appv aidv rest srv1
        (true, srv', tr1 ++ tr)
      else streamRulesGo env sid binv appv aidv rest srv

/-- Phase 6 for one snapshotted stream: rules first, then the system-sound
fallback (skipped when some rule matched or the stream already sits on the
system bus). -/
def streamStep (env : Env) (rules : List StreamRule) (haveSystem : Bool)
    (inp : SrvInput) (srv : Server) : Server × List Cmd :=
  let appv := toLowerS (propGet inp.props "application.name")
  let binv := toLowerS (propGet inp.props "application.process.binary")
  let aidv := toLowerS (propGet inp.props "pipewire.access.portal.app_id")
  let (matched, srv1, tr1) := streamRulesGo env inp.id binv appv aidv rules srv
  if matched then (srv1, tr1)
  else if haveSystem && isSystemStream inp.props then
    if sinkNameById srv1 inp.sinkId == "vsink.system" then (srv1, tr1)
    else
      let (_, srv2, tr2) := moveInputQuietlyOp env srv1 inp.id "vsink.system"
        SYSTEM_STREAM_MOVE_MUTE_MSEC
      (srv2, tr1 ++ tr2)
  else (srv1, tr1)

def phase6Go (env : Env) (rules : List StreamRule) (haveSystem : Bool) :
    List SrvInput → Server → Server × List Cmd
  | [], srv => (srv, [])
  | inp :: rest, srv =>
      let (srv1, tr1) := streamStep env rules haveSystem inp srv
      let (srv', tr) := phase6Go env rules haveSystem rest srv1
      (srv', tr1 ++ tr)

/-- Phase 6: iterate the stream rules over a snapshot of the sink-inputs. -/
def phase6 (env : Env) (rules : List StreamRule) (srv : Server) :
    Server × List Cmd :=
  phase6Go env rules (sinkExists srv "vsink.system") srv.sinkInputs srv

/-- Result of one `apply_once` call: the issued mutation trace, the server
afterwards, and the state written by `save_state` — `none` when the run
raised before reaching `save_state`. -/
structure RunResult where
  trace : List Cmd
  server : Server
  saved : Option RState
  deriving Repr

/-- Phases 0–6 of `core.apply_once`: `saved` carries the state that
`save_state` would write (or `none` when phase 2 or 3 raised). -/
def reconcileMain (cfg : Cfg) (st0 : RState) (srv0 : Server) (env : Env) : RunResult :=
  let wanted := (cfg.inputRoutes.map (fun r => trimS r.source)).filter (fun s => s != "")
  let names := cfg.buses.map (fun b => b.name)
  let (stA, srvA, t0) := phase0 wanted st0 srv0
  let (stB, srvB, t1) := phase1 names stA srvA
  match phase2 env cfg.buses stB srvB with
  | .error (srvE, t2) => ⟨t0 ++ t1 ++ t2, srvE, none⟩
  | .ok (stC, srvC, t2) =>
      match phase3 env cfg.buses stC srvC with
      | .error (srvE, t3) => ⟨t0 ++ t1 ++ t2 ++ t3, srvE, none⟩
      | .ok (stD, srvD, t3) =>
          let (stE, srvE, t4) := phase4 env cfg.inputRoutes stD srvD
          let (srvF, t5) := ensureModuleLoadedOp srvE "module-intended-roles"
          let (srvG, t6) := phase6 env cfg.rules srvF
          ⟨t0 ++ t1 ++ t2 ++ t3 ++ t4 ++ t5 ++ t6, srvG, some stE⟩

/-- `core.apply_once`.  Phase 7 (microphone rules) starts by calling
`pa.list_source_outputs`, which `pactl.py` does not define, so a non-empty
`mic_routes` raises `AttributeError` right after phase 6 — before any phase-7
command is issued — and `save_state` is never reached: `saved` is masked to
`none`. -/
def applyOnce (cfg : Cfg) (st0 : RState) (srv0 : Server) (env : Env) : RunResult :=
  let r := reconcileMain cfg st0 srv0 env
  ⟨r.trace, r.server, if cfg.micRoutes.isEmpty then r.saved else none⟩

/-! # Claim C8 — the system-sound classifier -/

/-- The classifier exactly as the claim words it: the `application.process.binary`
set is claimed to be the `application.name` set plus `canberra-gtk-play`
(hence including `kded5` and `kded6`). -/
def c8ClaimForm (props : List (String × String)) : Bool :=
  let role := toLowerS (propGet props "media.role")
  let app := toLowerS (propGet props "application.name")
  let binary := toLowerS (propGet props "application.process.binary")
  let appId := toLowerS (propGet props "pipewire.access.portal.app_id")
  let mediaName := toLowerS (propGet props "media.name")
  let apps := ["gnome-shell", "plasmashell", "kded5", "kded6", "xfce4-notifyd",
    "notification-daemon", "mako"]
  (role == "event" || role == "notification") ||
  apps.contains app ||
  (apps ++ ["canberra-gtk-play"]).contains binary ||
  (startsWithS appId "org.freedesktop.impl.portal" && pyIn "portal" mediaName) ||
  ["system sound", "system sounds", "systemklänge", "benachrichtigung",
    "notification", "event"].any (fun token => pyIn token mediaName)

/-- The classifier as amended: `application.process.binary` is checked against
`{gnome-shell, plasmashell, xfce4-notifyd, notification-daemon, mako,
canberra-gtk-play}` — the `application.name` set *minus `kded5`/`kded6`*, plus
`canberra-gtk-play`. -/
def c8AmendedForm (props : List (String × String)) : Bool :=
  let role := toLowerS (propGet props "media.role")
  let app := toLowerS (propGet props "application.name")
  let binary := toLowerS (propGet props "application.process.binary")
  let appId := toLowerS (propGet props "pipewire.access.portal.app_id")
  let mediaName := toLowerS (propGet props "media.name")
  let apps := ["gnome-shell", "plasmashell", "kded5", "kded6", "xfce4-notifyd",
    "notification-daemon", "mako"]
  let bins := ["gnome-shell", "plasmashell", "xfce4-notifyd",
    "notification-daemon", "mako", "canberra-gtk-play"]
  (role == "event" || role == "notification") ||
  apps.contains app ||
  bins.contains binary ||
  (startsWithS appId "org.freedesktop.impl.portal" && pyIn "portal" mediaName) ||
  ["system sound", "system sounds", "systemklänge", "benachrichtigung",
    "notification", "event"].any (fun token => pyIn token mediaName)

/-- Claim C8 is false as stated: a stream whose
`application.process.binary` is `kded5` is claimed to classify as a system
sound, but `_is_system_stream` rejects it (`known_bins` lacks
`kded5`/`kded6`). -/
theorem c8_counterexample :
    isSystemStream [("application.process.binary", "kded5")] = false ∧
      c8ClaimForm [("application.process.binary", "kded5")] = true := by
  exact ⟨by decide, by decide⟩

/-- Claim C8 as amended: the classifier returns true iff one of the claim's
clauses holds, with the binary set corrected to exclude `kded5`/`kded6`. -/
theorem boolIteOr (x y z : Bool) :
    (if x = true then true else if y = true then true else z) = (x || (y || z)) := by
  cases x <;> cases y <;> simp

theorem c8_classifier (props : List (String × String)) :
    isSystemStream props = c8AmendedForm props := by
  unfold isSystemStream c8AmendedForm
  cases h1 : (toLowerS (propGet props "media.role") == "event" ||
      toLowerS (propGet props "media.role") == "notification")
  case true => simp [h1]
  case false =>
    simp only [h1, Bool.false_or, if_false]
    rw [boolIteOr]
    simp [Bool.or_assoc]

/-! # Claim C7 — resolving `route_to = "default"` -/

/-- The resolution rule exactly as the claim words it: fall back to the first
listed sink whose name does not start with `vsink.` (no non-emptiness
requirement on the name). -/
def c7ClaimResolve (srv : Server) : String :=
  if srv.defaultSink != "" && !(startsWithS srv.defaultSink "vsink.") then
    srv.defaultSink
  else
    match srv.sinks.find? (fun s => !(startsWithS s.name "vsink.")) with
    | some s => s.name
    | none => srv.defaultSink

/-- The resolution rule as amended, phrased over the filtered sink list: fall
back to the first listed sink whose name is non-empty and does not start with
`vsink.`. -/
def c7AmendedResolve (srv : Server) : String :=
  if srv.defaultSink != "" && !(startsWithS srv.defaultSink "vsink.") then
    srv.defaultSink
  else
    match (srv.sinks.filter (fun s => s.name != "" && !(startsWithS s.name "vsink."))).head? with
    | some s => s.name
    | none => srv.defaultSink

def c7Srv : Server :=
  ⟨"vsink.a", [⟨0, "", none⟩, ⟨1, "vsink.a", none⟩], [], [], [], 9⟩

/-- Claim C7 is false as stated: with default sink `vsink.a` and sink list
`["", "vsink.a"]`, the claim resolves to the first non-`vsink.` sink `""`,
but the code skips empty names and returns the raw default `vsink.a` — which
has the `vsink.` prefix although not every listed sink has it. -/
theorem c7_counterexample :
    physicalDefaultSink c7Srv = "vsink.a" ∧
      c7ClaimResolve c7Srv = "" ∧
      startsWithS (physicalDefaultSink c7Srv) "vsink." = true ∧
      c7Srv.sinks.all (fun s => startsWithS s.name "vsink.") = false := by
  refine ⟨?_, ?_, ?_, ?_⟩ <;> decide

theorem find?_eq_filter_head? {α : Type} (p : α → Bool) (l : List α) :
    l.find? p = (l.filter p).head? := by
  induction l with
  | nil => rfl
  | cons a t ih =>
      cases h : p a
      · rw [List.find?_cons_of_neg _ (by simp [h]), List.filter_cons_of_neg (by simp [h])]
        exact ih
      · rw [List.find?_cons_of_pos _ h, List.filter_cons_of_pos h]
        rfl

/-- Claim C7 as amended: the resolved target is the default when it is
non-empty and not `vsink.`-prefixed, otherwise the first listed sink with a
*non-empty*, non-`vsink.` name, otherwise the raw default; consequently a
`vsink.`-prefixed result means every listed sink has an empty or
`vsink.`-prefixed name. -/
theorem c7_physical_default (srv : Server) :
    physicalDefaultSink srv = c7AmendedResolve srv ∧
      (startsWithS (physicalDefaultSink srv) "vsink." = true →
        ∀ s ∈ srv.sinks, s.name = "" ∨ startsWithS s.name "vsink." = true) := by
  constructor
  · unfold physicalDefaultSink c7AmendedResolve
    rw [find?_eq_filter_head?]
  · intro hpre s hs
    unfold physicalDefaultSink at hpre
    by_cases hd : (srv.defaultSink != "" && !(startsWithS srv.defaultSink "vsink.")) = true
    · rw [if_pos hd] at hpre
      simp only [Bool.and_eq_true, Bool.not_eq_true'] at hd
      rw [hd.2] at hpre
      exact absurd hpre (by simp)
    · rw [if_neg hd] at hpre
      cases hfind : srv.sinks.find? (fun s => s.name != "" && !(startsWithS s.name "vsink.")) with
      | some t =>
          rw [hfind] at hpre
          have ht := List.find?_some hfind
          simp only [Bool.and_eq_true, Bool.not_eq_true'] at ht
          rw [ht.2] at hpre
          exact absurd hpre (by simp)
      | none =>
          have hnone := List.find?_eq_none.mp hfind s hs
          by_cases hn : s.name = ""
          · exact Or.inl hn
          · right
            by_contra hsw
            rw [Bool.not_eq_true] at hsw
            exact hnone (by simp [hn, hsw])

def c7WitnessSrv : Server := ⟨"vsink.z", [⟨0, "vsink.z", none⟩], [], [], [], 5⟩

/-! ## Command classifiers and basic trace-shape lemmas -/

def isLoadCmd : Cmd → Bool
  | .loadNullSink _ _ => true
  | .loadLoopback _ _ => true
  | .ensureLoad _ => true
  | _ => false

def isUnloadCmd : Cmd → Bool
  | .unloadModule _ => true
  | _ => false

def isMuteCmd : Cmd → Bool
  | .setSinkMute _ _ => true
  | .setSourceMute _ _ => true
  | .setSinkInputMute _ _ => true
  | _ => false

def isMoveCmd : Cmd → Bool
  | .moveSinkInput _ _ => true
  | _ => false

def isPropsCmd : Cmd → Bool
  | .setSinkProps _ => true
  | .setSourceProps _ => true
  | _ => false

theorem cleanupWrong_trace (srv : Server) (s t : String) :
    ∀ c ∈ (cleanupWrong srv s t).2, isUnloadCmd c = true := by
  intro c hc
  unfold cleanupWrong at hc
  simp only [List.mem_map] at hc
  obtain ⟨m, _, rfl⟩ := hc
  rfl

theorem moveSinkInputOp_trace (env : Env) (srv : Server) (sid : Nat) (t : String) :
    (moveSinkInputOp env srv sid t).2.2 = [Cmd.moveSinkInput sid t] := by
  unfold moveSinkInputOp
  cases srv.sinks.find? (fun s => s.name == t) with
  | none => rfl
  | some sk => by_cases h : env.moveFails sid t = true <;> simp [h]

theorem moveSinkInputOp_sinks (env : Env) (srv : Server) (sid : Nat) (t : String) :
    (moveSinkInputOp env srv sid t).2.1.sinks = srv.sinks := by
  unfold moveSinkInputOp
  cases srv.sinks.find? (fun s => s.name == t) with
  | none => rfl
  | some sk => by_cases h : env.moveFails sid t = true <;> simp [h]

/-- Witness for C7 at a server whose only sink is `vsink.z`: both conjuncts of
the amended claim evaluate, and the implication's antecedent holds. -/
theorem c7_witness :
    (physicalDefaultSink c7WitnessSrv = c7AmendedResolve c7WitnessSrv ∧
      (∀ s ∈ c7WitnessSrv.sinks, s.name = "" ∨ startsWithS s.name "vsink." = true)) := by
  refine ⟨(c7_physical_default c7WitnessSrv).1, ?_⟩
  exact (c7_physical_default c7WitnessSrv).2 (by decide)

/-! # Claim C3 — rules with an empty `match` mapping -/

def c3Cfg : Cfg := ⟨[], [⟨⟨none, none, none⟩, "vsink.b"⟩], [], []⟩

def c3Srv : Server :=
  ⟨"hw0", [⟨1, "vsink.b", none⟩, ⟨2, "hw0", none⟩], [], [], [⟨7, 2, none, []⟩], 30⟩

/-- Claim C3 is false as stated: with a single rule whose `match` is empty and
whose `target_bus` exists, both the fast path and full reconciliation move the
stream on account of that rule (all key checks are vacuously true, so an
empty `match` matches everything). -/
theorem c3_counterexample :
    (routeSinkInputNow c3Cfg Env.ok c3Srv "7").1 = true ∧
      (routeSinkInputNow c3Cfg Env.ok c3Srv "7").2.2 = [Cmd.moveSinkInput 7 "vsink.b"] ∧
      Cmd.moveSinkInput 7 "vsink.b" ∈ (applyOnce c3Cfg emptyState c3Srv Env.ok).trace := by
  refine ⟨by decide, by decide, by decide⟩

/-- Claim C3 as amended: a rule with empty `match` matches every stream, and
the fast-path router therefore issues the move for any stream whenever the
rule's target bus exists. -/
theorem c3_empty_match_matches_all (binv appv aidv tgt : String) (srv : Server)
    (sid : Nat) (hex : sinkExists srv tgt = true) (hne : tgt ≠ "") :
    matchOK ⟨none, none, none⟩ binv appv aidv = true ∧
      fastRulesGo Env.ok srv sid binv appv aidv [⟨⟨none, none, none⟩, tgt⟩] =
        some (moveSinkInputOp Env.ok srv sid tgt) := by
  constructor
  · rfl
  · unfold fastRulesGo
    simp [hex, hne, matchOK]

/-- Witness for C3 at the concrete configuration of the counterexample. -/
theorem c3_witness :
    matchOK ⟨none, none, none⟩ "b" "a" "i" = true ∧
      fastRulesGo Env.ok c3Srv 7 "b" "a" "i" [⟨⟨none, none, none⟩, "vsink.b"⟩] =
        some (moveSinkInputOp Env.ok c3Srv 7 "vsink.b") :=
  c3_empty_match_matches_all "b" "a" "i" "vsink.b" c3Srv 7 (by decide) (by decide)

/-! ## String facts and run-completion lemmas -/

theorem endsWithS_append (x y : String) : endsWithS (x ++ y) y = true := by
  unfold endsWithS
  rw [String.data_append]
  exact List.isSuffixOf_iff_suffix.mpr (List.suffix_append x.data y.data)

theorem append_cancel_right_str {x y m : String} (h : x ++ m = y ++ m) : x = y := by
  have hd : x.data ++ m.data = y.data ++ m.data := by
    have := congrArg String.data h
    simpa [String.data_append] using this
  exact String.ext (List.append_cancel_right hd)

theorem handoverOp_ok (env : Env) (name monitor target : String) (prevMod : Option Nat)
    (prevTarget : String) (srv : Server)
    (h : env.loopbackFails monitor target = false) :
    ∃ x, handoverOp env name monitor target prevMod prevTarget srv = .ok x := by
  unfold handoverOp
  by_cases hv : (startsWithS target "vsink." || startsWithS prevTarget "vsink.") = true
  · simp only [hv, if_true, h, Bool.false_eq_true, if_false]
    exact ⟨_, rfl⟩
  · simp only [Bool.not_eq_true] at hv
    simp only [hv, Bool.false_eq_true, if_false, h]
    exact ⟨_, rfl⟩

theorem busStep_ok (env : Env) (b : Bus) (st : RState) (srv : Server)
    (h : ∀ s t, endsWithS s ".monitor" = true → env.loopbackFails s t = false) :
    ∃ x, busStep env b st srv = .ok x := by
  unfold busStep
  dsimp only
  repeat' split
  all_goals try exact ⟨_, rfl⟩
  all_goals rename_i heq
  all_goals first
    | (obtain ⟨x, hx⟩ := handoverOp_ok env b.name (b.name ++ ".monitor")
        (physicalDefaultSink srv) (lookupS st.routeModules b.name)
        ((lookupS st.routeTarget b.name).getD "") srv
        (h (b.name ++ ".monitor") _ (endsWithS_append b.name ".monitor"))
       rw [hx] at heq
       exact absurd heq (by simp))
    | (obtain ⟨x, hx⟩ := handoverOp_ok env b.name (b.name ++ ".monitor")
        b.routeTo (lookupS st.routeModules b.name)
        ((lookupS st.routeTarget b.name).getD "") srv
        (h (b.name ++ ".monitor") _ (endsWithS_append b.name ".monitor"))
       rw [hx] at heq
       exact absurd heq (by simp))

theorem phase3_ok (env : Env) (buses : List Bus) (st : RState) (srv : Server)
    (h : ∀ s t, endsWithS s ".monitor" = true → env.loopbackFails s t = false) :
    ∃ x, phase3 env buses st srv = .ok x := by
  induction buses generalizing st srv with
  | nil => exact ⟨_, rfl⟩
  | cons b rest ih =>
      obtain ⟨⟨st1, srv1, tr1⟩, hb⟩ := busStep_ok env b st srv h
      obtain ⟨⟨st2, srv2, tr2⟩, hx⟩ := ih st1 srv1
      unfold phase3
      simp only [hb, hx]
      exact ⟨_, rfl⟩

theorem phase2_ok (env : Env) (buses : List Bus) (st : RState) (srv : Server)
    (h : ∀ b ∈ buses, env.nullSinkFails b.name = false) :
    ∃ x, phase2 env buses st srv = .ok x := by
  induction buses generalizing st srv with
  | nil => exact ⟨_, rfl⟩
  | cons b rest ih =>
      have hrest : ∀ b' ∈ rest, env.nullSinkFails b'.name = false := by
        intro b' hb'
        exact h b' (List.mem_cons_of_mem b hb')
      by_cases hs : sinkExists srv b.name = true
      · obtain ⟨⟨st2, srv2, tr2⟩, hx⟩ := ih st srv hrest
        unfold phase2
        rw [if_pos hs]
        simp only [hx]
        exact ⟨_, rfl⟩
      · obtain ⟨⟨st2, srv2, tr2⟩, hx⟩ := ih
          (RState.mk (setS st.busModules b.name (loadNullSinkOp srv b.name b.label).1)
            st.routeModules st.inputRouteModules st.routeTarget st.inputRouteTarget)
          (loadNullSinkOp srv b.name b.label).2.1 hrest
        unfold phase2
        rw [if_neg hs, if_neg (by simp [h b (List.mem_cons_self b rest)])]
        simp only [hx]
        exact ⟨_, rfl⟩

/-- Under per-command-failure hypotheses that exclude only the raising
`pactl` call sites of phases 2 and 3, phases 0–6 always complete and the
would-be-saved state exists. -/
theorem reconcileMain_completes (cfg : Cfg) (st : RState) (srv : Server) (env : Env)
    (h2 : ∀ b ∈ cfg.buses, env.nullSinkFails b.name = false)
    (h3 : ∀ s t, endsWithS s ".monitor" = true → env.loopbackFails s t = false) :
    (reconcileMain cfg st srv env).saved.isSome = true := by
  unfold reconcileMain
  obtain ⟨⟨stB, srvB, trB⟩, hB⟩ :=
    phase2_ok env cfg.buses
      (phase1 (cfg.buses.map (fun b => b.name))
        (phase0 ((cfg.inputRoutes.map (fun r => trimS r.source)).filter
          (fun s => s != "")) st srv).1
        (phase0 ((cfg.inputRoutes.map (fun r => trimS r.source)).filter
          (fun s => s != "")) st srv).2.1).1
      (phase1 (cfg.buses.map (fun b => b.name))
        (phase0 ((cfg.inputRoutes.map (fun r => trimS r.source)).filter
          (fun s => s != "")) st srv).1
        (phase0 ((cfg.inputRoutes.map (fun r => trimS r.source)).filter
          (fun s => s != "")) st srv).2.1).2.1
      h2
  obtain ⟨⟨stC, srvC, trC⟩, hC⟩ := phase3_ok env cfg.buses stB srvB h3
  simp only [hB, hC]
  rfl

/-! # Claim C6 — non-empty `mic_routes` aborts every run before `save_state` -/

/-- Claim C6: with a non-empty `mic_routes`, `apply_once` always raises in
the microphone-rules phase on a steady server — the driver module defines no
`list_source_outputs`/`move_source_output` — so `save_state` is never reached
(`saved = none`), the raise contributes no commands (the trace equals the
trace of the same configuration with `mic_routes` cleared), and clearing
`mic_routes` is the only thing needed for the run to complete. -/
theorem c6_mic_routes_abort (cfg : Cfg) (st : RState) (srv : Server)
    (h : cfg.micRoutes ≠ []) :
    (applyOnce cfg st srv Env.ok).saved = none ∧
      (applyOnce cfg st srv Env.ok).trace =
        (applyOnce ⟨cfg.buses, cfg.rules, [], cfg.inputRoutes⟩ st srv Env.ok).trace ∧
      (applyOnce ⟨cfg.buses, cfg.rules, [], cfg.inputRoutes⟩ st srv Env.ok).saved.isSome
        = true := by
  refine ⟨?_, ?_, ?_⟩
  · unfold applyOnce
    simp [List.isEmpty_iff, h]
  · unfold applyOnce reconcileMain
    rfl
  · unfold applyOnce
    simp only [List.isEmpty_nil, if_true]
    exact reconcileMain_completes ⟨cfg.buses, cfg.rules, [], cfg.inputRoutes⟩ st srv
      Env.ok (fun _ _ => rfl) (fun _ _ _ => rfl)

/-- Witness for C6 at a concrete one-rule `mic_routes` configuration. -/
theorem c6_witness :
    (applyOnce ⟨[], [], [⟨⟨none, none, none⟩, "vsink.b"⟩], []⟩ emptyState c3Srv
      Env.ok).saved = none :=
  (c6_mic_routes_abort ⟨[], [], [⟨⟨none, none, none⟩, "vsink.b"⟩], []⟩ emptyState
    c3Srv (by decide)).1

/-! # Claim C2 — the stream-rules loop of `apply_once` -/

/-- Whether a rule fires for a stream in the phase-6 loop: truthy `target_bus`
that exists among the given sinks, and all present match keys contained in the
lowercased properties. -/
def ruleFires (sinks : List SrvSink) (binv appv aidv : String) (r : StreamRule) : Bool :=
  !(r.targetBus == "") && sinks.any (fun s => s.name == r.targetBus) &&
    matchOK r.matchSpec binv appv aidv

def c2Cfg : Cfg :=
  ⟨[], [⟨⟨none, none, none⟩, "t1"⟩, ⟨⟨none, none, none⟩, "t2"⟩], [], []⟩

def c2Srv : Server :=
  ⟨"hw0", [⟨1, "t1", none⟩, ⟨2, "t2", none⟩, ⟨3, "hw0", none⟩], [], [],
    [⟨7, 3, none, []⟩], 40⟩

/-- Claim C2 is false as stated: with two rules that both match the same
stream, reconciliation issues the first rule's move *and* the second rule's
move — the loop does not terminate after the first successful match. -/
theorem c2_counterexample :
    Cmd.moveSinkInput 7 "t1" ∈ (applyOnce c2Cfg emptyState c2Srv Env.ok).trace ∧
      Cmd.moveSinkInput 7 "t2" ∈ (applyOnce c2Cfg emptyState c2Srv Env.ok).trace := by
  refine ⟨by decide, by decide⟩

/-- Claim C2 as amended: in the stream-rules phase every rule that fires
issues a move, in configuration order (the loop has no break, so later
matching rules are applied too and the stream ends on the last matching
rule's target); the stream counts as matched iff some rule fires. -/
theorem c2_rules_trace (env : Env) (sid : Nat) (binv appv aidv : String)
    (rules : List StreamRule) (srv : Server) :
    (streamRulesGo env sid binv appv aidv rules srv).2.2 =
      rules.filterMap (fun r =>
        if ruleFires srv.sinks binv appv aidv r then
          some (Cmd.moveSinkInput sid r.targetBus)
        else none) ∧
    (streamRulesGo env sid binv appv aidv rules srv).1 =
      rules.any (ruleFires srv.sinks binv appv aidv) := by
  induction rules generalizing srv with
  | nil => exact ⟨rfl, rfl⟩
  | cons r rest ih =>
      by_cases h1 : (r.targetBus == "" || !(sinkExists srv r.targetBus)) = true
      · have hf : ruleFires srv.sinks binv appv aidv r = false := by
          unfold ruleFires
          rcases Bool.or_eq_true_iff.mp h1 with h | h
          · simp [h]
          · unfold sinkExists at h
            simp only [Bool.not_eq_true'] at h
            simp [h]
        have := ih srv
        unfold streamRulesGo
        rw [if_pos h1]
        simp [hf, this.1, this.2]
      · by_cases h2 : matchOK r.matchSpec binv appv aidv = true
        · have hf : ruleFires srv.sinks binv appv aidv r = true := by
            unfold ruleFires
            simp only [Bool.or_eq_true, Bool.not_eq_true] at h1
            push_neg at h1
            have hx : (r.targetBus == "") = false := by
              cases hy : (r.targetBus == "") with
              | false => rfl
              | true => exact absurd hy h1.1
            have he : sinkExists srv r.targetBus = true := by
              cases hy : sinkExists srv r.targetBus with
              | true => rfl
              | false => exact absurd (by simp [hy]) h1.2
            unfold sinkExists at he
            simp [hx, he, h2]
          cases hm : moveSinkInputOp env srv sid r.targetBus with
          | mk b1 p1 =>
              cases p1 with
              | mk srv1 tr1 =>
                  have htr : tr1 = [Cmd.moveSinkInput sid r.targetBus] := by
                    have := moveSinkInputOp_trace env srv sid r.targetBus
                    rw [hm] at this
                    exact this
                  have hsk : srv1.sinks = srv.sinks := by
                    have := moveSinkInputOp_sinks env srv sid r.targetBus
                    rw [hm] at this
                    exact this
                  have hih := ih srv1
                  rw [hsk] at hih
                  unfold streamRulesGo
                  rw [if_neg h1, if_pos h2, hm]
                  simp [hf, htr, hih.1, hih.2]
        · have hf : ruleFires srv.sinks binv appv aidv r = false := by
            unfold ruleFires
            simp only [Bool.not_eq_true] at h2
            simp [h2]
          have := ih srv
          unfold streamRulesGo
          rw [if_neg h1]
          simp only [h2, if_false]
          simp [hf, this.1, this.2]

/-! # Claim C9 — loopback creation never self-loops and never targets monitors -/

/-- The well-formedness the claim asserts of every created loopback: its sink
is not a monitor name, and its source is not the monitor of its own sink. -/
def loopbackLoadOK (c : Cmd) : Prop :=
  ∀ s t, c = Cmd.loadLoopback s t → endsWithS t ".monitor" = false ∧ s ≠ t ++ ".monitor"

theorem loopbackLoadOK_of_not_load {c : Cmd} (h : ∀ s t, c ≠ Cmd.loadLoopback s t) :
    loopbackLoadOK c :=
  fun s t heq => absurd heq (h s t)

theorem loopbackLoadOK_of_unload {c : Cmd} (h : isUnloadCmd c = true) :
    loopbackLoadOK c := by
  intro s t heq
  subst heq
  simp [isUnloadCmd] at h

/-- The trace of either outcome of a fallible phase step. -/
def stepTrace (res : Except (Server × List Cmd) (RState × Server × List Cmd)) :
    List Cmd :=
  match res with
  | .error (_, tr) => tr
  | .ok (_, _, tr) => tr

theorem phase0Go_trace (wanted : List String) (l : List (String × Nat)) (st : RState)
    (srv : Server) : ∀ c ∈ (phase0Go wanted l st srv).2.2, isUnloadCmd c = true := by
  induction l generalizing st srv with
  | nil => intro c hc; simp [phase0Go] at hc
  | cons p rest ih =>
      intro c hc
      unfold phase0Go at hc
      by_cases hw : wanted.contains p.1 = true
      · rw [if_pos hw] at hc
        exact ih st srv c hc
      · rw [if_neg hw] at hc
        simp only [List.mem_cons] at hc
        rcases hc with rfl | hc
        · rfl
        · exact ih _ _ c hc

theorem phase1RouteGo_trace (names : List String) (l : List (String × Nat))
    (st : RState) (srv : Server) :
    ∀ c ∈ (phase1RouteGo names l st srv).2.2, isUnloadCmd c = true := by
  induction l generalizing st srv with
  | nil => intro c hc; simp [phase1RouteGo] at hc
  | cons p rest ih =>
      intro c hc
      unfold phase1RouteGo at hc
      by_cases hw : names.contains p.1 = true
      · rw [if_pos hw] at hc
        exact ih st srv c hc
      · rw [if_neg hw] at hc
        simp only [List.mem_cons] at hc
        rcases hc with rfl | hc
        · rfl
        · exact ih _ _ c hc

theorem phase1BusGo_trace (names : List String) (l : List (String × Nat))
    (st : RState) (srv : Server) :
    ∀ c ∈ (phase1BusGo names l st srv).2.2, isUnloadCmd c = true := by
  induction l generalizing st srv with
  | nil => intro c hc; simp [phase1BusGo] at hc
  | cons p rest ih =>
      intro c hc
      unfold phase1BusGo at hc
      by_cases hw : names.contains p.1 = true
      · rw [if_pos hw] at hc
        exact ih st srv c hc
      · rw [if_neg hw] at hc
        simp only [List.mem_cons] at hc
        rcases hc with rfl | hc
        · rfl
        · exact ih _ _ c hc

theorem phase1_trace (names : List String) (st : RState) (srv : Server) :
    ∀ c ∈ (phase1 names st srv).2.2, isUnloadCmd c = true := by
  intro c hc
  unfold phase1 at hc
  simp only [List.mem_append] at hc
  rcases hc with hc | hc
  · exact phase1RouteGo_trace names st.routeModules st srv c hc
  · exact phase1BusGo_trace names
      (phase1RouteGo names st.routeModules st srv).1.busModules
      (phase1RouteGo names st.routeModules st srv).1
      (phase1RouteGo names st.routeModules st srv).2.1 c hc

theorem tagSystemSinkTr_no_loop (srv : Server) (n : String) :
    ∀ c ∈ tagSystemSinkTr srv n, loopbackLoadOK c := by
  intro c hc
  unfold tagSystemSinkTr at hc
  by_cases hx : sinkExists srv n = true
  · rw [if_pos hx, List.mem_singleton] at hc
    subst hc
    exact loopbackLoadOK_of_not_load (fun _ _ => by simp)
  · rw [if_neg hx] at hc
    simp at hc

theorem loadNullSinkOp_no_loop (srv : Server) (n l : String) :
    ∀ c ∈ (loadNullSinkOp srv n l).2.2, loopbackLoadOK c := by
  intro c hc
  unfold loadNullSinkOp at hc
  simp only [List.mem_append, List.mem_cons, List.not_mem_nil, or_false] at hc
  rcases hc with (rfl | rfl | rfl) | hc
  · exact loopbackLoadOK_of_not_load (fun _ _ => by simp)
  · exact loopbackLoadOK_of_not_load (fun _ _ => by simp)
  · exact loopbackLoadOK_of_not_load (fun _ _ => by simp)
  · by_cases hn : (n == "vsink.system") = true
    · rw [if_pos hn] at hc
      exact tagSystemSinkTr_no_loop _ n c hc
    · rw [if_neg hn] at hc
      simp at hc

theorem phase2_trace (env : Env) (buses : List Bus) (st : RState) (srv : Server) :
    ∀ c ∈ stepTrace (phase2 env buses st srv), loopbackLoadOK c := by
  induction buses generalizing st srv with
  | nil => intro c hc; simp [phase2, stepTrace] at hc
  | cons b rest ih =>
      intro c hc
      unfold phase2 at hc
      by_cases hs : sinkExists srv b.name = true
      · rw [if_pos hs] at hc
        have htag : ∀ c' ∈ (if b.name == "vsink.system" then
            tagSystemSinkTr srv b.name else []), loopbackLoadOK c' := by
          intro c' hc'
          by_cases hn : (b.name == "vsink.system") = true
          · rw [if_pos hn] at hc'
            exact tagSystemSinkTr_no_loop srv b.name c' hc'
          · rw [if_neg hn] at hc'
            simp at hc'
        cases hrec : phase2 env rest st srv with
        | error e =>
            rw [hrec] at hc
            obtain ⟨srvE, trE⟩ := e
            simp only [stepTrace, List.mem_append] at hc
            rcases hc with hc | hc
            · exact htag c hc
            · have := ih st srv c
              rw [hrec] at this
              exact this hc
        | ok x =>
            rw [hrec] at hc
            obtain ⟨stX, srvX, trX⟩ := x
            simp only [stepTrace, List.mem_append] at hc
            rcases hc with hc | hc
            · exact htag c hc
            · have := ih st srv c
              rw [hrec] at this
              exact this hc
      · rw [if_neg hs] at hc
        by_cases hf : env.nullSinkFails b.name = true
        · rw [if_pos hf] at hc
          simp only [stepTrace, List.mem_singleton] at hc
          subst hc
          exact loopbackLoadOK_of_not_load (fun _ _ => by simp)
        · rw [if_neg hf] at hc
          rcases hop : loadNullSinkOp srv b.name b.label with ⟨mid, srv1, tr1⟩
          rw [hop] at hc
          dsimp only at hc
          have hnl : ∀ c' ∈ tr1, loopbackLoadOK c' := by
            have := loadNullSinkOp_no_loop srv b.name b.label
            rw [hop] at this
            exact this
          have htag : ∀ c' ∈ (if b.name == "vsink.system" then
              tagSystemSinkTr srv1 b.name else []), loopbackLoadOK c' := by
            intro c' hc'
            by_cases hn : (b.name == "vsink.system") = true
            · rw [if_pos hn] at hc'
              exact tagSystemSinkTr_no_loop _ b.name c' hc'
            · rw [if_neg hn] at hc'
              simp at hc'
          cases hrec : phase2 env rest
              (RState.mk (setS st.busModules b.name mid)
                st.routeModules st.inputRouteModules st.routeTarget st.inputRouteTarget)
              srv1 with
          | error e =>
              rw [hrec] at hc
              obtain ⟨srvE, trE⟩ := e
              simp only [stepTrace, List.mem_append] at hc
              rcases hc with (hc | hc) | hc
              · exact hnl c hc
              · exact htag c hc
              · have := ih (RState.mk (setS st.busModules b.name mid) st.routeModules
                  st.inputRouteModules st.routeTarget st.inputRouteTarget) srv1 c
                rw [hrec] at this
                exact this hc
          | ok x =>
              rw [hrec] at hc
              obtain ⟨stX, srvX, trX⟩ := x
              simp only [stepTrace, List.mem_append] at hc
              rcases hc with (hc | hc) | hc
              · exact hnl c hc
              · exact htag c hc
              · have := ih (RState.mk (setS st.busModules b.name mid) st.routeModules
                  st.inputRouteModules st.routeTarget st.inputRouteTarget) srv1 c
                rw [hrec] at this
                exact this hc

/-- The command trace of a handover, whether it succeeded or raised. -/
def handoverResTrace (res : Except (Server × List Cmd) (Nat × Server × List Cmd)) :
    List Cmd :=
  match res with
  | .error (_, tr) => tr
  | .ok (_, _, tr) => tr

theorem loadLoopbackOp_trace (srv : Server) (s t : String) :
    (loadLoopbackOp srv s t).2.2 =
      [Cmd.loadLoopback s t, Cmd.setSinkProps ("loopback-" ++ toString srv.nextId),
        Cmd.setSourceProps ("loopback-" ++ toString srv.nextId)] := rfl

theorem okAppend {P : Cmd → Prop} {l1 l2 : List Cmd} (h1 : ∀ c ∈ l1, P c)
    (h2 : ∀ c ∈ l2, P c) : ∀ c ∈ l1 ++ l2, P c := by
  intro c hc
  rcases List.mem_append.mp hc with h | h
  · exact h1 c h
  · exact h2 c h

theorem okCons {P : Cmd → Prop} {a : Cmd} {l : List Cmd} (h1 : P a)
    (h2 : ∀ c ∈ l, P c) : ∀ c ∈ a :: l, P c := by
  intro c hc
  rcases List.mem_cons.mp hc with rfl | h
  · exact h1
  · exact h2 c h

theorem okNil {P : Cmd → Prop} : ∀ c ∈ ([] : List Cmd), P c := by
  intro c hc
  simp at hc

theorem okMap {P : Cmd → Prop} {f : Nat → Cmd} {l : List Nat}
    (h : ∀ i, P (f i)) : ∀ c ∈ l.map f, P c := by
  intro c hc
  simp only [List.mem_map] at hc
  obtain ⟨i, _, rfl⟩ := hc
  exact h i

theorem handoverOp_loads (env : Env) (name target : String) (pm : Option Nat)
    (pt : String) (srv : Server) (hne : ¬(target == name) = true)
    (hend : endsWithS target ".monitor" = false) :
    ∀ c ∈ handoverResTrace
      (handoverOp env name (name ++ ".monitor") target pm pt srv), loopbackLoadOK c := by
  have hload : loopbackLoadOK (Cmd.loadLoopback (name ++ ".monitor") target) := by
    intro s t heq
    injection heq with h1 h2
    subst h1
    subst h2
    refine ⟨hend, fun habs => ?_⟩
    exact hne (by simp [append_cancel_right_str habs])
  have hnl : ∀ (n : String) (b : Bool), loopbackLoadOK (Cmd.setSinkMute n b) :=
    fun n b => loopbackLoadOK_of_not_load (fun _ _ => by simp)
  have hns : ∀ (n : String) (b : Bool), loopbackLoadOK (Cmd.setSourceMute n b) :=
    fun n b => loopbackLoadOK_of_not_load (fun _ _ => by simp)
  have hni : ∀ (i : Nat) (b : Bool), loopbackLoadOK (Cmd.setSinkInputMute i b) :=
    fun i b => loopbackLoadOK_of_not_load (fun _ _ => by simp)
  have hnp : ∀ n : String, loopbackLoadOK (Cmd.setSinkProps n) :=
    fun n => loopbackLoadOK_of_not_load (fun _ _ => by simp)
  have hnq : ∀ n : String, loopbackLoadOK (Cmd.setSourceProps n) :=
    fun n => loopbackLoadOK_of_not_load (fun _ _ => by simp)
  have hclean : ∀ s' : Server, ∀ c ∈ (cleanupWrong s' (name ++ ".monitor") target).2,
      loopbackLoadOK c :=
    fun s' c hc =>
      loopbackLoadOK_of_unload (cleanupWrong_trace s' (name ++ ".monitor") target c hc)
  have hfin : ∀ (l1 l2 : List Nat), ∀ c ∈
      l1.map (fun i => Cmd.setSinkInputMute i false) ++
        l2.map (fun i => Cmd.setSinkInputMute i false) ++
        [Cmd.setSourceMute (name ++ ".monitor") false, Cmd.setSinkMute name false],
      loopbackLoadOK c :=
    fun l1 l2 =>
      okAppend (okAppend (okMap (fun i => hni i false)) (okMap (fun i => hni i false)))
        (okCons (hns _ false) (okCons (hnl _ false) okNil))
  have hmutes : ∀ c ∈ [Cmd.setSinkMute name true,
      Cmd.setSourceMute (name ++ ".monitor") true] ++
        (sinkInputsForOwner srv pm).map (fun i => Cmd.setSinkInputMute i true),
      loopbackLoadOK c :=
    okAppend (okCons (hnl _ true) (okCons (hns _ true) okNil))
      (okMap (fun i => hni i true))
  unfold handoverOp
  by_cases hv : (startsWithS target "vsink." || startsWithS pt "vsink.") = true <;>
    by_cases hf : env.loopbackFails (name ++ ".monitor") target = true
  · simp only [hv, if_true, hf, handoverResTrace]
    exact okAppend (okAppend hmutes
        (okAppend (hclean srv) (okCons hload okNil)))
      (hfin _ _)
  · simp only [hv, if_true, hf, Bool.false_eq_true, if_false, handoverResTrace]
    rw [loadLoopbackOp_trace]
    exact okAppend (okAppend hmutes
        (okAppend (hclean srv)
          (okCons hload (okCons (hnp _) (okCons (hnq _) okNil)))))
      (hfin _ _)
  · simp only [Bool.not_eq_true] at hv
    simp only [hv, Bool.false_eq_true, if_false, hf, if_true, handoverResTrace]
    exact okAppend (okAppend hmutes (okCons hload okNil)) (hfin _ _)
  · simp only [Bool.not_eq_true] at hv
    simp only [hv, Bool.false_eq_true, if_false, hf, handoverResTrace]
    rw [loadLoopbackOp_trace]
    exact okAppend (okAppend hmutes
        (okAppend (okCons hload (okCons (hnp _) (okCons (hnq _) okNil)))
          (hclean _)))
      (hfin _ _)

theorem busStep_loads (env : Env) (b : Bus) (st : RState) (srv : Server) :
    ∀ c ∈ stepTrace (busStep env b st srv), loopbackLoadOK c := by
  unfold busStep
  dsimp only
  by_cases h1 : (toLowerS (trimS b.routeTo) == "none" ||
      toLowerS (trimS b.routeTo) == "no routing") = true
  · rw [if_pos h1]
    cases hp : lookupS st.routeModules b.name with
    | some m =>
        dsimp only [stepTrace]
        exact okCons (loopbackLoadOK_of_unload rfl) okNil
    | none => exact okNil
  · rw [if_neg h1]
    set tg := if b.routeTo == "default" then physicalDefaultSink srv else b.routeTo
      with htg
    by_cases h2 : (tg == "") = true
    · rw [if_pos h2]
      exact okNil
    · rw [if_neg h2]
      by_cases h3 : (tg == b.name || endsWithS tg ".monitor") = true
      · rw [if_pos h3]
        exact okNil
      · rw [if_neg h3]
        by_cases h4 : (!(sourceExists srv (b.name ++ ".monitor"))) = true
        · rw [if_pos h4]
          exact okNil
        · rw [if_neg h4]
          by_cases h5 : loopbackExists srv (b.name ++ ".monitor") tg = true
          · rw [if_pos h5]
            exact fun c hc =>
              loopbackLoadOK_of_unload
                (cleanupWrong_trace srv (b.name ++ ".monitor") tg c hc)
          · rw [if_neg h5]
            simp only [Bool.or_eq_true, not_or, Bool.not_eq_true] at h3
            have hl := handoverOp_loads env b.name tg (lookupS st.routeModules b.name)
              ((lookupS st.routeTarget b.name).getD "") srv (by simp [h3.1]) h3.2
            cases hh : handoverOp env b.name (b.name ++ ".monitor") tg
                (lookupS st.routeModules b.name)
                ((lookupS st.routeTarget b.name).getD "") srv with
            | error e =>
                rw [hh] at hl
                obtain ⟨srvE, trE⟩ := e
                exact fun c hc => hl c hc
            | ok x =>
                rw [hh] at hl
                obtain ⟨mid, srvX, trX⟩ := x
                exact fun c hc => hl c hc

theorem phase3_trace (env : Env) (buses : List Bus) (st : RState) (srv : Server) :
    ∀ c ∈ stepTrace (phase3 env buses st srv), loopbackLoadOK c := by
  induction buses generalizing st srv with
  | nil => intro c hc; simp [phase3, stepTrace] at hc
  | cons b rest ih =>
      intro c hc
      unfold phase3 at hc
      cases hb : busStep env b st srv with
      | error e =>
          rw [hb] at hc
          have := busStep_loads env b st srv c
          rw [hb] at this
          exact this hc
      | ok x =>
          rw [hb] at hc
          obtain ⟨st1, srv1, tr1⟩ := x
          dsimp only at hc
          have hstep := busStep_loads env b st srv c
          rw [hb] at hstep
          cases hrec : phase3 env rest st1 srv1 with
          | error e =>
              rw [hrec] at hc
              obtain ⟨srvE, trE⟩ := e
              simp only [stepTrace, List.mem_append] at hc hstep
              rcases hc with hc | hc
              · exact hstep hc
              · have := ih st1 srv1 c
                rw [hrec] at this
                exact this hc
          | ok y =>
              rw [hrec] at hc
              obtain ⟨stY, srvY, trY⟩ := y
              simp only [stepTrace, List.mem_append] at hc hstep
              rcases hc with hc | hc
              · exact hstep hc
              · have := ih st1 srv1 c
                rw [hrec] at this
                exact this hc

theorem inputRouteStep_loads (env : Env) (r : InputRoute) (st : RState) (srv : Server)
    (hend : endsWithS (trimS r.targetBus) ".monitor" = false) :
    ∀ c ∈ (inputRouteStep env r st srv).2.2, loopbackLoadOK c := by
  unfold inputRouteStep
  dsimp only
  by_cases h1 : (trimS r.source == "" || trimS r.targetBus == "") = true
  · rw [if_pos h1]
    exact okNil
  · rw [if_neg h1]
    by_cases h2 : (!(sourceExists srv (trimS r.source)) ||
        !(sinkExists srv (trimS r.targetBus))) = true
    · rw [if_pos h2]
      exact okNil
    · rw [if_neg h2]
      by_cases h3 : endsWithS (trimS r.source) ".monitor" = true
      · rw [if_pos h3]
        exact okNil
      · rw [if_neg h3]
        have hok : loopbackLoadOK
            (Cmd.loadLoopback (trimS r.source) (trimS r.targetBus)) := by
          intro s t heq
          injection heq with hs ht
          subst hs
          subst ht
          refine ⟨hend, fun habs => ?_⟩
          apply h3
          rw [habs]
          exact endsWithS_append _ _
        by_cases h4 : loopbackExists srv (trimS r.source) (trimS r.targetBus) = true
        · rw [if_pos h4]
          exact fun c hc =>
            loopbackLoadOK_of_unload
              (cleanupWrong_trace srv (trimS r.source) (trimS r.targetBus) c hc)
        · rw [if_neg h4]
          have hprev : ∀ srvP trP, (match lookupS st.inputRouteModules (trimS r.source) with
              | some m =>
                  if ((lookupS st.inputRouteTarget (trimS r.source)).getD "" != trimS r.targetBus) = true
                  then (unloadSrv srv m, [Cmd.unloadModule m]) else (srv, [])
              | none => (srv, [])) = (srvP, trP) →
              ∀ c ∈ trP, loopbackLoadOK c := by
            intro srvP trP hmatch c hc
            cases hm : lookupS st.inputRouteModules (trimS r.source) with
            | some m =>
                rw [hm] at hmatch
                dsimp only at hmatch
                by_cases hd : (((lookupS st.inputRouteTarget (trimS r.source)).getD "" !=
                    trimS r.targetBus) = true)
                · rw [if_pos hd] at hmatch
                  injection hmatch with hA hB
                  subst hB
                  rcases List.mem_singleton.mp hc with rfl
                  exact loopbackLoadOK_of_unload rfl
                · rw [if_neg hd] at hmatch
                  injection hmatch with hA hB
                  subst hB
                  simp at hc
            | none =>
                rw [hm] at hmatch
                dsimp only at hmatch
                injection hmatch with hA hB
                subst hB
                simp at hc
          rcases hm : (match lookupS st.inputRouteModules (trimS r.source) with
              | some m =>
                  if ((lookupS st.inputRouteTarget (trimS r.source)).getD "" != trimS r.targetBus) = true
                  then (unloadSrv srv m, [Cmd.unloadModule m]) else (srv, [])
              | none => (srv, [])) with ⟨srv1, tr1⟩
          rw [hm]
          dsimp only
          by_cases h5 : env.loopbackFails (trimS r.source) (trimS r.targetBus) = true
          · rw [if_pos h5]
            exact okAppend (okAppend (hprev srv1 tr1 hm)
                (fun c hc => loopbackLoadOK_of_unload
                  (cleanupWrong_trace srv1 (trimS r.source) (trimS r.targetBus) c hc)))
              (okCons hok okNil)
          · rw [if_neg h5]
            rw [loadLoopbackOp_trace]
            exact okAppend (okAppend (hprev srv1 tr1 hm)
                (fun c hc => loopbackLoadOK_of_unload
                  (cleanupWrong_trace srv1 (trimS r.source) (trimS r.targetBus) c hc)))
              (okCons hok (okCons (loopbackLoadOK_of_not_load (fun _ _ => by simp))
                (okCons (loopbackLoadOK_of_not_load (fun _ _ => by simp)) okNil)))

theorem phase4_trace (env : Env) (routes : List InputRoute) (st : RState) (srv : Server)
    (h : ∀ r ∈ routes, endsWithS (trimS r.targetBus) ".monitor" = false) :
    ∀ c ∈ (phase4 env routes st srv).2.2, loopbackLoadOK c := by
  induction routes generalizing st srv with
  | nil => intro c hc; simp [phase4] at hc
  | cons r rest ih =>
      intro c hc
      unfold phase4 at hc
      rcases hs : inputRouteStep env r st srv with ⟨st1, srv1, tr1⟩
      rw [hs] at hc
      dsimp only at hc
      rcases List.mem_append.mp hc with hc | hc
      · have := inputRouteStep_loads env r st srv (h r (List.mem_cons_self r rest)) c
        rw [hs] at this
        exact this hc
      · exact ih st1 srv1 (fun r' hr' => h r' (List.mem_cons_of_mem r hr')) c hc

theorem ensureModuleLoadedOp_no_loop (srv : Server) (n : String) :
    ∀ c ∈ (ensureModuleLoadedOp srv n).2, loopbackLoadOK c := by
  intro c hc
  unfold ensureModuleLoadedOp at hc
  by_cases hm : moduleLoaded srv n = true
  · rw [if_pos hm] at hc
    simp at hc
  · rw [if_neg hm] at hc
    dsimp only at hc
    rcases List.mem_singleton.mp hc with rfl
    exact loopbackLoadOK_of_not_load (fun _ _ => by simp)

theorem streamRulesGo_moves (env : Env) (sid : Nat) (binv appv aidv : String)
    (rules : List StreamRule) (srv : Server) :
    ∀ c ∈ (streamRulesGo env sid binv appv aidv rules srv).2.2, isMoveCmd c = true := by
  induction rules generalizing srv with
  | nil => intro c hc; simp [streamRulesGo] at hc
  | cons r rest ih =>
      intro c hc
      unfold streamRulesGo at hc
      by_cases h1 : (r.targetBus == "" || !(sinkExists srv r.targetBus)) = true
      · rw [if_pos h1] at hc
        exact ih srv c hc
      · rw [if_neg h1] at hc
        by_cases h2 : matchOK r.matchSpec binv appv aidv = true
        · rw [if_pos h2] at hc
          rcases hmv : moveSinkInputOp env srv sid r.targetBus with ⟨ok1, srv1, tr1⟩
          rw [hmv] at hc
          dsimp only at hc
          rcases List.mem_append.mp hc with hc | hc
          · have := moveSinkInputOp_trace env srv sid r.targetBus
            rw [hmv] at this
            dsimp only at this
            rw [this] at hc
            rcases List.mem_singleton.mp hc with rfl
            rfl
          · exact ih srv1 c hc
        · rw [if_neg h2] at hc
          exact ih srv c hc

theorem moveInputQuietlyOp_zero_trace (env : Env) (srv : Server) (sid : Nat)
    (t : String) :
    (moveInputQuietlyOp env srv sid t SYSTEM_STREAM_MOVE_MUTE_MSEC).2.2 =
      [Cmd.moveSinkInput sid t] :=
  moveSinkInputOp_trace env srv sid t

theorem streamStep_moves (env : Env) (rules : List StreamRule) (haveSystem : Bool)
    (inp : SrvInput) (srv : Server) :
    ∀ c ∈ (streamStep env rules haveSystem inp srv).2, isMoveCmd c = true := by
  unfold streamStep
  dsimp only
  rcases hr : streamRulesGo env inp.id
      (toLowerS (propGet inp.props "application.process.binary"))
      (toLowerS (propGet inp.props "application.name"))
      (toLowerS (propGet inp.props "pipewire.access.portal.app_id")) rules srv with
    ⟨matched, srv1, tr1⟩
  dsimp only
  have htr1 : ∀ c ∈ tr1, isMoveCmd c = true := by
    have := streamRulesGo_moves env inp.id
      (toLowerS (propGet inp.props "application.process.binary"))
      (toLowerS (propGet inp.props "application.name"))
      (toLowerS (propGet inp.props "pipewire.access.portal.app_id")) rules srv
    rw [hr] at this
    exact this
  by_cases hm : matched = true
  · rw [if_pos hm]
    exact htr1
  · rw [if_neg hm]
    by_cases hsys : (haveSystem && isSystemStream inp.props) = true
    · rw [if_pos hsys]
      by_cases halready : (sinkNameById srv1 inp.sinkId == "vsink.system") = true
      · rw [if_pos halready]
        exact htr1
      · rw [if_neg halready]
        rcases hq : moveInputQuietlyOp env srv1 inp.id "vsink.system"
            SYSTEM_STREAM_MOVE_MUTE_MSEC with ⟨ok2, srv2, tr2⟩
        dsimp only
        intro c hc
        rcases List.mem_append.mp hc with hc | hc
        · exact htr1 c hc
        · have := moveInputQuietlyOp_zero_trace env srv1 inp.id "vsink.system"
          rw [hq] at this
          dsimp only at this
          rw [this] at hc
          rcases List.mem_singleton.mp hc with rfl
          rfl
    · rw [if_neg hsys]
      exact htr1

theorem phase6Go_moves (env : Env) (rules : List StreamRule) (haveSystem : Bool)
    (inputs : List SrvInput) (srv : Server) :
    ∀ c ∈ (phase6Go env rules haveSystem inputs srv).2, isMoveCmd c = true := by
  induction inputs generalizing srv with
  | nil => intro c hc; simp [phase6Go] at hc
  | cons inp rest ih =>
      intro c hc
      unfold phase6Go at hc
      rcases hs : streamStep env rules haveSystem inp srv with ⟨srv1, tr1⟩
      rw [hs] at hc
      dsimp only at hc
      rcases List.mem_append.mp hc with hc | hc
      · have := streamStep_moves env rules haveSystem inp srv c
        rw [hs] at this
        exact this hc
      · exact ih srv1 c hc

theorem phase6_moves (env : Env) (rules : List StreamRule) (srv : Server) :
    ∀ c ∈ (phase6 env rules srv).2, isMoveCmd c = true := by
  unfold phase6
  exact phase6Go_moves env rules (sinkExists srv "vsink.system") srv.sinkInputs srv

theorem loopbackLoadOK_of_move {c : Cmd} (h : isMoveCmd c = true) :
    loopbackLoadOK c := by
  intro s t heq
  subst heq
  simp [isMoveCmd] at h

/-- The self-loop freedom the claim asserts unconditionally: no created
loopback has `source = X.monitor` with `sink = X`. -/
def noSelfLoop (c : Cmd) : Prop :=
  ∀ s t, c = Cmd.loadLoopback s t → s ≠ t ++ ".monitor"

theorem noSelfLoop_of_ok {c : Cmd} (h : loopbackLoadOK c) : noSelfLoop c :=
  fun s t heq => (h s t heq).2

/-- One input route never creates a self-loop, with no hypothesis on its
`target_bus`: the phase skips every `.monitor`-suffixed source, so a created
loopback's source cannot be the monitor of anything. -/
theorem inputRouteStep_noself (env : Env) (r : InputRoute) (st : RState)
    (srv : Server) :
    ∀ c ∈ (inputRouteStep env r st srv).2.2, noSelfLoop c := by
  unfold inputRouteStep
  dsimp only
  by_cases h1 : (trimS r.source == "" || trimS r.targetBus == "") = true
  · rw [if_pos h1]
    exact okNil
  · rw [if_neg h1]
    by_cases h2 : (!(sourceExists srv (trimS r.source)) ||
        !(sinkExists srv (trimS r.targetBus))) = true
    · rw [if_pos h2]
      exact okNil
    · rw [if_neg h2]
      by_cases h3 : endsWithS (trimS r.source) ".monitor" = true
      · rw [if_pos h3]
        exact okNil
      · rw [if_neg h3]
        have hok : noSelfLoop
            (Cmd.loadLoopback (trimS r.source) (trimS r.targetBus)) := by
          intro s t heq
          injection heq with hs ht
          subst hs
          subst ht
          intro habs
          apply h3
          rw [habs]
          exact endsWithS_append _ _
        by_cases h4 : loopbackExists srv (trimS r.source) (trimS r.targetBus) = true
        · rw [if_pos h4]
          exact fun c hc =>
            noSelfLoop_of_ok (loopbackLoadOK_of_unload
              (cleanupWrong_trace srv (trimS r.source) (trimS r.targetBus) c hc))
        · rw [if_neg h4]
          have hprev : ∀ srvP trP, (match lookupS st.inputRouteModules (trimS r.source) with
              | some m =>
                  if ((lookupS st.inputRouteTarget (trimS r.source)).getD "" != trimS r.targetBus) = true
                  then (unloadSrv srv m, [Cmd.unloadModule m]) else (srv, [])
              | none => (srv, [])) = (srvP, trP) →
              ∀ c ∈ trP, noSelfLoop c := by
            intro srvP trP hmatch c hc
            cases hm : lookupS st.inputRouteModules (trimS r.source) with
            | some m =>
                rw [hm] at hmatch
                dsimp only at hmatch
                by_cases hd : (((lookupS st.inputRouteTarget (trimS r.source)).getD "" !=
                    trimS r.targetBus) = true)
                · rw [if_pos hd] at hmatch
                  injection hmatch with hA hB
                  subst hB
                  rcases List.mem_singleton.mp hc with rfl
                  exact noSelfLoop_of_ok (loopbackLoadOK_of_unload rfl)
                · rw [if_neg hd] at hmatch
                  injection hmatch with hA hB
                  subst hB
                  simp at hc
            | none =>
                rw [hm] at hmatch
                dsimp only at hmatch
                injection hmatch with hA hB
                subst hB
                simp at hc
          rcases hm : (match lookupS st.inputRouteModules (trimS r.source) with
              | some m =>
                  if ((lookupS st.inputRouteTarget (trimS r.source)).getD "" != trimS r.targetBus) = true
                  then (unloadSrv srv m, [Cmd.unloadModule m]) else (srv, [])
              | none => (srv, [])) with ⟨srv1, tr1⟩
          rw [hm]
          dsimp only
          by_cases h5 : env.loopbackFails (trimS r.source) (trimS r.targetBus) = true
          · rw [if_pos h5]
            exact okAppend (okAppend (hprev srv1 tr1 hm)
                (fun c hc => noSelfLoop_of_ok (loopbackLoadOK_of_unload
                  (cleanupWrong_trace srv1 (trimS r.source) (trimS r.targetBus) c hc))))
              (okCons hok okNil)
          · rw [if_neg h5]
            rw [loadLoopbackOp_trace]
            exact okAppend (okAppend (hprev srv1 tr1 hm)
                (fun c hc => noSelfLoop_of_ok (loopbackLoadOK_of_unload
                  (cleanupWrong_trace srv1 (trimS r.source) (trimS r.targetBus) c hc))))
              (okCons hok
                (okCons (noSelfLoop_of_ok (loopbackLoadOK_of_not_load
                    (fun _ _ => by simp)))
                  (okCons (noSelfLoop_of_ok (loopbackLoadOK_of_not_load
                    (fun _ _ => by simp))) okNil)))

theorem phase4_noself (env : Env) (routes : List InputRoute) (st : RState)
    (srv : Server) :
    ∀ c ∈ (phase4 env routes st srv).2.2, noSelfLoop c := by
  induction routes generalizing st srv with
  | nil => intro c hc; simp [phase4] at hc
  | cons r rest ih =>
      intro c hc
      unfold phase4 at hc
      rcases hs : inputRouteStep env r st srv with ⟨st1, srv1, tr1⟩
      rw [hs] at hc
      dsimp only at hc
      rcases List.mem_append.mp hc with hc | hc
      · have hx := inputRouteStep_noself env r st srv c
        rw [hs] at hx
        exact hx hc
      · exact ih st1 srv1 c hc

/-- Every command of a run belongs to one of the seven phases; a predicate
holding of unloads, moves, and the traces of phases 2–5 holds of the whole
trace (phases 0 and 1 only unload; phase 6 only moves). -/
theorem applyOnce_trace_cases (cfg : Cfg) (st : RState) (srv : Server) (env : Env)
    (P : Cmd → Prop)
    (hun : ∀ c, isUnloadCmd c = true → P c)
    (hmv : ∀ c, isMoveCmd c = true → P c)
    (h2 : ∀ (st' : RState) (srv' : Server),
      ∀ c ∈ stepTrace (phase2 env cfg.buses st' srv'), P c)
    (h3 : ∀ (st' : RState) (srv' : Server),
      ∀ c ∈ stepTrace (phase3 env cfg.buses st' srv'), P c)
    (h4 : ∀ (st' : RState) (srv' : Server),
      ∀ c ∈ (phase4 env cfg.inputRoutes st' srv').2.2, P c)
    (h5 : ∀ (srv' : Server),
      ∀ c ∈ (ensureModuleLoadedOp srv' "module-intended-roles").2, P c) :
    ∀ c ∈ (applyOnce cfg st srv env).trace, P c := by
  intro c hc
  unfold applyOnce at hc
  dsimp only at hc
  unfold reconcileMain at hc
  dsimp only at hc
  rcases h0 : phase0 ((cfg.inputRoutes.map (fun r => trimS r.source)).filter
      (fun s => s != "")) st srv with ⟨stA, srvA, t0⟩
  rw [h0] at hc
  dsimp only at hc
  rcases h1 : phase1 (cfg.buses.map (fun b => b.name)) stA srvA with ⟨stB, srvB, t1⟩
  rw [h1] at hc
  dsimp only at hc
  have ht0 : ∀ c' ∈ t0, P c' := by
    intro c' hc'
    have hx := phase0Go_trace ((cfg.inputRoutes.map (fun r => trimS r.source)).filter
      (fun s => s != "")) st.inputRouteModules st srv c'
    rw [show phase0Go ((cfg.inputRoutes.map (fun r => trimS r.source)).filter
      (fun s => s != "")) st.inputRouteModules st srv = (stA, srvA, t0) from h0] at hx
    exact hun c' (hx hc')
  have ht1 : ∀ c' ∈ t1, P c' := by
    intro c' hc'
    have hx := phase1_trace (cfg.buses.map (fun b => b.name)) stA srvA c'
    rw [h1] at hx
    exact hun c' (hx hc')
  cases hp2 : phase2 env cfg.buses stB srvB with
  | error e =>
      rw [hp2] at hc
      obtain ⟨srvE, t2⟩ := e
      simp only [List.mem_append] at hc
      rcases hc with (hc | hc) | hc
      · exact ht0 c hc
      · exact ht1 c hc
      · have hx := h2 stB srvB c
        rw [hp2] at hx
        exact hx hc
  | ok x2 =>
      rw [hp2] at hc
      obtain ⟨stC, srvC, t2⟩ := x2
      dsimp only at hc
      have ht2 : ∀ c' ∈ t2, P c' := by
        intro c' hc'
        have hx := h2 stB srvB c'
        rw [hp2] at hx
        exact hx hc'
      cases hp3 : phase3 env cfg.buses stC srvC with
      | error e =>
          rw [hp3] at hc
          obtain ⟨srvE, t3⟩ := e
          simp only [List.mem_append] at hc
          rcases hc with ((hc | hc) | hc) | hc
          · exact ht0 c hc
          · exact ht1 c hc
          · exact ht2 c hc
          · have hx := h3 stC srvC c
            rw [hp3] at hx
            exact hx hc
      | ok x3 =>
          rw [hp3] at hc
          obtain ⟨stD, srvD, t3⟩ := x3
          dsimp only at hc
          have ht3 : ∀ c' ∈ t3, P c' := by
            intro c' hc'
            have hx := h3 stC srvC c'
            rw [hp3] at hx
            exact hx hc'
          rcases hp4 : phase4 env cfg.inputRoutes stD srvD with ⟨stE, srvE, t4⟩
          rw [hp4] at hc
          dsimp only at hc
          have ht4 : ∀ c' ∈ t4, P c' := by
            intro c' hc'
            have hx := h4 stD srvD c'
            rw [hp4] at hx
            exact hx hc'
          rcases hp5 : ensureModuleLoadedOp srvE "module-intended-roles" with ⟨srvF, t5⟩
          rw [hp5] at hc
          dsimp only at hc
          have ht5 : ∀ c' ∈ t5, P c' := by
            intro c' hc'
            have hx := h5 srvE c'
            rw [hp5] at hx
            exact hx hc'
          rcases hp6 : phase6 env cfg.rules srvF with ⟨srvG, t6⟩
          rw [hp6] at hc
          dsimp only at hc
          have ht6 : ∀ c' ∈ t6, P c' := by
            intro c' hc'
            have hx := phase6_moves env cfg.rules srvF c'
            rw [hp6] at hx
            exact hmv c' (hx hc')
          simp only [List.mem_append] at hc
          rcases hc with (((((hc | hc) | hc) | hc) | hc) | hc) | hc
          · exact ht0 c hc
          · exact ht1 c hc
          · exact ht2 c hc
          · exact ht3 c hc
          · exact ht4 c hc
          · exact ht5 c hc
          · exact ht6 c hc

def c9Cfg : Cfg := ⟨[], [], [], [⟨"mic1", "foo.monitor"⟩]⟩

def c9Srv : Server :=
  ⟨"", [⟨1, "foo.monitor", none⟩], [⟨2, "mic1", none⟩], [], [], 10⟩

/-- Claim C9 is false as stated: the input-route phase never checks
`target_bus` for the `.monitor` suffix, so when a sink named `foo.monitor`
exists, reconciliation creates a loopback whose sink name ends in
`.monitor`. -/
theorem c9_counterexample :
    Cmd.loadLoopback "mic1" "foo.monitor" ∈
        (applyOnce c9Cfg emptyState c9Srv Env.ok).trace ∧
      endsWithS "foo.monitor" ".monitor" = true := by
  refine ⟨by decide, by decide⟩

/-- Claim C9 as amended: every loopback any run of reconciliation creates
avoids the self-loop `source = X.monitor, sink = X` — unconditionally, for
every configuration and server; and provided no configured input route
targets a `.monitor`-named sink, no created loopback's sink ends in
`.monitor` either (the per-bus route phase guarantees that part through its
own guard). -/
theorem c9_no_self_loop (cfg : Cfg) (st : RState) (srv : Server) (env : Env) :
    (∀ c ∈ (applyOnce cfg st srv env).trace, noSelfLoop c) ∧
    ((∀ r ∈ cfg.inputRoutes, endsWithS (trimS r.targetBus) ".monitor" = false) →
      ∀ c ∈ (applyOnce cfg st srv env).trace, loopbackLoadOK c) := by
  constructor
  · exact applyOnce_trace_cases cfg st srv env noSelfLoop
      (fun c hc => noSelfLoop_of_ok (loopbackLoadOK_of_unload hc))
      (fun c hc => noSelfLoop_of_ok (loopbackLoadOK_of_move hc))
      (fun st' srv' c hc => noSelfLoop_of_ok (phase2_trace env cfg.buses st' srv' c hc))
      (fun st' srv' c hc => noSelfLoop_of_ok (phase3_trace env cfg.buses st' srv' c hc))
      (fun st' srv' => phase4_noself env cfg.inputRoutes st' srv')
      (fun srv' c hc =>
        noSelfLoop_of_ok (ensureModuleLoadedOp_no_loop srv' "module-intended-roles" c hc))
  · intro hend
    exact applyOnce_trace_cases cfg st srv env loopbackLoadOK
      (fun c hc => loopbackLoadOK_of_unload hc)
      (fun c hc => loopbackLoadOK_of_move hc)
      (fun st' srv' => phase2_trace env cfg.buses st' srv')
      (fun st' srv' => phase3_trace env cfg.buses st' srv')
      (fun st' srv' => phase4_trace env cfg.inputRoutes st' srv' hend)
      (fun srv' => ensureModuleLoadedOp_no_loop srv' "module-intended-roles")


def c9WitnessCfg : Cfg := ⟨[⟨"vsink.b", "B", "out"⟩], [], [], [⟨"mic1", "vsink.b"⟩]⟩

def c9WitnessSrv : Server :=
  ⟨"out", [⟨1, "out", none⟩], [⟨2, "mic1", none⟩], [], [], 70⟩

/-- Witness for C9 at a configuration with a bus route and an input route:
both conjuncts apply, and the second one's antecedent holds and is
discharged concretely. -/
theorem c9_witness :
    (∀ c ∈ (applyOnce c9WitnessCfg emptyState c9WitnessSrv Env.ok).trace,
        noSelfLoop c) ∧
      (∀ r ∈ c9WitnessCfg.inputRoutes,
        endsWithS (trimS r.targetBus) ".monitor" = false) ∧
      ∀ c ∈ (applyOnce c9WitnessCfg emptyState c9WitnessSrv Env.ok).trace,
        loopbackLoadOK c :=
  ⟨(c9_no_self_loop c9WitnessCfg emptyState c9WitnessSrv Env.ok).1, by decide,
    (c9_no_self_loop c9WitnessCfg emptyState c9WitnessSrv Env.ok).2 (by decide)⟩

/-- The sink-inputs owned by the newly created loopback module, when one was
created (`new_mod` stays empty when `load_loopback` raised). -/
def newOwnerUnmuteIds (res : Except (Server × List Cmd) (Nat × Server × List Cmd)) :
    List Nat :=
  match res with
  | .error _ => []
  | .ok (mid, srvP, _) => sinkInputsForOwner srvP (some mid)

/-- Claim C10: whatever the handover does — including when the loopback load
fails and the error propagates — its trace ends with the `finally` cleanup:
unmute the previous owner's sink-inputs, unmute the new owner's sink-inputs
(when a new module was created), unmute the monitor source, unmute the bus
sink, in that order. -/
theorem c10_handover_unmute (env : Env) (name monitor target : String)
    (prevMod : Option Nat) (prevTarget : String) (srv : Server) :
    ∃ pre,
      handoverResTrace (handoverOp env name monitor target prevMod prevTarget srv) =
        pre ++
          (sinkInputsForOwner srv prevMod).map (fun i => Cmd.setSinkInputMute i false) ++
          (newOwnerUnmuteIds
            (handoverOp env name monitor target prevMod prevTarget srv)).map
              (fun i => Cmd.setSinkInputMute i false) ++
          [Cmd.setSourceMute monitor false, Cmd.setSinkMute name false] := by
  unfold handoverOp newOwnerUnmuteIds handoverResTrace
  by_cases hv : (startsWithS target "vsink." || startsWithS prevTarget "vsink.") = true <;>
    by_cases hf : env.loopbackFails monitor target = true
  · simp only [hv, if_true, hf]
    refine ⟨[Cmd.setSinkMute name true, Cmd.setSourceMute monitor true] ++
      (sinkInputsForOwner srv prevMod).map (fun i => Cmd.setSinkInputMute i true) ++
      (cleanupWrong srv monitor target).2 ++ [Cmd.loadLoopback monitor target], ?_⟩
    simp [sinkInputsForOwner]
  · simp only [hv, if_true, hf, Bool.false_eq_true, if_false]
    refine ⟨[Cmd.setSinkMute name true, Cmd.setSourceMute monitor true] ++
      (sinkInputsForOwner srv prevMod).map (fun i => Cmd.setSinkInputMute i true) ++
      (cleanupWrong srv monitor target).2 ++
      (loadLoopbackOp (cleanupWrong srv monitor target).1 monitor target).2.2, ?_⟩
    simp
  · simp only [Bool.not_eq_true] at hv
    simp only [hv, Bool.false_eq_true, if_false, hf, if_true]
    refine ⟨[Cmd.setSinkMute name true, Cmd.setSourceMute monitor true] ++
      (sinkInputsForOwner srv prevMod).map (fun i => Cmd.setSinkInputMute i true) ++
      [Cmd.loadLoopback monitor target], ?_⟩
    simp [sinkInputsForOwner]
  · simp only [Bool.not_eq_true] at hv
    simp only [hv, Bool.false_eq_true, if_false, hf]
    refine ⟨[Cmd.setSinkMute name true, Cmd.setSourceMute monitor true] ++
      (sinkInputsForOwner srv prevMod).map (fun i => Cmd.setSinkInputMute i true) ++
      (loadLoopbackOp srv monitor target).2.2 ++
      (cleanupWrong (loadLoopbackOp srv monitor target).2.1 monitor target).2, ?_⟩
    simp

/-! # Claim C5 — error granularity inside reconciliation -/

def c5Cfg : Cfg :=
  ⟨[⟨"vsink.b1", "B1", "out"⟩, ⟨"vsink.b2", "B2", "out"⟩], [], [], []⟩

def c5Srv : Server := ⟨"out", [⟨1, "out", none⟩], [], [], [], 60⟩

/-- An environment in which only the `load_loopback` for bus `vsink.b1`'s
handover fails. -/
def c5Env : Env :=
  ⟨fun _ => false, fun s _ => s == "vsink.b1.monitor", fun _ _ => false⟩

/-- Claim C5 is false as stated: a failing `load_loopback` inside the route
handover of the first bus is *not* caught at that operation — the exception
(raised after the `finally` unmutes) aborts the whole run: the second bus's
loopback is never loaded and `save_state` is never reached. -/
theorem c5_counterexample :
    Cmd.loadLoopback "vsink.b1.monitor" "out" ∈
        (applyOnce c5Cfg emptyState c5Srv c5Env).trace ∧
      Cmd.loadLoopback "vsink.b2.monitor" "out" ∉
        (applyOnce c5Cfg emptyState c5Srv c5Env).trace ∧
      (applyOnce c5Cfg emptyState c5Srv c5Env).saved = none := by
  refine ⟨by decide, by decide, by decide⟩

/-- Claim C5 as amended: mutation errors are caught at the individual
operation only in the input-route phase (`load_loopback` under
`try/except: continue`) and in the stream phases (`move_sink_input` under
`try/except: pass`); arbitrary failures there never abort the run.  A failing
`load_loopback` in the route handover (monitor-source loopbacks) or a failing
`load_null_sink` would instead propagate, so they are excluded by hypothesis. -/
theorem c5_errors_scoped (cfg : Cfg) (st : RState) (srv : Server) (env : Env)
    (hmic : cfg.micRoutes = [])
    (hnull : ∀ s, env.nullSinkFails s = false)
    (hloop : ∀ s t, endsWithS s ".monitor" = true → env.loopbackFails s t = false) :
    (applyOnce cfg st srv env).saved.isSome = true := by
  unfold applyOnce
  simp only [hmic, List.isEmpty_nil, if_true]
  exact reconcileMain_completes cfg st srv env (fun b _ => hnull b.name) hloop

/-- An environment in which every stream move and every non-handover loopback
load fails. -/
def c5WitnessEnv : Env :=
  ⟨fun _ => false, fun s _ => !(endsWithS s ".monitor"), fun _ _ => true⟩

/-- Witness for C5: even with every move and every input-route load failing,
a run over the counterexample's two-bus configuration completes. -/
theorem c5_witness :
    (applyOnce c5Cfg emptyState c5Srv c5WitnessEnv).saved.isSome = true :=
  c5_errors_scoped c5Cfg emptyState c5Srv c5WitnessEnv rfl (fun _ => rfl)
    (fun s t h => by simp [c5WitnessEnv, h])

/-! # Claim C1 — idempotence of reconciliation

The second of two consecutive runs is analysed under a clean start: empty
runtime state, a steady server with no loopback modules, all commands
succeeding, pairwise-distinct bus names and input-route sources, an empty
`mic_routes` (see C6), and no `source=`-substring aliasing between the
configured routes' loopback argument strings. -/

/-- The resolved route target of a bus (phase 3). -/
def resolveT (b : Bus) (srv : Server) : String :=
  if b.routeTo == "default" then physicalDefaultSink srv else b.routeTo

/-- The `route_to` sentinel check of phase 3. -/
def noneCond (b : Bus) : Bool :=
  toLowerS (trimS b.routeTo) == "none" || toLowerS (trimS b.routeTo) == "no routing"

/-- Every source string a run can put into a `source=` loopback argument:
bus monitors and trimmed input-route sources. -/
def allRouteSources (cfg : Cfg) : List String :=
  cfg.buses.map (fun b => b.name ++ ".monitor") ++
    cfg.inputRoutes.map (fun r => trimS r.source)

/-- Every sink string a run can put into a `sink=` loopback argument. -/
def possibleTargets (cfg : Cfg) (srv : Server) : List String :=
  cfg.buses.map (fun b => b.routeTo) ++ cfg.buses.map (fun b => b.name) ++
    srv.sinks.map (fun s => s.name) ++ [srv.defaultSink] ++
    cfg.inputRoutes.map (fun r => trimS r.targetBus)

/-- No `source=<s1>` substring aliasing: distinct configured sources never
match inside another route's loopback argument string. -/
def NoAlias (SRC TGT : List String) : Prop :=
  ∀ s1 ∈ SRC, ∀ s2 ∈ SRC, ¬ s1 = s2 → ∀ t ∈ TGT,
    pyIn ("source=" ++ s1) (loopbackArgs s2 t) = false

/-- Clean-start hypotheses for the idempotence theorem. -/
def CleanStart (cfg : Cfg) (srv : Server) : Prop :=
  (cfg.buses.map (fun b => b.name)).Nodup ∧
  (cfg.inputRoutes.map (fun r => trimS r.source)).Nodup ∧
  cfg.micRoutes = [] ∧
  (∀ m ∈ srv.modules, ¬ m.name = "module-loopback") ∧
  NoAlias (allRouteSources cfg) (possibleTargets cfg srv)

/-- `cleanup_wrong_loopbacks_for_source` finds nothing to unload for
`(s, t)`. -/
def CleanupNoop (srv : Server) (s t : String) : Prop :=
  ∀ m ∈ srv.modules, m.name = "module-loopback" →
    pyIn ("source=" ++ s) m.args = true → pyIn ("sink=" ++ t) m.args = true

theorem pyIn_source_self (s t : String) :
    pyIn ("source=" ++ s) (loopbackArgs s t) = true := by
  have h := pyIn_of_middle "" ("source=" ++ s)
    (" sink=" ++ t ++ " latency_msec=30 sink_dont_move=true")
  simpa [loopbackArgs, String.append_assoc] using h

theorem pyIn_sink_self (s t : String) :
    pyIn ("sink=" ++ t) (loopbackArgs s t) = true := by
  have h := pyIn_of_middle ("source=" ++ s ++ " ") ("sink=" ++ t)
    (" latency_msec=30 sink_dont_move=true")
  have hlit : " sink=" = " " ++ "sink=" := by decide
  have harr : "source=" ++ s ++ " " ++ ("sink=" ++ t) ++
      (" latency_msec=30 sink_dont_move=true") = loopbackArgs s t := by
    simp only [loopbackArgs, String.append_assoc]
    rw [hlit, String.append_assoc]
  rwa [harr] at h

theorem loopbackExists_of_canonical {srv : Server} {s t : String}
    (h : ∃ m ∈ srv.modules, m.name = "module-loopback" ∧ m.args = loopbackArgs s t) :
    loopbackExists srv s t = true := by
  obtain ⟨m, hmem, hname, hargs⟩ := h
  unfold loopbackExists
  apply List.any_eq_true.mpr
  refine ⟨m, hmem, ?_⟩
  rw [hname, hargs]
  simp [pyIn_source_self, pyIn_sink_self]

theorem cleanupWrong_noop {srv : Server} {s t : String} (h : CleanupNoop srv s t) :
    cleanupWrong srv s t = (srv, []) := by
  unfold cleanupWrong
  have hbad : srv.modules.filter (fun m =>
      m.name == "module-loopback" && pyIn ("source=" ++ s) m.args &&
        !(pyIn ("sink=" ++ t) m.args)) = [] := by
    apply List.filter_eq_nil_iff.mpr
    intro m hm
    by_cases hn : m.name = "module-loopback"
    · by_cases hsrc : pyIn ("source=" ++ s) m.args = true
      · simp [hn, hsrc, h m hm hn hsrc]
      · simp only [Bool.not_eq_true] at hsrc
        simp [hsrc]
    · have : (m.name == "module-loopback") = false := by simp [hn]
      simp [this]
  rw [hbad]
  rfl

theorem physicalDefaultSink_congr {srv srv' : Server}
    (hs : srv'.sinks = srv.sinks) (hd : srv'.defaultSink = srv.defaultSink) :
    physicalDefaultSink srv' = physicalDefaultSink srv := by
  unfold physicalDefaultSink
  rw [hs, hd]

theorem resolveT_congr {srv srv' : Server} (b : Bus)
    (hs : srv'.sinks = srv.sinks) (hd : srv'.defaultSink = srv.defaultSink) :
    resolveT b srv' = resolveT b srv := by
  unfold resolveT
  rw [physicalDefaultSink_congr hs hd]

theorem sinkExists_congr {srv srv' : Server} (hs : srv'.sinks = srv.sinks)
    (n : String) : sinkExists srv' n = sinkExists srv n := by
  unfold sinkExists
  rw [hs]

theorem sourceExists_congr {srv srv' : Server} (hs : srv'.sources = srv.sources)
    (n : String) : sourceExists srv' n = sourceExists srv n := by
  unfold sourceExists
  rw [hs]

theorem sinkExists_append {srv : Server} {n : String} (extra : List SrvSink)
    (h : sinkExists srv n = true) :
    (srv.sinks ++ extra).any (fun s => s.name == n) = true := by
  unfold sinkExists at h
  rcases List.any_eq_true.mp h with ⟨sk, hmem, hsk⟩
  exact List.any_eq_true.mpr ⟨sk, List.mem_append_left _ hmem, hsk⟩

/-! # Claim C4 — return values and error handling of the fast-path routers -/

theorem find?_sink_of_exists {srv : Server} {t : String} (h : sinkExists srv t = true) :
    ∃ sk, srv.sinks.find? (fun s => s.name == t) = some sk := by
  unfold sinkExists at h
  rcases List.any_eq_true.mp h with ⟨sk, hmem, hname⟩
  have : (srv.sinks.find? (fun s => s.name == t)).isSome :=
    List.find?_isSome.mpr ⟨sk, hmem, hname⟩
  exact Option.isSome_iff_exists.mp this

theorem moveSinkInputOp_ok_true {srv : Server} {t : String} (sid : Nat)
    (h : sinkExists srv t = true) : (moveSinkInputOp Env.ok srv sid t).1 = true := by
  obtain ⟨sk, hsk⟩ := find?_sink_of_exists h
  unfold moveSinkInputOp
  rw [hsk]
  rfl

theorem moveSinkInputOp_fail_false {env : Env} {srv : Server} {t : String} (sid : Nat)
    (hf : ∀ i t', env.moveFails i t' = true) :
    (moveSinkInputOp env srv sid t).1 = false := by
  unfold moveSinkInputOp
  cases srv.sinks.find? (fun s => s.name == t) with
  | none => rfl
  | some sk => simp [hf]

theorem fastRulesGo_some_ok {srv : Server} {sid : Nat} {binv appv aidv : String}
    {rules : List StreamRule} {res : Bool × Server × List Cmd}
    (h : fastRulesGo Env.ok srv sid binv appv aidv rules = some res) :
    res.1 = true ∧ ∃ t, res.2.2 = [Cmd.moveSinkInput sid t] := by
  induction rules with
  | nil => simp [fastRulesGo] at h
  | cons r rest ih =>
      unfold fastRulesGo at h
      by_cases h1 : (r.targetBus == "" || !(sinkExists srv r.targetBus)) = true
      · rw [if_pos h1] at h
        exact ih h
      · rw [if_neg h1] at h
        by_cases h2 : matchOK r.matchSpec binv appv aidv = true
        · rw [if_pos h2] at h
          injection h with h
          subst h
          have hex : sinkExists srv r.targetBus = true := by
            simp only [Bool.or_eq_true] at h1
            push_neg at h1
            simpa using h1.2
          exact ⟨moveSinkInputOp_ok_true sid hex,
            r.targetBus, moveSinkInputOp_trace Env.ok srv sid r.targetBus⟩
        · rw [if_neg h2] at h
          exact ih h

theorem fastRulesGo_some_fail {env : Env} {srv : Server} {sid : Nat}
    {binv appv aidv : String} {rules : List StreamRule} {res : Bool × Server × List Cmd}
    (hf : ∀ i t', env.moveFails i t' = true)
    (h : fastRulesGo env srv sid binv appv aidv rules = some res) :
    res.1 = false := by
  induction rules with
  | nil => simp [fastRulesGo] at h
  | cons r rest ih =>
      unfold fastRulesGo at h
      by_cases h1 : (r.targetBus == "" || !(sinkExists srv r.targetBus)) = true
      · rw [if_pos h1] at h
        exact ih h
      · rw [if_neg h1] at h
        by_cases h2 : matchOK r.matchSpec binv appv aidv = true
        · rw [if_pos h2] at h
          injection h with h
          subst h
          exact moveSinkInputOp_fail_false sid hf
        · rw [if_neg h2] at h
          exact ih h

theorem sinkExists_of_sinkNameById {srv : Server} {k : Nat} {n : String}
    (h : sinkNameById srv k = n) (hne : n ≠ "") : sinkExists srv n = true := by
  unfold sinkNameById at h
  cases hfind : srv.sinks.find? (fun s => s.id == k) with
  | none =>
      rw [hfind] at h
      exact absurd h.symm hne
  | some sk =>
      rw [hfind] at h
      dsimp only [Option.map, Option.getD] at h
      unfold sinkExists
      apply List.any_eq_true.mpr
      exact ⟨sk, List.mem_of_find?_eq_some hfind, by simp [h]⟩

def c4Srv : Server :=
  ⟨"hw0", [⟨3, "vsink.system", none⟩], [], [],
    [⟨7, 3, none, [("media.role", "event")]⟩], 20⟩

/-- Claim C4 is false as stated: a system stream that already sits on the
system bus makes `route_sink_input_now` return `true` although it issued no
move at all (no command whatsoever). -/
theorem c4_counterexample :
    (routeSinkInputNow ⟨[], [], [], []⟩ Env.ok c4Srv "7").1 = true ∧
      (routeSinkInputNow ⟨[], [], [], []⟩ Env.ok c4Srv "7").2.2 = [] := by
  refine ⟨by decide, by decide⟩

/-- Claim C4 as amended.  On a steady server, `route_sink_input_now` returns
true iff it issued a (then-successful) move, or the stream was found, was
classified as a system sound and already sat on the system bus (in which case
no command is issued).  Errors are swallowed: with every move failing, the
router returns false unless it is in the no-command already-on-bus case.
`route_source_output_now`, by contrast, raises (missing driver functions)
whenever `mic_routes` is non-empty and the id is non-blank. -/
theorem c4_fastpath_result (cfg : Cfg) (srv : Server) (sidRaw : String)
    (hsid : trimS sidRaw ≠ "") :
    ((routeSinkInputNow cfg Env.ok srv sidRaw).1 = true ↔
      ((∃ i t, Cmd.moveSinkInput i t ∈ (routeSinkInputNow cfg Env.ok srv sidRaw).2.2) ∨
        (∃ inp, srv.sinkInputs.find?
            (fun i => trimS (toString i.id) == trimS sidRaw) = some inp ∧
          isSystemStream inp.props = true ∧
          sinkNameById srv inp.sinkId = "vsink.system" ∧
          (routeSinkInputNow cfg Env.ok srv sidRaw).2.2 = []))) ∧
    (∀ env : Env, (∀ i t, env.moveFails i t = true) →
      ((routeSinkInputNow cfg env srv sidRaw).1 = false ∨
        (routeSinkInputNow cfg env srv sidRaw).2.2 = [])) ∧
    (cfg.micRoutes ≠ [] → routeSourceOutputNow cfg sidRaw = none) := by
  have hsid' : (trimS sidRaw == "") = false := by
    cases hx : (trimS sidRaw == "") with
    | false => rfl
    | true => exact absurd (by simpa using hx) hsid
  have heval : ∀ env : Env, ∀ inp,
      srv.sinkInputs.find? (fun i => trimS (toString i.id) == trimS sidRaw) = some inp →
      routeSinkInputNow cfg env srv sidRaw =
        (match fastRulesGo env srv inp.id
            (toLowerS (propGet inp.props "application.process.binary"))
            (toLowerS (propGet inp.props "application.name"))
            (toLowerS (propGet inp.props "pipewire.access.portal.app_id")) cfg.rules with
          | some res => res
          | none =>
              if sinkExists srv "vsink.system" && isSystemStream inp.props then
                if sinkNameById srv inp.sinkId == "vsink.system" then (true, srv, [])
                else moveInputQuietlyOp env srv inp.id "vsink.system"
                  SYSTEM_STREAM_MOVE_MUTE_MSEC
              else (false, srv, [])) := by
    intro env inp hfind
    unfold routeSinkInputNow
    rw [if_neg (by simp [hsid']), hfind]
  have hevalNone : ∀ env : Env,
      srv.sinkInputs.find? (fun i => trimS (toString i.id) == trimS sidRaw) = none →
      routeSinkInputNow cfg env srv sidRaw = (false, srv, []) := by
    intro env hfind
    unfold routeSinkInputNow
    rw [if_neg (by simp [hsid']), hfind]
  refine ⟨?_, ?_, ?_⟩
  · cases hfind : srv.sinkInputs.find? (fun i => trimS (toString i.id) == trimS sidRaw) with
    | none =>
        rw [hevalNone Env.ok hfind]
        simp
    | some inp =>
        rw [heval Env.ok inp hfind]
        cases hfr : fastRulesGo Env.ok srv inp.id
            (toLowerS (propGet inp.props "application.process.binary"))
            (toLowerS (propGet inp.props "application.name"))
            (toLowerS (propGet inp.props "pipewire.access.portal.app_id")) cfg.rules with
        | some res =>
            obtain ⟨hres1, t, hres2⟩ := fastRulesGo_some_ok hfr
            dsimp only
            rw [hres1, hres2]
            simp
        | none =>
            dsimp only
            by_cases hsys : (sinkExists srv "vsink.system" && isSystemStream inp.props) = true
            · rw [if_pos hsys]
              by_cases halready : (sinkNameById srv inp.sinkId == "vsink.system") = true
              · rw [if_pos halready]
                simp only [Bool.and_eq_true] at hsys
                simp [hsys.2, beq_iff_eq.mp halready]
              · rw [if_neg halready]
                have hmove : (moveInputQuietlyOp Env.ok srv inp.id "vsink.system"
                    SYSTEM_STREAM_MOVE_MUTE_MSEC).1 = true := by
                  simp only [Bool.and_eq_true] at hsys
                  exact moveSinkInputOp_ok_true inp.id hsys.1
                have htr : (moveInputQuietlyOp Env.ok srv inp.id "vsink.system"
                    SYSTEM_STREAM_MOVE_MUTE_MSEC).2.2 =
                      [Cmd.moveSinkInput inp.id "vsink.system"] :=
                  moveInputQuietlyOp_zero_trace Env.ok srv inp.id "vsink.system"
                rw [hmove, htr]
                simp
            · rw [if_neg hsys]
              simp only [Bool.and_eq_true, not_and] at hsys
              constructor
              · intro hfalse
                exact absurd hfalse (by simp)
              · rintro (⟨i, t, hmem⟩ | ⟨inp', hinp', hstream, hbus, _⟩)
                · simp at hmem
                · injection hinp' with hinp'
                  subst hinp'
                  have hex : sinkExists srv "vsink.system" = true :=
                    sinkExists_of_sinkNameById hbus (by simp)
                  exact absurd hstream (by simp [hsys hex])
  · intro env hf
    cases hfind : srv.sinkInputs.find? (fun i => trimS (toString i.id) == trimS sidRaw) with
    | none =>
        rw [hevalNone env hfind]
        exact Or.inl rfl
    | some inp =>
        rw [heval env inp hfind]
        cases hfr : fastRulesGo env srv inp.id
            (toLowerS (propGet inp.props "application.process.binary"))
            (toLowerS (propGet inp.props "application.name"))
            (toLowerS (propGet inp.props "pipewire.access.portal.app_id")) cfg.rules with
        | some res =>
            dsimp only
            exact Or.inl (fastRulesGo_some_fail hf hfr)
        | none =>
            dsimp only
            by_cases hsys : (sinkExists srv "vsink.system" && isSystemStream inp.props) = true
            · rw [if_pos hsys]
              by_cases halready : (sinkNameById srv inp.sinkId == "vsink.system") = true
              · rw [if_pos halready]
                exact Or.inr rfl
              · rw [if_neg halready]
                exact Or.inl (moveSinkInputOp_fail_false inp.id hf)
            · rw [if_neg hsys]
              exact Or.inl rfl
  · intro hmic
    unfold routeSourceOutputNow
    rw [if_neg (by simp [hsid'])]
    rw [if_neg (by simp [List.isEmpty_iff, hmic])]

/-- Witness for C4 at the already-on-bus server of the counterexample, with a
non-empty `mic_routes`. -/
theorem c4_witness :
    (((routeSinkInputNow ⟨[], [], [⟨⟨none, none, none⟩, "m"⟩], []⟩ Env.ok c4Srv "7").1 = true ↔
      ((∃ i t, Cmd.moveSinkInput i t ∈
          (routeSinkInputNow ⟨[], [], [⟨⟨none, none, none⟩, "m"⟩], []⟩ Env.ok c4Srv "7").2.2) ∨
        (∃ inp, c4Srv.sinkInputs.find?
            (fun i => trimS (toString i.id) == trimS "7") = some inp ∧
          isSystemStream inp.props = true ∧
          sinkNameById c4Srv inp.sinkId = "vsink.system" ∧
          (routeSinkInputNow ⟨[], [], [⟨⟨none, none, none⟩, "m"⟩], []⟩ Env.ok c4Srv "7").2.2 = []))) ∧
    (∀ env : Env, (∀ i t, env.moveFails i t = true) →
      ((routeSinkInputNow ⟨[], [], [⟨⟨none, none, none⟩, "m"⟩], []⟩ env c4Srv "7").1 = false ∨
        (routeSinkInputNow ⟨[], [], [⟨⟨none, none, none⟩, "m"⟩], []⟩ env c4Srv "7").2.2 = [])) ∧
    ((⟨[], [], [⟨⟨none, none, none⟩, "m"⟩], []⟩ : Cfg).micRoutes ≠ [] →
      routeSourceOutputNow ⟨[], [], [⟨⟨none, none, none⟩, "m"⟩], []⟩ "7" = none)) :=
  c4_fastpath_result ⟨[], [], [⟨⟨none, none, none⟩, "m"⟩], []⟩ c4Srv "7" (by decide)

/-! ## C1 groundwork: association-list lemmas -/

theorem eraseS_of_lookup_none {α : Type} {l : List (String × α)} {k : String}
    (h : lookupS l k = none) : eraseS l k = l := by
  unfold lookupS at h
  rw [Option.map_eq_none'] at h
  unfold eraseS
  apply List.filter_eq_self.mpr
  intro p hp
  have := List.find?_eq_none.mp h p hp
  simp only [Bool.not_eq_true] at this ⊢
  simp [this]

theorem lookupS_map_update {α : Type} (l : List (String × α)) (k k' : String) (v : α)
    (h : ¬ k' = k) :
    lookupS (l.map (fun p => if p.1 == k then (k, v) else p)) k' = lookupS l k' := by
  induction l with
  | nil => rfl
  | cons p rest ih =>
      unfold lookupS
      rw [List.map_cons, List.find?_cons, List.find?_cons]
      by_cases hk : (p.1 == k) = true
      · rw [if_pos hk]
        have hp1 : p.1 = k := by simpa using hk
        have h1 : ((k, v).1 == k') = false := by
          simp only [beq_eq_false_iff_ne]
          intro he
          exact h he.symm
        have h2 : (p.1 == k') = false := by
          simp only [beq_eq_false_iff_ne]
          rw [hp1]
          intro he
          exact h he.symm
        rw [h1, h2]
        exact ih
      · rw [if_neg hk]
        by_cases hk' : (p.1 == k') = true
        · rw [hk']
        · rw [Bool.not_eq_true] at hk'
          rw [hk']
          exact ih

theorem lookupS_append_single_ne {α : Type} (l : List (String × α)) (k k' : String)
    (v : α) (h : ¬ k' = k) :
    lookupS (l ++ [(k, v)]) k' = lookupS l k' := by
  induction l with
  | nil =>
      unfold lookupS
      rw [List.nil_append, List.find?_cons]
      have h1 : ((k, v).1 == k') = false := by
        simp only [beq_eq_false_iff_ne]
        intro he
        exact h he.symm
      rw [h1]
  | cons p rest ih =>
      unfold lookupS
      rw [List.cons_append, List.find?_cons, List.find?_cons]
      by_cases hk' : (p.1 == k') = true
      · rw [hk']
      · rw [Bool.not_eq_true] at hk'
        rw [hk']
        exact ih

theorem lookupS_setS_ne {α : Type} (l : List (String × α)) (k k' : String) (v : α)
    (h : ¬ k' = k) : lookupS (setS l k v) k' = lookupS l k' := by
  unfold setS
  by_cases hs : ((l.find? (fun p => p.1 == k)).isSome) = true
  · rw [if_pos hs]
    exact lookupS_map_update l k k' v h
  · rw [if_neg hs]
    exact lookupS_append_single_ne l k k' v h

theorem lookupS_isSome_of_mem {α : Type} {l : List (String × α)} {p : String × α}
    (h : p ∈ l) : (lookupS l p.1).isSome = true := by
  induction l with
  | nil => cases h
  | cons q rest ih =>
      unfold lookupS
      rw [List.find?_cons]
      by_cases hq : (q.1 == p.1) = true
      · rw [hq]
        rfl
      · rw [Bool.not_eq_true] at hq
        rw [hq]
        rcases List.mem_cons.mp h with rfl | hmem
        · rw [beq_self_eq_true] at hq
          cases hq
        · exact ih hmem

/-! ## C1 groundwork: command classes and the second-run trace -/

/-- A command that loads, unloads, or mutes: what an idempotent second run
must not issue. -/
def heavyCmd (c : Cmd) : Bool := isLoadCmd c || isUnloadCmd c || isMuteCmd c

/-- Trace of the second of two back-to-back `apply_once` runs on a steady
server (empty when the first run already raised and saved nothing). -/
def secondRunTrace (cfg : Cfg) (srv : Server) : List Cmd :=
  let r1 := applyOnce cfg emptyState srv Env.ok
  match r1.saved with
  | some st1 => (applyOnce cfg st1 r1.server Env.ok).trace
  | none => []

theorem heavy_of_props {c : Cmd} (h : isPropsCmd c = true) : heavyCmd c = false := by
  cases c <;> first | rfl | simp [isPropsCmd] at h

theorem heavy_of_move {c : Cmd} (h : isMoveCmd c = true) : heavyCmd c = false := by
  cases c <;> first | rfl | simp [isMoveCmd] at h

/-! ## C1 groundwork: phases 0, 1 and 5 of a settled second run -/

theorem phase0Go_id (wanted : List String) (l : List (String × Nat)) :
    ∀ (st : RState) (srv : Server), (∀ p ∈ l, wanted.contains p.1 = true) →
    phase0Go wanted l st srv = (st, srv, []) := by
  induction l with
  | nil => intro st srv _; rfl
  | cons p rest ih =>
      intro st srv h
      rcases p with ⟨k, mid⟩
      unfold phase0Go
      rw [if_pos (h (k, mid) (List.mem_cons_self _ _))]
      exact ih st srv (fun q hq => h q (List.mem_cons_of_mem _ hq))

theorem phase0_id (wanted : List String) (st : RState) (srv : Server)
    (h : ∀ p ∈ st.inputRouteModules, wanted.contains p.1 = true) :
    phase0 wanted st srv = (st, srv, []) :=
  phase0Go_id wanted st.inputRouteModules st srv h

theorem phase1RouteGo_id (names : List String) (l : List (String × Nat)) :
    ∀ (st : RState) (srv : Server), (∀ p ∈ l, names.contains p.1 = true) →
    phase1RouteGo names l st srv = (st, srv, []) := by
  induction l with
  | nil => intro st srv _; rfl
  | cons p rest ih =>
      intro st srv h
      rcases p with ⟨k, mid⟩
      unfold phase1RouteGo
      rw [if_pos (h (k, mid) (List.mem_cons_self _ _))]
      exact ih st srv (fun q hq => h q (List.mem_cons_of_mem _ hq))

theorem phase1BusGo_id (names : List String) (l : List (String × Nat)) :
    ∀ (st : RState) (srv : Server), (∀ p ∈ l, names.contains p.1 = true) →
    phase1BusGo names l st srv = (st, srv, []) := by
  induction l with
  | nil => intro st srv _; rfl
  | cons p rest ih =>
      intro st srv h
      rcases p with ⟨k, mid⟩
      unfold phase1BusGo
      rw [if_pos (h (k, mid) (List.mem_cons_self _ _))]
      exact ih st srv (fun q hq => h q (List.mem_cons_of_mem _ hq))

theorem phase1_id (names : List String) (st : RState) (srv : Server)
    (h1 : ∀ p ∈ st.routeModules, names.contains p.1 = true)
    (h2 : ∀ p ∈ st.busModules, names.contains p.1 = true) :
    phase1 names st srv = (st, srv, []) := by
  unfold phase1
  rw [phase1RouteGo_id names st.routeModules st srv h1]
  dsimp only
  rw [phase1BusGo_id names st.busModules st srv h2]
  rfl

theorem ensureModuleLoadedOp_noop {srv : Server} {n : String}
    (h : moduleLoaded srv n = true) : ensureModuleLoadedOp srv n = (srv, []) := by
  unfold ensureModuleLoadedOp
  rw [if_pos h]

theorem ensureModuleLoadedOp_spec (srv : Server) (n : String) :
    (ensureModuleLoadedOp srv n).1.defaultSink = srv.defaultSink ∧
    (ensureModuleLoadedOp srv n).1.sinks = srv.sinks ∧
    (ensureModuleLoadedOp srv n).1.sources = srv.sources ∧
    (ensureModuleLoadedOp srv n).1.sinkInputs = srv.sinkInputs ∧
    (∃ extra, (ensureModuleLoadedOp srv n).1.modules = srv.modules ++ extra ∧
      ∀ m ∈ extra, m.name = n) ∧
    moduleLoaded (ensureModuleLoadedOp srv n).1 n = true := by
  unfold ensureModuleLoadedOp
  by_cases h : moduleLoaded srv n = true
  · rw [if_pos h]
    exact ⟨rfl, rfl, rfl, rfl, ⟨[], by simp, by simp⟩, h⟩
  · rw [if_neg h]
    refine ⟨rfl, rfl, rfl, rfl, ⟨[⟨srv.nextId, n, ""⟩], rfl, ?_⟩, ?_⟩
    · intro m hm
      rcases List.mem_singleton.mp hm with rfl
      rfl
    · unfold moduleLoaded
      dsimp only
      rw [List.any_append]
      simp

/-! ## C1 groundwork: phase 6 touches no module, sink, source or default -/

theorem moveSinkInputOp_frame (env : Env) (srv : Server) (sid : Nat) (t : String) :
    (moveSinkInputOp env srv sid t).2.1.defaultSink = srv.defaultSink ∧
    (moveSinkInputOp env srv sid t).2.1.sinks = srv.sinks ∧
    (moveSinkInputOp env srv sid t).2.1.sources = srv.sources ∧
    (moveSinkInputOp env srv sid t).2.1.modules = srv.modules := by
  unfold moveSinkInputOp
  cases srv.sinks.find? (fun s => s.name == t) with
  | none => exact ⟨rfl, rfl, rfl, rfl⟩
  | some sk => by_cases h : env.moveFails sid t = true <;> simp [h]

theorem streamRulesGo_frame (env : Env) (sid : Nat) (binv appv aidv : String)
    (rules : List StreamRule) : ∀ (srv : Server),
    (streamRulesGo env sid binv appv aidv rules srv).2.1.defaultSink = srv.defaultSink ∧
    (streamRulesGo env sid binv appv aidv rules srv).2.1.sinks = srv.sinks ∧
    (streamRulesGo env sid binv appv aidv rules srv).2.1.sources = srv.sources ∧
    (streamRulesGo env sid binv appv aidv rules srv).2.1.modules = srv.modules := by
  induction rules with
  | nil => intro srv; exact ⟨rfl, rfl, rfl, rfl⟩
  | cons r rest ih =>
      intro srv
      unfold streamRulesGo
      by_cases h1 : (r.targetBus == "" || !(sinkExists srv r.targetBus)) = true
      · rw [if_pos h1]
        exact ih srv
      · rw [if_neg h1]
        by_cases h2 : matchOK r.matchSpec binv appv aidv = true
        · rw [if_pos h2]
          rcases hmv : moveSinkInputOp env srv sid r.targetBus with ⟨ok1, srv1, tr1⟩
          dsimp only
          have hf := moveSinkInputOp_frame env srv sid r.targetBus
          rw [hmv] at hf
          dsimp only at hf
          rcases hrec : streamRulesGo env sid binv appv aidv rest srv1 with ⟨m2, srv2, tr2⟩
          dsimp only
          have hr := ih srv1
          rw [hrec] at hr
          dsimp only at hr
          exact ⟨hr.1.trans hf.1, hr.2.1.trans hf.2.1, hr.2.2.1.trans hf.2.2.1,
            hr.2.2.2.trans hf.2.2.2⟩
        · rw [if_neg h2]
          exact ih srv

theorem streamStep_frame (env : Env) (rules : List StreamRule) (haveSystem : Bool)
    (inp : SrvInput) (srv : Server) :
    (streamStep env rules haveSystem inp srv).1.defaultSink = srv.defaultSink ∧
    (streamStep env rules haveSystem inp srv).1.sinks = srv.sinks ∧
    (streamStep env rules haveSystem inp srv).1.sources = srv.sources ∧
    (streamStep env rules haveSystem inp srv).1.modules = srv.modules := by
  unfold streamStep
  dsimp only
  rcases hr : streamRulesGo env inp.id
      (toLowerS (propGet inp.props "application.process.binary"))
      (toLowerS (propGet inp.props "application.name"))
      (toLowerS (propGet inp.props "pipewire.access.portal.app_id")) rules srv with
    ⟨matched, srv1, tr1⟩
  have hf := streamRulesGo_frame env inp.id
      (toLowerS (propGet inp.props "application.process.binary"))
      (toLowerS (propGet inp.props "application.name"))
      (toLowerS (propGet inp.props "pipewire.access.portal.app_id")) rules srv
  rw [hr] at hf
  dsimp only at hf
  by_cases hm : matched = true
  · rw [if_pos hm]
    exact hf
  · rw [if_neg hm]
    by_cases hsys : (haveSystem && isSystemStream inp.props) = true
    · rw [if_pos hsys]
      by_cases halready : (sinkNameById srv1 inp.sinkId == "vsink.system") = true
      · rw [if_pos halready]
        exact hf
      · rw [if_neg halready]
        rcases hq : moveInputQuietlyOp env srv1 inp.id "vsink.system"
            SYSTEM_STREAM_MOVE_MUTE_MSEC with ⟨ok2, srv2, tr2⟩
        dsimp only
        have hf2 := moveSinkInputOp_frame env srv1 inp.id "vsink.system"
        have hq' : moveSinkInputOp env srv1 inp.id "vsink.system" = (ok2, srv2, tr2) := hq
        rw [hq'] at hf2
        dsimp only at hf2
        exact ⟨hf2.1.trans hf.1, hf2.2.1.trans hf.2.1, hf2.2.2.1.trans hf.2.2.1,
          hf2.2.2.2.trans hf.2.2.2⟩
    · rw [if_neg hsys]
      exact hf

theorem phase6Go_frame (env : Env) (rules : List StreamRule) (haveSystem : Bool)
    (inputs : List SrvInput) : ∀ (srv : Server),
    (phase6Go env rules haveSystem inputs srv).1.defaultSink = srv.defaultSink ∧
    (phase6Go env rules haveSystem inputs srv).1.sinks = srv.sinks ∧
    (phase6Go env rules haveSystem inputs srv).1.sources = srv.sources ∧
    (phase6Go env rules haveSystem inputs srv).1.modules = srv.modules := by
  induction inputs with
  | nil => intro srv; exact ⟨rfl, rfl, rfl, rfl⟩
  | cons inp rest ih =>
      intro srv
      unfold phase6Go
      rcases hs : streamStep env rules haveSystem inp srv with ⟨srv1, tr1⟩
      dsimp only
      have hf := streamStep_frame env rules haveSystem inp srv
      rw [hs] at hf
      dsimp only at hf
      rcases hrec : phase6Go env rules haveSystem rest srv1 with ⟨srv2, tr2⟩
      dsimp only
      have hr := ih srv1
      rw [hrec] at hr
      dsimp only at hr
      exact ⟨hr.1.trans hf.1, hr.2.1.trans hf.2.1, hr.2.2.1.trans hf.2.2.1,
        hr.2.2.2.trans hf.2.2.2⟩

/-! ## C1 groundwork: branch conditions of phases 3 and 4 -/

/-- The skip conditions of a phase-3 bus past the `none` sentinel, in the
code's order: empty resolved target, self/monitor target, missing monitor. -/
def skipCondB (b : Bus) (srv : Server) : Bool :=
  (resolveT b srv == "") ||
    (resolveT b srv == b.name || endsWithS (resolveT b srv) ".monitor") ||
    !(sourceExists srv (b.name ++ ".monitor"))

/-- The skip conditions of one phase-4 input route. -/
def skipCondR (r : InputRoute) (srv : Server) : Bool :=
  (trimS r.source == "" || trimS r.targetBus == "") ||
    (!(sourceExists srv (trimS r.source)) || !(sinkExists srv (trimS r.targetBus))) ||
    endsWithS (trimS r.source) ".monitor"

theorem skipCondB_congr {srv srv' : Server} (b : Bus)
    (hs : srv'.sinks = srv.sinks) (hsrc : srv'.sources = srv.sources)
    (hd : srv'.defaultSink = srv.defaultSink) :
    skipCondB b srv' = skipCondB b srv := by
  unfold skipCondB
  rw [resolveT_congr b hs hd, sourceExists_congr hsrc]

theorem skipCondR_congr {srv srv' : Server} (r : InputRoute)
    (hs : srv'.sinks = srv.sinks) (hsrc : srv'.sources = srv.sources) :
    skipCondR r srv' = skipCondR r srv := by
  unfold skipCondR
  rw [sourceExists_congr hsrc, sinkExists_congr hs]

theorem or_false_split (x y : Bool) (h : (x || y) = false) : x = false ∧ y = false := by
  revert h
  cases x <;> cases y <;> decide

theorem skipCondB_false_elim {b : Bus} {srv : Server} (h : skipCondB b srv = false) :
    (resolveT b srv == "") = false ∧
    (resolveT b srv == b.name || endsWithS (resolveT b srv) ".monitor") = false ∧
    sourceExists srv (b.name ++ ".monitor") = true := by
  unfold skipCondB at h
  obtain ⟨h12, h3⟩ := or_false_split _ _ h
  obtain ⟨h1, h2⟩ := or_false_split _ _ h12
  refine ⟨h1, h2, ?_⟩
  cases hx : sourceExists srv (b.name ++ ".monitor") with
  | true => rfl
  | false => simp [hx] at h3

theorem skipCondR_false_elim {r : InputRoute} {srv : Server}
    (h : skipCondR r srv = false) :
    (trimS r.source == "" || trimS r.targetBus == "") = false ∧
    (!(sourceExists srv (trimS r.source)) ||
      !(sinkExists srv (trimS r.targetBus))) = false ∧
    endsWithS (trimS r.source) ".monitor" = false := by
  unfold skipCondR at h
  obtain ⟨h12, h3⟩ := or_false_split _ _ h
  obtain ⟨h1, h2⟩ := or_false_split _ _ h12
  exact ⟨h1, h2, h3⟩

/-- The resolved target of a bus comes from the closed target universe. -/
theorem resolveT_mem {TGT : List String} {b : Bus} {srv : Server}
    (hrt : b.routeTo ∈ TGT) (hsk : ∀ s ∈ srv.sinks, s.name ∈ TGT)
    (hd : srv.defaultSink ∈ TGT) : resolveT b srv ∈ TGT := by
  unfold resolveT
  by_cases h : (b.routeTo == "default") = true
  · rw [if_pos h]
    unfold physicalDefaultSink
    dsimp only
    by_cases h1 : (srv.defaultSink != "" && !(startsWithS srv.defaultSink "vsink.")) = true
    · rw [if_pos h1]
      exact hd
    · rw [if_neg h1]
      cases hf : srv.sinks.find? (fun s => s.name != "" && !(startsWithS s.name "vsink.")) with
      | none => exact hd
      | some s => exact hsk s (List.mem_of_find?_eq_some hf)
  · rw [if_neg h]
    exact hrt

theorem possibleTargets_of_routeTo {cfg : Cfg} {srv : Server} {b : Bus}
    (hb : b ∈ cfg.buses) : b.routeTo ∈ possibleTargets cfg srv := by
  unfold possibleTargets
  exact List.mem_append.mpr (Or.inl (List.mem_append.mpr (Or.inl
    (List.mem_append.mpr (Or.inl (List.mem_append.mpr (Or.inl
      (List.mem_map_of_mem _ hb))))))))

theorem possibleTargets_of_name {cfg : Cfg} {srv : Server} {n : String}
    (hb : n ∈ cfg.buses.map (fun b => b.name)) : n ∈ possibleTargets cfg srv := by
  unfold possibleTargets
  exact List.mem_append.mpr (Or.inl (List.mem_append.mpr (Or.inl
    (List.mem_append.mpr (Or.inl (List.mem_append.mpr (Or.inr hb)))))))

theorem possibleTargets_of_sink {cfg : Cfg} {srv : Server} {s : SrvSink}
    (hs : s ∈ srv.sinks) : s.name ∈ possibleTargets cfg srv := by
  unfold possibleTargets
  exact List.mem_append.mpr (Or.inl (List.mem_append.mpr (Or.inl
    (List.mem_append.mpr (Or.inr (List.mem_map_of_mem _ hs))))))

theorem possibleTargets_default (cfg : Cfg) (srv : Server) :
    srv.defaultSink ∈ possibleTargets cfg srv := by
  unfold possibleTargets
  exact List.mem_append.mpr (Or.inl (List.mem_append.mpr (Or.inr
    (List.mem_singleton.mpr rfl))))

theorem possibleTargets_of_inputTarget {cfg : Cfg} {srv : Server} {r : InputRoute}
    (hr : r ∈ cfg.inputRoutes) : trimS r.targetBus ∈ possibleTargets cfg srv := by
  unfold possibleTargets
  exact List.mem_append.mpr (Or.inr (List.mem_map_of_mem _ hr))

theorem allRouteSources_of_bus {cfg : Cfg} {b : Bus} (hb : b ∈ cfg.buses) :
    (b.name ++ ".monitor") ∈ allRouteSources cfg := by
  unfold allRouteSources
  exact List.mem_append.mpr (Or.inl (List.mem_map_of_mem _ hb))

theorem allRouteSources_of_route {cfg : Cfg} {r : InputRoute}
    (hr : r ∈ cfg.inputRoutes) : trimS r.source ∈ allRouteSources cfg := by
  unfold allRouteSources
  exact List.mem_append.mpr (Or.inr (List.mem_map_of_mem _ hr))

/-! ## C1 groundwork: the canonical-loopback inventory -/

/-- Every loopback module is canonical for some recorded `(source, target)`
pair, and every recorded pair has its canonical module loaded. -/
def CanonInv (done : List (String × String)) (srv : Server) : Prop :=
  (∀ m ∈ srv.modules, m.name = "module-loopback" →
    ∃ p ∈ done, m.args = loopbackArgs p.1 p.2) ∧
  (∀ p ∈ done, ∃ m ∈ srv.modules, m.name = "module-loopback" ∧
    m.args = loopbackArgs p.1 p.2)

/-- The recorded pairs stay inside the configured source/target universes and
each source has a unique target. -/
def DoneScope (SRC TGT : List String) (done : List (String × String)) : Prop :=
  (∀ p ∈ done, p.1 ∈ SRC ∧ p.2 ∈ TGT) ∧
  (∀ p ∈ done, ∀ q ∈ done, p.1 = q.1 → p.2 = q.2)

theorem canonInv_extend {done : List (String × String)} {srv srv' : Server}
    {extra : List SrvModule} (hm : srv'.modules = srv.modules ++ extra)
    (hx : ∀ m ∈ extra, ¬ m.name = "module-loopback")
    (h : CanonInv done srv) : CanonInv done srv' := by
  constructor
  · intro m hmem hname
    rw [hm] at hmem
    rcases List.mem_append.mp hmem with h1 | h1
    · exact h.1 m h1 hname
    · exact absurd hname (hx m h1)
  · intro p hp
    obtain ⟨m, hmem, h1, h2⟩ := h.2 p hp
    exact ⟨m, by rw [hm]; exact List.mem_append_left _ hmem, h1, h2⟩

/-- The server after a successful `load_loopback`. -/
def loopSrv (srv : Server) (s t : String) : Server := (loadLoopbackOp srv s t).2.1

theorem loopSrv_modules (srv : Server) (s t : String) :
    (loopSrv srv s t).modules =
      srv.modules ++ [⟨srv.nextId, "module-loopback", loopbackArgs s t⟩] := rfl

theorem loopSrv_sinks (srv : Server) (s t : String) :
    (loopSrv srv s t).sinks = srv.sinks := rfl

theorem loopSrv_sources (srv : Server) (s t : String) :
    (loopSrv srv s t).sources = srv.sources := rfl

theorem loopSrv_default (srv : Server) (s t : String) :
    (loopSrv srv s t).defaultSink = srv.defaultSink := rfl

theorem cleanupNoop_of_fresh {SRC TGT : List String} {done : List (String × String)}
    {srv : Server} {s : String} (t : String) (hna : NoAlias SRC TGT)
    (hcanon : ∀ m ∈ srv.modules, m.name = "module-loopback" →
      ∃ p ∈ done, m.args = loopbackArgs p.1 p.2)
    (hscope : ∀ p ∈ done, p.1 ∈ SRC ∧ p.2 ∈ TGT)
    (hs : s ∈ SRC) (hkeys : ∀ p ∈ done, ¬ p.1 = s) :
    CleanupNoop srv s t := by
  intro m hm hname hsrc
  obtain ⟨p, hp, hargs⟩ := hcanon m hm hname
  have hne : ¬ s = p.1 := fun he => hkeys p hp he.symm
  have hpy := hna s hs p.1 (hscope p hp).1 hne p.2 (hscope p hp).2
  rw [hargs, hpy] at hsrc
  cases hsrc

theorem cleanupNoop_of_done {SRC TGT : List String} {done : List (String × String)}
    {srv : Server} {s t : String} (hna : NoAlias SRC TGT)
    (hcanon : ∀ m ∈ srv.modules, m.name = "module-loopback" →
      ∃ p ∈ done, m.args = loopbackArgs p.1 p.2)
    (hscope : ∀ p ∈ done, p.1 ∈ SRC ∧ p.2 ∈ TGT)
    (hfun : ∀ p ∈ done, ∀ q ∈ done, p.1 = q.1 → p.2 = q.2)
    (hs : s ∈ SRC) (hmem : (s, t) ∈ done) :
    CleanupNoop srv s t := by
  intro m hm hname hsrc
  obtain ⟨p, hp, hargs⟩ := hcanon m hm hname
  by_cases he : p.1 = s
  · have ht : p.2 = t := hfun p hp (s, t) hmem he
    rw [hargs, he, ht]
    exact pyIn_sink_self s t
  · have hne : ¬ s = p.1 := fun x => he x.symm
    have hpy := hna s hs p.1 (hscope p hp).1 hne p.2 (hscope p hp).2
    rw [hargs, hpy] at hsrc
    cases hsrc

theorem cleanupNoop_post {srv : Server} {s t : String} (h : CleanupNoop srv s t) :
    CleanupNoop (loopSrv srv s t) s t := by
  intro m hm hname hsrc
  rw [loopSrv_modules] at hm
  rcases List.mem_append.mp hm with h1 | h1
  · exact h m h1 hname hsrc
  · rcases List.mem_singleton.mp h1 with rfl
    exact pyIn_sink_self s t

theorem loopbackExists_false_of_fresh {SRC TGT : List String}
    {done : List (String × String)} {srv : Server} {s : String} (t : String)
    (hna : NoAlias SRC TGT)
    (hcanon : ∀ m ∈ srv.modules, m.name = "module-loopback" →
      ∃ p ∈ done, m.args = loopbackArgs p.1 p.2)
    (hscope : ∀ p ∈ done, p.1 ∈ SRC ∧ p.2 ∈ TGT)
    (hs : s ∈ SRC) (hkeys : ∀ p ∈ done, ¬ p.1 = s) :
    loopbackExists srv s t = false := by
  unfold loopbackExists
  rw [List.any_eq_false]
  intro m hm
  by_cases hname : m.name = "module-loopback"
  · obtain ⟨p, hp, hargs⟩ := hcanon m hm hname
    have hne : ¬ s = p.1 := fun he => hkeys p hp he.symm
    have hpy := hna s hs p.1 (hscope p hp).1 hne p.2 (hscope p hp).2
    rw [hargs, hpy]
    simp
  · have hb : (m.name == "module-loopback") = false := by simp [hname]
    rw [hb]
    simp

theorem setS_mem {α : Type} {l : List (String × α)} {k : String} {v : α} :
    ∀ p ∈ setS l k v, p ∈ l ∨ p.1 = k := by
  intro p hp
  unfold setS at hp
  by_cases hs : ((l.find? (fun q => q.1 == k)).isSome) = true
  · rw [if_pos hs] at hp
    rcases List.mem_map.mp hp with ⟨q, hq, hqe⟩
    by_cases hqq : (q.1 == k) = true
    · rw [if_pos hqq] at hqe
      right
      rw [← hqe]
    · rw [if_neg hqq] at hqe
      left
      rw [← hqe]
      exact hq
  · rw [if_neg hs] at hp
    rcases List.mem_append.mp hp with h1 | h1
    · exact Or.inl h1
    · rcases List.mem_singleton.mp h1 with rfl
      exact Or.inr rfl

/-! ## C1 groundwork: exact branch equations for one bus / one input route -/

theorem busStep_none {b : Bus} {st : RState} {srv : Server}
    (hrt : noneCond b = true) (hkey : lookupS st.routeModules b.name = none) :
    busStep Env.ok b st srv =
      .ok ({ st with routeTarget := setS st.routeTarget b.name "none" }, srv, []) := by
  unfold noneCond at hrt
  unfold busStep
  dsimp only
  rw [if_pos hrt, hkey]
  dsimp only
  rw [eraseS_of_lookup_none hkey]

theorem busStep_skip {b : Bus} {st : RState} {srv : Server}
    (hrt : noneCond b = false) (hskip : skipCondB b srv = true) :
    busStep Env.ok b st srv = .ok (st, srv, []) := by
  unfold noneCond at hrt
  unfold busStep
  dsimp only
  rw [hrt, if_neg Bool.false_ne_true]
  rw [show (if (b.routeTo == "default") = true then physicalDefaultSink srv
    else b.routeTo) = resolveT b srv from rfl]
  unfold skipCondB at hskip
  cases h1 : (resolveT b srv == "") with
  | true => rw [if_pos rfl]
  | false =>
      rw [if_neg Bool.false_ne_true]
      rw [h1] at hskip
      simp only [Bool.false_or] at hskip
      cases h2 : (resolveT b srv == b.name || endsWithS (resolveT b srv) ".monitor") with
      | true => rw [if_pos rfl]
      | false =>
          rw [if_neg Bool.false_ne_true]
          rw [h2] at hskip
          simp only [Bool.false_or] at hskip
          rw [if_pos hskip]

theorem busStep_exists {b : Bus} {st : RState} {srv : Server}
    (hrt : noneCond b = false) (hskip : skipCondB b srv = false)
    (hex : loopbackExists srv (b.name ++ ".monitor") (resolveT b srv) = true)
    (hnoop : CleanupNoop srv (b.name ++ ".monitor") (resolveT b srv)) :
    busStep Env.ok b st srv =
      .ok ({ st with routeTarget := setS st.routeTarget b.name (resolveT b srv) },
        srv, []) := by
  obtain ⟨h1, h2, h3⟩ := skipCondB_false_elim hskip
  unfold noneCond at hrt
  unfold busStep
  dsimp only
  rw [hrt, if_neg Bool.false_ne_true]
  rw [show (if (b.routeTo == "default") = true then physicalDefaultSink srv
    else b.routeTo) = resolveT b srv from rfl]
  rw [if_neg (by rw [h1]; exact Bool.false_ne_true)]
  rw [if_neg (by rw [h2]; exact Bool.false_ne_true)]
  rw [if_neg (by rw [h3]; simp)]
  rw [if_pos hex]
  rw [cleanupWrong_noop hnoop]

theorem handoverOp_clean (name monitor target prevTarget : String) (srv : Server)
    (hnoopPre : CleanupNoop srv monitor target)
    (hnoopPost : CleanupNoop (loopSrv srv monitor target) monitor target) :
    ∃ tr, handoverOp Env.ok name monitor target none prevTarget srv =
      .ok (srv.nextId, loopSrv srv monitor target, tr) := by
  unfold handoverOp
  dsimp only
  have hlb : Env.ok.loopbackFails monitor target = false := rfl
  by_cases hv : (startsWithS target "vsink." || startsWithS prevTarget "vsink.") = true
  · rw [if_pos hv]
    rw [cleanupWrong_noop hnoopPre]
    dsimp only
    rw [hlb, if_neg Bool.false_ne_true]
    rcases hl : loadLoopbackOp srv monitor target with ⟨mid, srvB, trB⟩
    dsimp only
    have hsrvB : srvB = loopSrv srv monitor target := by
      unfold loopSrv
      rw [hl]
    have hmid : mid = srv.nextId := by
      have h1 : (loadLoopbackOp srv monitor target).1 = mid := by rw [hl]
      exact h1.symm.trans rfl
    subst hsrvB
    subst hmid
    exact ⟨_, rfl⟩
  · rw [if_neg hv]
    rw [hlb, if_neg Bool.false_ne_true]
    rcases hl : loadLoopbackOp srv monitor target with ⟨mid, srvB, trB⟩
    dsimp only
    have hsrvB : srvB = loopSrv srv monitor target := by
      unfold loopSrv
      rw [hl]
    have hmid : mid = srv.nextId := by
      have h1 : (loadLoopbackOp srv monitor target).1 = mid := by rw [hl]
      exact h1.symm.trans rfl
    subst hsrvB
    subst hmid
    rw [cleanupWrong_noop hnoopPost]
    dsimp only
    exact ⟨_, rfl⟩

theorem busStep_load {b : Bus} {st : RState} {srv : Server}
    (hrt : noneCond b = false) (hskip : skipCondB b srv = false)
    (hex : loopbackExists srv (b.name ++ ".monitor") (resolveT b srv) = false)
    (hkey : lookupS st.routeModules b.name = none)
    (hnoop : CleanupNoop srv (b.name ++ ".monitor") (resolveT b srv)) :
    ∃ tr, busStep Env.ok b st srv =
      .ok (RState.mk st.busModules (setS st.routeModules b.name srv.nextId)
        st.inputRouteModules (setS st.routeTarget b.name (resolveT b srv))
        st.inputRouteTarget,
        loopSrv srv (b.name ++ ".monitor") (resolveT b srv), tr) := by
  obtain ⟨h1, h2, h3⟩ := skipCondB_false_elim hskip
  unfold noneCond at hrt
  unfold busStep
  dsimp only
  rw [hrt, if_neg Bool.false_ne_true]
  rw [show (if (b.routeTo == "default") = true then physicalDefaultSink srv
    else b.routeTo) = resolveT b srv from rfl]
  rw [if_neg (by rw [h1]; exact Bool.false_ne_true)]
  rw [if_neg (by rw [h2]; exact Bool.false_ne_true)]
  rw [if_neg (by rw [h3]; simp)]
  rw [if_neg (by rw [hex]; exact Bool.false_ne_true)]
  rw [hkey]
  obtain ⟨tr, hh⟩ := handoverOp_clean b.name (b.name ++ ".monitor") (resolveT b srv)
    ((lookupS st.routeTarget b.name).getD "") srv hnoop (cleanupNoop_post hnoop)
  rw [hh]
  dsimp only
  exact ⟨tr, rfl⟩

theorem inputStep_skip {r : InputRoute} {st : RState} {srv : Server}
    (hskip : skipCondR r srv = true) :
    inputRouteStep Env.ok r st srv = (st, srv, []) := by
  unfold inputRouteStep
  dsimp only
  unfold skipCondR at hskip
  cases h1 : (trimS r.source == "" || trimS r.targetBus == "") with
  | true => rw [if_pos rfl]
  | false =>
      rw [if_neg Bool.false_ne_true]
      rw [h1] at hskip
      simp only [Bool.false_or] at hskip
      cases h2 : (!(sourceExists srv (trimS r.source)) ||
          !(sinkExists srv (trimS r.targetBus))) with
      | true => rw [if_pos rfl]
      | false =>
          rw [if_neg Bool.false_ne_true]
          rw [h2] at hskip
          simp only [Bool.false_or] at hskip
          rw [if_pos hskip]

theorem inputStep_exists {r : InputRoute} {st : RState} {srv : Server}
    (hskip : skipCondR r srv = false)
    (hex : loopbackExists srv (trimS r.source) (trimS r.targetBus) = true)
    (hnoop : CleanupNoop srv (trimS r.source) (trimS r.targetBus)) :
    inputRouteStep Env.ok r st srv =
      (RState.mk st.busModules st.routeModules st.inputRouteModules st.routeTarget
        (setS st.inputRouteTarget (trimS r.source) (trimS r.targetBus)), srv, []) := by
  obtain ⟨h1, h2, h3⟩ := skipCondR_false_elim hskip
  unfold inputRouteStep
  dsimp only
  rw [if_neg (by rw [h1]; exact Bool.false_ne_true)]
  rw [if_neg (by rw [h2]; exact Bool.false_ne_true)]
  rw [if_neg (by rw [h3]; exact Bool.false_ne_true)]
  rw [if_pos hex]
  rw [cleanupWrong_noop hnoop]

theorem inputStep_load {r : InputRoute} {st : RState} {srv : Server}
    (hskip : skipCondR r srv = false)
    (hex : loopbackExists srv (trimS r.source) (trimS r.targetBus) = false)
    (hkey : lookupS st.inputRouteModules (trimS r.source) = none)
    (hnoop : CleanupNoop srv (trimS r.source) (trimS r.targetBus)) :
    ∃ tr, inputRouteStep Env.ok r st srv =
      (RState.mk st.busModules st.routeModules
        (setS st.inputRouteModules (trimS r.source) srv.nextId)
        st.routeTarget
        (setS st.inputRouteTarget (trimS r.source) (trimS r.targetBus)),
        loopSrv srv (trimS r.source) (trimS r.targetBus), tr) := by
  obtain ⟨h1, h2, h3⟩ := skipCondR_false_elim hskip
  unfold inputRouteStep
  dsimp only
  rw [if_neg (by rw [h1]; exact Bool.false_ne_true)]
  rw [if_neg (by rw [h2]; exact Bool.false_ne_true)]
  rw [if_neg (by rw [h3]; exact Bool.false_ne_true)]
  rw [if_neg (by rw [hex]; exact Bool.false_ne_true)]
  rw [hkey]
  dsimp only
  rw [cleanupWrong_noop hnoop]
  dsimp only
  rw [show Env.ok.loopbackFails (trimS r.source) (trimS r.targetBus) = false from rfl,
    if_neg Bool.false_ne_true]
  rcases hl : loadLoopbackOp srv (trimS r.source) (trimS r.targetBus) with ⟨mid, srvB, trB⟩
  dsimp only
  have hsrvB : srvB = loopSrv srv (trimS r.source) (trimS r.targetBus) := by
    unfold loopSrv
    rw [hl]
  have hmid : mid = srv.nextId := by
    have hp1 : (loadLoopbackOp srv (trimS r.source) (trimS r.targetBus)).1 = mid := by
      rw [hl]
    exact hp1.symm.trans rfl
  subst hsrvB
  subst hmid
  exact ⟨_, rfl⟩

theorem phase6_frame (env : Env) (rules : List StreamRule) (srv : Server) :
    (phase6 env rules srv).1.defaultSink = srv.defaultSink ∧
    (phase6 env rules srv).1.sinks = srv.sinks ∧
    (phase6 env rules srv).1.sources = srv.sources ∧
    (phase6 env rules srv).1.modules = srv.modules := by
  unfold phase6
  exact phase6Go_frame env rules (sinkExists srv "vsink.system") srv.sinkInputs srv

/-! ## C1: a settled second run re-tags, re-resolves and moves — nothing else -/

theorem phase2_steady (buses : List Bus) :
    ∀ (st : RState) (srv : Server), (∀ b ∈ buses, sinkExists srv b.name = true) →
    ∃ tr, phase2 Env.ok buses st srv = .ok (st, srv, tr) ∧
      ∀ c ∈ tr, isPropsCmd c = true := by
  induction buses with
  | nil =>
      intro st srv _
      exact ⟨[], rfl, by intro c hc; cases hc⟩
  | cons b rest ih =>
      intro st srv h
      obtain ⟨tr, hrec, hprops⟩ := ih st srv (fun b' hb' => h b' (List.mem_cons_of_mem _ hb'))
      unfold phase2
      rw [if_pos (h b (List.mem_cons_self _ _))]
      rw [hrec]
      dsimp only
      refine ⟨_, rfl, ?_⟩
      intro c hc
      rcases List.mem_append.mp hc with hc | hc
      · by_cases hsys : (b.name == "vsink.system") = true
        · rw [if_pos hsys] at hc
          unfold tagSystemSinkTr at hc
          by_cases hex2 : sinkExists srv b.name = true
          · rw [if_pos hex2] at hc
            rcases List.mem_singleton.mp hc with rfl
            rfl
          · rw [if_neg hex2] at hc
            cases hc
        · rw [if_neg hsys] at hc
          cases hc
      · exact hprops c hc

theorem phase3_steady (buses : List Bus) :
    ∀ (st : RState) (srv : Server),
    (∀ b ∈ buses,
      (noneCond b = true ∧ lookupS st.routeModules b.name = none) ∨
      (noneCond b = false ∧ skipCondB b srv = true) ∨
      (noneCond b = false ∧ skipCondB b srv = false ∧
        loopbackExists srv (b.name ++ ".monitor") (resolveT b srv) = true ∧
        CleanupNoop srv (b.name ++ ".monitor") (resolveT b srv))) →
    ∃ st', phase3 Env.ok buses st srv = .ok (st', srv, []) ∧
      st'.busModules = st.busModules ∧ st'.routeModules = st.routeModules ∧
      st'.inputRouteModules = st.inputRouteModules ∧
      st'.inputRouteTarget = st.inputRouteTarget := by
  induction buses with
  | nil =>
      intro st srv _
      exact ⟨st, rfl, rfl, rfl, rfl, rfl⟩
  | cons b rest ih =>
      intro st srv h
      rcases h b (List.mem_cons_self _ _) with ⟨hrt, hkey⟩ | ⟨hrt, hskip⟩ |
        ⟨hrt, hskip, hex, hnoop⟩
      · obtain ⟨st', hrec, e1, e2, e3, e4⟩ :=
          ih { st with routeTarget := setS st.routeTarget b.name "none" } srv
            (fun b' hb' => h b' (List.mem_cons_of_mem _ hb'))
        unfold phase3
        rw [busStep_none hrt hkey]
        dsimp only
        rw [hrec]
        dsimp only
        exact ⟨st', rfl, e1, e2, e3, e4⟩
      · obtain ⟨st', hrec, e1, e2, e3, e4⟩ :=
          ih st srv (fun b' hb' => h b' (List.mem_cons_of_mem _ hb'))
        unfold phase3
        rw [busStep_skip hrt hskip]
        dsimp only
        rw [hrec]
        dsimp only
        exact ⟨st', rfl, e1, e2, e3, e4⟩
      · obtain ⟨st', hrec, e1, e2, e3, e4⟩ :=
          ih { st with routeTarget := setS st.routeTarget b.name (resolveT b srv) } srv
            (fun b' hb' => h b' (List.mem_cons_of_mem _ hb'))
        unfold phase3
        rw [busStep_exists hrt hskip hex hnoop]
        dsimp only
        rw [hrec]
        dsimp only
        exact ⟨st', rfl, e1, e2, e3, e4⟩

theorem phase4_steady (routes : List InputRoute) :
    ∀ (st : RState) (srv : Server),
    (∀ r ∈ routes, skipCondR r srv = true ∨
      (skipCondR r srv = false ∧
        loopbackExists srv (trimS r.source) (trimS r.targetBus) = true ∧
        CleanupNoop srv (trimS r.source) (trimS r.targetBus))) →
    ∃ st', phase4 Env.ok routes st srv = (st', srv, []) ∧
      st'.busModules = st.busModules ∧ st'.routeModules = st.routeModules ∧
      st'.inputRouteModules = st.inputRouteModules ∧
      st'.routeTarget = st.routeTarget := by
  induction routes with
  | nil =>
      intro st srv _
      exact ⟨st, rfl, rfl, rfl, rfl, rfl⟩
  | cons r rest ih =>
      intro st srv h
      rcases h r (List.mem_cons_self _ _) with hskip | ⟨hskip, hex, hnoop⟩
      · obtain ⟨st', hrec, e1, e2, e3, e4⟩ :=
          ih st srv (fun r' hr' => h r' (List.mem_cons_of_mem _ hr'))
        unfold phase4
        rw [inputStep_skip hskip]
        dsimp only
        rw [hrec]
        dsimp only
        exact ⟨st', rfl, e1, e2, e3, e4⟩
      · obtain ⟨st', hrec, e1, e2, e3, e4⟩ :=
          ih (RState.mk st.busModules st.routeModules st.inputRouteModules st.routeTarget
            (setS st.inputRouteTarget (trimS r.source) (trimS r.targetBus))) srv
            (fun r' hr' => h r' (List.mem_cons_of_mem _ hr'))
        unfold phase4
        rw [inputStep_exists hskip hex hnoop]
        dsimp only
        rw [hrec]
        dsimp only
        exact ⟨st', rfl, e1, e2, e3, e4⟩

/-! ## C1: the first run, phase by phase — phase 2 -/

theorem phase2_fwd (buses : List Bus) :
    ∀ (st : RState) (srv : Server),
    ∃ st' srv' tr, phase2 Env.ok buses st srv = .ok (st', srv', tr) ∧
      srv'.defaultSink = srv.defaultSink ∧
      srv'.sinkInputs = srv.sinkInputs ∧
      (∀ b ∈ buses, sinkExists srv' b.name = true) ∧
      (∃ pre, srv'.sinks = srv.sinks ++ pre ∧
        ∀ s ∈ pre, s.name ∈ buses.map (fun b => b.name)) ∧
      (∀ m ∈ srv'.modules, m ∈ srv.modules ∨ m.name = "module-null-sink") ∧
      st'.routeModules = st.routeModules ∧
      st'.inputRouteModules = st.inputRouteModules ∧
      st'.routeTarget = st.routeTarget ∧
      st'.inputRouteTarget = st.inputRouteTarget ∧
      (∀ p ∈ st'.busModules, p ∈ st.busModules ∨ p.1 ∈ buses.map (fun b => b.name)) := by
  induction buses with
  | nil =>
      intro st srv
      refine ⟨st, srv, [], rfl, rfl, rfl, ?_, ?_, ?_, rfl, rfl, rfl, rfl, ?_⟩
      · intro b hb
        cases hb
      · exact ⟨[], by simp, by intro s hs; cases hs⟩
      · exact fun m hm => Or.inl hm
      · exact fun p hp => Or.inl hp
  | cons b rest ih =>
      intro st srv
      by_cases hs : sinkExists srv b.name = true
      · obtain ⟨st', srv', tr, hrec, hd, hsi, hex, ⟨pre, hsk, hpre⟩, hmods,
          e1, e2, e3, e4, hbm⟩ := ih st srv
        unfold phase2
        rw [if_pos hs, hrec]
        dsimp only
        refine ⟨st', srv', _, rfl, hd, hsi, ?_, ⟨pre, hsk, ?_⟩, hmods,
          e1, e2, e3, e4, ?_⟩
        · intro b' hb'
          rcases List.mem_cons.mp hb' with rfl | hb'
          · unfold sinkExists
            rw [hsk]
            exact sinkExists_append pre hs
          · exact hex b' hb'
        · intro s hs'
          rw [List.map_cons]
          exact List.mem_cons_of_mem _ (hpre s hs')
        · intro p hp
          rcases hbm p hp with h1 | h1
          · exact Or.inl h1
          · right
            rw [List.map_cons]
            exact List.mem_cons_of_mem _ h1
      · unfold phase2
        rw [if_neg hs]
        rw [show Env.ok.nullSinkFails b.name = false from rfl, if_neg Bool.false_ne_true]
        rcases hl : loadNullSinkOp srv b.name b.label with ⟨mid, srvN, trN⟩
        dsimp only
        have hsrvN : srvN = (loadNullSinkOp srv b.name b.label).2.1 := by rw [hl]
        have hNsinks : srvN.sinks =
            srv.sinks ++ [SrvSink.mk (srv.nextId + 1) b.name (some srv.nextId)] := by
          rw [hsrvN]
          exact rfl
        have hNd : srvN.defaultSink = srv.defaultSink := by
          rw [hsrvN]
          exact rfl
        have hNsi : srvN.sinkInputs = srv.sinkInputs := by
          rw [hsrvN]
          exact rfl
        have hNmods : srvN.modules = srv.modules ++
            [SrvModule.mk srv.nextId "module-null-sink" ("sink_name=" ++ b.name)] := by
          rw [hsrvN]
          exact rfl
        obtain ⟨st', srv', tr, hrec, hd, hsi, hex, ⟨pre, hsk, hpre⟩, hmods,
          e1, e2, e3, e4, hbm⟩ := ih
            (RState.mk (setS st.busModules b.name mid) st.routeModules
              st.inputRouteModules st.routeTarget st.inputRouteTarget) srvN
        rw [hrec]
        dsimp only
        refine ⟨st', srv', _, rfl, hd.trans hNd, hsi.trans hNsi, ?_, ?_, ?_,
          e1, e2, e3, e4, ?_⟩
        · intro b' hb'
          rcases List.mem_cons.mp hb' with rfl | hb'
          · unfold sinkExists
            rw [hsk, hNsinks]
            apply List.any_eq_true.mpr
            refine ⟨SrvSink.mk (srv.nextId + 1) b'.name (some srv.nextId), ?_, by simp⟩
            exact List.mem_append_left _
              (List.mem_append_right _ (List.mem_singleton.mpr rfl))
          · exact hex b' hb'
        · refine ⟨[SrvSink.mk (srv.nextId + 1) b.name (some srv.nextId)] ++ pre, ?_, ?_⟩
          · rw [hsk, hNsinks, List.append_assoc]
          · intro s hs'
            rcases List.mem_append.mp hs' with h1 | h1
            · rcases List.mem_singleton.mp h1 with rfl
              rw [List.map_cons]
              exact List.mem_cons_self _ _
            · rw [List.map_cons]
              exact List.mem_cons_of_mem _ (hpre s h1)
        · intro m hm
          rcases hmods m hm with h1 | h1
          · rw [hNmods] at h1
            rcases List.mem_append.mp h1 with h2 | h2
            · exact Or.inl h2
            · rcases List.mem_singleton.mp h2 with rfl
              exact Or.inr rfl
          · exact Or.inr h1
        · intro p hp
          rcases hbm p hp with h1 | h1
          · rcases setS_mem p h1 with h2 | h2
            · exact Or.inl h2
            · right
              rw [List.map_cons, h2]
              exact List.mem_cons_self _ _
          · right
            rw [List.map_cons]
            exact List.mem_cons_of_mem _ h1

/-! ## C1: the first run, phase 3 — canonical loopbacks are built exactly once -/

theorem phase3_fwd (SRC TGT : List String) (hna : NoAlias SRC TGT) (buses : List Bus) :
    ∀ (st : RState) (srv : Server) (done : List (String × String)),
    (∀ b ∈ buses, (b.name ++ ".monitor") ∈ SRC) →
    (∀ b ∈ buses, b.routeTo ∈ TGT) →
    (buses.map (fun b => b.name)).Nodup →
    (∀ s ∈ srv.sinks, s.name ∈ TGT) →
    srv.defaultSink ∈ TGT →
    (∀ b ∈ buses, lookupS st.routeModules b.name = none) →
    (∀ b ∈ buses, ∀ p ∈ done, ¬ p.1 = b.name ++ ".monitor") →
    CanonInv done srv →
    DoneScope SRC TGT done →
    ∃ st' srv' tr done',
      phase3 Env.ok buses st srv = .ok (st', srv', tr) ∧
      srv'.defaultSink = srv.defaultSink ∧
      srv'.sinks = srv.sinks ∧
      srv'.sources = srv.sources ∧
      CanonInv done' srv' ∧
      DoneScope SRC TGT done' ∧
      (∀ p ∈ done, p ∈ done') ∧
      (∀ p ∈ done', p ∈ done ∨ ∃ b ∈ buses, p.1 = b.name ++ ".monitor") ∧
      (∀ b ∈ buses,
        (noneCond b = true ∧ lookupS st'.routeModules b.name = none) ∨
        (noneCond b = false ∧ skipCondB b srv = true) ∨
        (noneCond b = false ∧ skipCondB b srv = false ∧
          (b.name ++ ".monitor", resolveT b srv) ∈ done')) ∧
      (∀ k, (lookupS st'.routeModules k).isSome = true →
        (lookupS st.routeModules k).isSome = true ∨
          k ∈ buses.map (fun b => b.name)) ∧
      st'.busModules = st.busModules ∧
      st'.inputRouteModules = st.inputRouteModules ∧
      st'.inputRouteTarget = st.inputRouteTarget := by
  induction buses with
  | nil =>
      intro st srv done _ _ _ _ _ _ _ hcanon hscope
      refine ⟨st, srv, [], done, rfl, rfl, rfl, rfl, hcanon, hscope,
        fun p hp => hp, fun p hp => Or.inl hp, ?_, fun k hk => Or.inl hk, rfl, rfl, rfl⟩
      intro b hb
      cases hb
  | cons b rest ih =>
      intro st srv done hmon htgt hnd hsk hdflt hkey hfresh hcanon hscope
      have hndr : (rest.map (fun b => b.name)).Nodup := by
        rw [List.map_cons] at hnd
        exact (List.nodup_cons.mp hnd).2
      have hbnotin : b.name ∉ rest.map (fun b => b.name) := by
        rw [List.map_cons] at hnd
        exact (List.nodup_cons.mp hnd).1
      cases hrt : noneCond b with
      | true =>
          obtain ⟨st', srv', tr, done', hrec, f1, f2, f3, hcanon', hscope', hdsub,
            hdchr, hper, htrack, g1, g2, g3⟩ :=
            ih { st with routeTarget := setS st.routeTarget b.name "none" } srv done
              (fun b' hb' => hmon b' (List.mem_cons_of_mem _ hb'))
              (fun b' hb' => htgt b' (List.mem_cons_of_mem _ hb'))
              hndr hsk hdflt
              (fun b' hb' => hkey b' (List.mem_cons_of_mem _ hb'))
              (fun b' hb' => hfresh b' (List.mem_cons_of_mem _ hb'))
              hcanon hscope
          unfold phase3
          rw [busStep_none hrt (hkey b (List.mem_cons_self _ _))]
          dsimp only
          rw [hrec]
          dsimp only
          refine ⟨st', srv', _, done', rfl, f1, f2, f3, hcanon', hscope', hdsub,
            ?_, ?_, ?_, g1, g2, g3⟩
          · intro p hp
            rcases hdchr p hp with h1 | ⟨b', hb', he⟩
            · exact Or.inl h1
            · exact Or.inr ⟨b', List.mem_cons_of_mem _ hb', he⟩
          · intro b' hb'
            rcases List.mem_cons.mp hb' with rfl | hb'
            · left
              refine ⟨hrt, ?_⟩
              cases hlk : lookupS st'.routeModules b'.name with
              | none => rfl
              | some v =>
                  have hsome : (lookupS st'.routeModules b'.name).isSome = true := by
                    rw [hlk]
                    rfl
                  rcases htrack b'.name hsome with h1 | h1
                  · have h1' : (lookupS st.routeModules b'.name).isSome = true := h1
                    rw [hkey b' (List.mem_cons_self _ _)] at h1'
                    cases h1'
                  · exact absurd h1 hbnotin
            · exact hper b' hb'
          · intro k hk
            rcases htrack k hk with h1 | h1
            · exact Or.inl h1
            · right
              rw [List.map_cons]
              exact List.mem_cons_of_mem _ h1
      | false =>
          cases hskip : skipCondB b srv with
          | true =>
              obtain ⟨st', srv', tr, done', hrec, f1, f2, f3, hcanon', hscope', hdsub,
                hdchr, hper, htrack, g1, g2, g3⟩ :=
                ih st srv done
                  (fun b' hb' => hmon b' (List.mem_cons_of_mem _ hb'))
                  (fun b' hb' => htgt b' (List.mem_cons_of_mem _ hb'))
                  hndr hsk hdflt
                  (fun b' hb' => hkey b' (List.mem_cons_of_mem _ hb'))
                  (fun b' hb' => hfresh b' (List.mem_cons_of_mem _ hb'))
                  hcanon hscope
              unfold phase3
              rw [busStep_skip hrt hskip]
              dsimp only
              rw [hrec]
              dsimp only
              refine ⟨st', srv', _, done', rfl, f1, f2, f3, hcanon', hscope', hdsub,
                ?_, ?_, ?_, g1, g2, g3⟩
              · intro p hp
                rcases hdchr p hp with h1 | ⟨b', hb', he⟩
                · exact Or.inl h1
                · exact Or.inr ⟨b', List.mem_cons_of_mem _ hb', he⟩
              · intro b' hb'
                rcases List.mem_cons.mp hb' with rfl | hb'
                · exact Or.inr (Or.inl ⟨hrt, hskip⟩)
                · exact hper b' hb'
              · intro k hk
                rcases htrack k hk with h1 | h1
                · exact Or.inl h1
                · right
                  rw [List.map_cons]
                  exact List.mem_cons_of_mem _ h1
          | false =>
              have hmonb : (b.name ++ ".monitor") ∈ SRC := hmon b (List.mem_cons_self _ _)
              have htgtb : resolveT b srv ∈ TGT :=
                resolveT_mem (htgt b (List.mem_cons_self _ _)) hsk hdflt
              have hkeysb : ∀ p ∈ done, ¬ p.1 = b.name ++ ".monitor" :=
                hfresh b (List.mem_cons_self _ _)
              have hnoop : CleanupNoop srv (b.name ++ ".monitor") (resolveT b srv) :=
                cleanupNoop_of_fresh _ hna hcanon.1 hscope.1 hmonb hkeysb
              have hex : loopbackExists srv (b.name ++ ".monitor") (resolveT b srv)
                  = false :=
                loopbackExists_false_of_fresh _ hna hcanon.1 hscope.1 hmonb hkeysb
              obtain ⟨trb, hb⟩ :=
                busStep_load hrt hskip hex (hkey b (List.mem_cons_self _ _)) hnoop
              have hsx : (loopSrv srv (b.name ++ ".monitor") (resolveT b srv)).sinks
                  = srv.sinks := loopSrv_sinks _ _ _
              have hsc : (loopSrv srv (b.name ++ ".monitor") (resolveT b srv)).sources
                  = srv.sources := loopSrv_sources _ _ _
              have hdd : (loopSrv srv (b.name ++ ".monitor")
                  (resolveT b srv)).defaultSink = srv.defaultSink := loopSrv_default _ _ _
              have hcanon1 : CanonInv (done ++ [((b.name ++ ".monitor"), resolveT b srv)])
                  (loopSrv srv (b.name ++ ".monitor") (resolveT b srv)) := by
                constructor
                · intro m hm hname
                  rw [loopSrv_modules] at hm
                  rcases List.mem_append.mp hm with h1 | h1
                  · obtain ⟨p, hp, hargs⟩ := hcanon.1 m h1 hname
                    exact ⟨p, List.mem_append_left _ hp, hargs⟩
                  · rcases List.mem_singleton.mp h1 with rfl
                    exact ⟨((b.name ++ ".monitor"), resolveT b srv),
                      List.mem_append_right _ (List.mem_singleton.mpr rfl), rfl⟩
                · intro p hp
                  rcases List.mem_append.mp hp with h1 | h1
                  · obtain ⟨m, hm, hn, ha⟩ := hcanon.2 p h1
                    exact ⟨m, by rw [loopSrv_modules]; exact List.mem_append_left _ hm,
                      hn, ha⟩
                  · rcases List.mem_singleton.mp h1 with rfl
                    refine ⟨SrvModule.mk srv.nextId "module-loopback"
                      (loopbackArgs (b.name ++ ".monitor") (resolveT b srv)), ?_, rfl, rfl⟩
                    rw [loopSrv_modules]
                    exact List.mem_append_right _ (List.mem_singleton.mpr rfl)
              have hscope1 : DoneScope SRC TGT
                  (done ++ [((b.name ++ ".monitor"), resolveT b srv)]) := by
                constructor
                · intro p hp
                  rcases List.mem_append.mp hp with h1 | h1
                  · exact hscope.1 p h1
                  · rcases List.mem_singleton.mp h1 with rfl
                    exact ⟨hmonb, htgtb⟩
                · intro p hp q hq he
                  rcases List.mem_append.mp hp with h1 | h1 <;>
                    rcases List.mem_append.mp hq with h2 | h2
                  · exact hscope.2 p h1 q h2 he
                  · rcases List.mem_singleton.mp h2 with rfl
                    exact absurd (show p.1 = b.name ++ ".monitor" from he) (hkeysb p h1)
                  · rcases List.mem_singleton.mp h1 with rfl
                    exact absurd (show q.1 = b.name ++ ".monitor" from he.symm)
                      (hkeysb q h2)
                  · rcases List.mem_singleton.mp h1 with rfl
                    rcases List.mem_singleton.mp h2 with rfl
                    rfl
              obtain ⟨st', srv', tr, done', hrec, f1, f2, f3, hcanon', hscope', hdsub,
                hdchr, hper, htrack, g1, g2, g3⟩ :=
                ih (RState.mk st.busModules (setS st.routeModules b.name srv.nextId)
                    st.inputRouteModules (setS st.routeTarget b.name (resolveT b srv))
                    st.inputRouteTarget)
                  (loopSrv srv (b.name ++ ".monitor") (resolveT b srv))
                  (done ++ [((b.name ++ ".monitor"), resolveT b srv)])
                  (fun b' hb' => hmon b' (List.mem_cons_of_mem _ hb'))
                  (fun b' hb' => htgt b' (List.mem_cons_of_mem _ hb'))
                  hndr
                  (fun s hs' => hsk s (by rwa [hsx] at hs'))
                  (by rw [hdd]; exact hdflt)
                  (by
                    intro b' hb'
                    have hne : ¬ b'.name = b.name := by
                      intro he
                      exact hbnotin (by rw [← he]; exact List.mem_map_of_mem _ hb')
                    have hss : lookupS (setS st.routeModules b.name srv.nextId) b'.name =
                        lookupS st.routeModules b'.name := lookupS_setS_ne _ _ _ _ hne
                    exact hss.trans (hkey b' (List.mem_cons_of_mem _ hb')))
                  (by
                    intro b' hb' p hp
                    rcases List.mem_append.mp hp with h1 | h1
                    · exact hfresh b' (List.mem_cons_of_mem _ hb') p h1
                    · rcases List.mem_singleton.mp h1 with rfl
                      intro he
                      have he' : b.name ++ ".monitor" = b'.name ++ ".monitor" := he
                      have hnm : b.name = b'.name := append_cancel_right_str he'
                      exact hbnotin (by rw [hnm]; exact List.mem_map_of_mem _ hb'))
                  hcanon1 hscope1
              unfold phase3
              rw [hb]
              dsimp only
              rw [hrec]
              dsimp only
              refine ⟨st', srv', _, done', rfl, f1.trans hdd, f2.trans hsx,
                f3.trans hsc, hcanon', hscope', ?_, ?_, ?_, ?_, g1, g2, g3⟩
              · intro p hp
                exact hdsub p (List.mem_append_left _ hp)
              · intro p hp
                rcases hdchr p hp with h1 | ⟨b', hb', he⟩
                · rcases List.mem_append.mp h1 with h2 | h2
                  · exact Or.inl h2
                  · rcases List.mem_singleton.mp h2 with rfl
                    exact Or.inr ⟨b, List.mem_cons_self _ _, rfl⟩
                · exact Or.inr ⟨b', List.mem_cons_of_mem _ hb', he⟩
              · intro b' hb'
                rcases List.mem_cons.mp hb' with rfl | hb'
                · refine Or.inr (Or.inr ⟨hrt, hskip, ?_⟩)
                  exact hdsub _ (List.mem_append_right _ (List.mem_singleton.mpr rfl))
                · have hcong := skipCondB_congr b' hsx hsc hdd
                  have hres := resolveT_congr b' hsx hdd
                  rcases hper b' hb' with ⟨h1, h2⟩ | ⟨h1, h2⟩ | ⟨h1, h2, h3⟩
                  · exact Or.inl ⟨h1, h2⟩
                  · rw [hcong] at h2
                    exact Or.inr (Or.inl ⟨h1, h2⟩)
                  · rw [hcong] at h2
                    rw [hres] at h3
                    exact Or.inr (Or.inr ⟨h1, h2, h3⟩)
              · intro k hk
                rcases htrack k hk with h1 | h1
                · by_cases hkb : k = b.name
                  · right
                    rw [List.map_cons, hkb]
                    exact List.mem_cons_self _ _
                  · have h1' : (lookupS (setS st.routeModules b.name srv.nextId) k).isSome
                        = true := h1
                    rw [lookupS_setS_ne _ _ _ _ hkb] at h1'
                    exact Or.inl h1'
                · right
                  rw [List.map_cons]
                  exact List.mem_cons_of_mem _ h1

/-! ## C1: the first run, phase 4 -/

theorem phase4_fwd (SRC TGT : List String) (hna : NoAlias SRC TGT)
    (routes : List InputRoute) :
    ∀ (st : RState) (srv : Server) (done : List (String × String)),
    (∀ r ∈ routes, trimS r.source ∈ SRC) →
    (∀ r ∈ routes, trimS r.targetBus ∈ TGT) →
    (routes.map (fun r => trimS r.source)).Nodup →
    (∀ r ∈ routes, lookupS st.inputRouteModules (trimS r.source) = none) →
    (∀ r ∈ routes, ∀ p ∈ done, endsWithS (trimS r.source) ".monitor" = false →
      ¬ p.1 = trimS r.source) →
    CanonInv done srv →
    DoneScope SRC TGT done →
    ∃ st' srv' tr done',
      phase4 Env.ok routes st srv = (st', srv', tr) ∧
      srv'.defaultSink = srv.defaultSink ∧
      srv'.sinks = srv.sinks ∧
      srv'.sources = srv.sources ∧
      CanonInv done' srv' ∧
      DoneScope SRC TGT done' ∧
      (∀ p ∈ done, p ∈ done') ∧
      (∀ r ∈ routes,
        skipCondR r srv = true ∨
        (skipCondR r srv = false ∧ (trimS r.source, trimS r.targetBus) ∈ done')) ∧
      (∀ k, (lookupS st'.inputRouteModules k).isSome = true →
        (lookupS st.inputRouteModules k).isSome = true ∨
          (k ∈ routes.map (fun r => trimS r.source) ∧ ¬ k = "")) ∧
      st'.busModules = st.busModules ∧
      st'.routeModules = st.routeModules ∧
      st'.routeTarget = st.routeTarget := by
  induction routes with
  | nil =>
      intro st srv done _ _ _ _ _ hcanon hscope
      refine ⟨st, srv, [], done, rfl, rfl, rfl, rfl, hcanon, hscope,
        fun p hp => hp, ?_, fun k hk => Or.inl hk, rfl, rfl, rfl⟩
      intro r hr
      cases hr
  | cons r rest ih =>
      intro st srv done hsrc htgt hnd hkey hfresh hcanon hscope
      have hndr : (rest.map (fun r => trimS r.source)).Nodup := by
        rw [List.map_cons] at hnd
        exact (List.nodup_cons.mp hnd).2
      have hnotin : trimS r.source ∉ rest.map (fun r => trimS r.source) := by
        rw [List.map_cons] at hnd
        exact (List.nodup_cons.mp hnd).1
      cases hskip : skipCondR r srv with
      | true =>
          obtain ⟨st', srv', tr, done', hrec, f1, f2, f3, hcanon', hscope', hdsub,
            hper, htrack, g1, g2, g3⟩ :=
            ih st srv done
              (fun r' hr' => hsrc r' (List.mem_cons_of_mem _ hr'))
              (fun r' hr' => htgt r' (List.mem_cons_of_mem _ hr'))
              hndr
              (fun r' hr' => hkey r' (List.mem_cons_of_mem _ hr'))
              (fun r' hr' => hfresh r' (List.mem_cons_of_mem _ hr'))
              hcanon hscope
          unfold phase4
          rw [inputStep_skip hskip]
          dsimp only
          rw [hrec]
          dsimp only
          refine ⟨st', srv', _, done', rfl, f1, f2, f3, hcanon', hscope', hdsub,
            ?_, ?_, g1, g2, g3⟩
          · intro r' hr'
            rcases List.mem_cons.mp hr' with rfl | hr'
            · exact Or.inl hskip
            · exact hper r' hr'
          · intro k hk
            rcases htrack k hk with h1 | ⟨h1, h2⟩
            · exact Or.inl h1
            · right
              rw [List.map_cons]
              exact ⟨List.mem_cons_of_mem _ h1, h2⟩
      | false =>
          obtain ⟨hc1, hc2, hc3⟩ := skipCondR_false_elim hskip
          obtain ⟨hne1, hne2⟩ := or_false_split _ _ hc1
          have hsrcr : trimS r.source ∈ SRC := hsrc r (List.mem_cons_self _ _)
          have htgtr : trimS r.targetBus ∈ TGT := htgt r (List.mem_cons_self _ _)
          have hkeysr : ∀ p ∈ done, ¬ p.1 = trimS r.source :=
            fun p hp => hfresh r (List.mem_cons_self _ _) p hp hc3
          have hnoop : CleanupNoop srv (trimS r.source) (trimS r.targetBus) :=
            cleanupNoop_of_fresh _ hna hcanon.1 hscope.1 hsrcr hkeysr
          have hex : loopbackExists srv (trimS r.source) (trimS r.targetBus) = false :=
            loopbackExists_false_of_fresh _ hna hcanon.1 hscope.1 hsrcr hkeysr
          obtain ⟨trr, hstep⟩ :=
            inputStep_load hskip hex (hkey r (List.mem_cons_self _ _)) hnoop
          have hsx : (loopSrv srv (trimS r.source) (trimS r.targetBus)).sinks
              = srv.sinks := loopSrv_sinks _ _ _
          have hsc : (loopSrv srv (trimS r.source) (trimS r.targetBus)).sources
              = srv.sources := loopSrv_sources _ _ _
          have hdd : (loopSrv srv (trimS r.source) (trimS r.targetBus)).defaultSink
              = srv.defaultSink := loopSrv_default _ _ _
          have hcanon1 : CanonInv (done ++ [(trimS r.source, trimS r.targetBus)])
              (loopSrv srv (trimS r.source) (trimS r.targetBus)) := by
            constructor
            · intro m hm hname
              rw [loopSrv_modules] at hm
              rcases List.mem_append.mp hm with h1 | h1
              · obtain ⟨p, hp, hargs⟩ := hcanon.1 m h1 hname
                exact ⟨p, List.mem_append_left _ hp, hargs⟩
              · rcases List.mem_singleton.mp h1 with rfl
                exact ⟨(trimS r.source, trimS r.targetBus),
                  List.mem_append_right _ (List.mem_singleton.mpr rfl), rfl⟩
            · intro p hp
              rcases List.mem_append.mp hp with h1 | h1
              · obtain ⟨m, hm, hn, ha⟩ := hcanon.2 p h1
                exact ⟨m, by rw [loopSrv_modules]; exact List.mem_append_left _ hm,
                  hn, ha⟩
              · rcases List.mem_singleton.mp h1 with rfl
                refine ⟨SrvModule.mk srv.nextId "module-loopback"
                  (loopbackArgs (trimS r.source) (trimS r.targetBus)), ?_, rfl, rfl⟩
                rw [loopSrv_modules]
                exact List.mem_append_right _ (List.mem_singleton.mpr rfl)
          have hscope1 : DoneScope SRC TGT
              (done ++ [(trimS r.source, trimS r.targetBus)]) := by
            constructor
            · intro p hp
              rcases List.mem_append.mp hp with h1 | h1
              · exact hscope.1 p h1
              · rcases List.mem_singleton.mp h1 with rfl
                exact ⟨hsrcr, htgtr⟩
            · intro p hp q hq he
              rcases List.mem_append.mp hp with h1 | h1 <;>
                rcases List.mem_append.mp hq with h2 | h2
              · exact hscope.2 p h1 q h2 he
              · rcases List.mem_singleton.mp h2 with rfl
                exact absurd (show p.1 = trimS r.source from he) (hkeysr p h1)
              · rcases List.mem_singleton.mp h1 with rfl
                exact absurd (show q.1 = trimS r.source from he.symm) (hkeysr q h2)
              · rcases List.mem_singleton.mp h1 with rfl
                rcases List.mem_singleton.mp h2 with rfl
                rfl
          obtain ⟨st', srv', tr, done', hrec, f1, f2, f3, hcanon', hscope', hdsub,
            hper, htrack, g1, g2, g3⟩ :=
            ih (RState.mk st.busModules st.routeModules
                (setS st.inputRouteModules (trimS r.source) srv.nextId)
                st.routeTarget
                (setS st.inputRouteTarget (trimS r.source) (trimS r.targetBus)))
              (loopSrv srv (trimS r.source) (trimS r.targetBus))
              (done ++ [(trimS r.source, trimS r.targetBus)])
              (fun r' hr' => hsrc r' (List.mem_cons_of_mem _ hr'))
              (fun r' hr' => htgt r' (List.mem_cons_of_mem _ hr'))
              hndr
              (by
                intro r' hr'
                have hne : ¬ trimS r'.source = trimS r.source := by
                  intro he
                  exact hnotin (by rw [← he]; exact List.mem_map_of_mem _ hr')
                have hss : lookupS (setS st.inputRouteModules (trimS r.source)
                    srv.nextId) (trimS r'.source) =
                    lookupS st.inputRouteModules (trimS r'.source) :=
                  lookupS_setS_ne _ _ _ _ hne
                exact hss.trans (hkey r' (List.mem_cons_of_mem _ hr')))
              (by
                intro r' hr' p hp hmon
                rcases List.mem_append.mp hp with h1 | h1
                · exact hfresh r' (List.mem_cons_of_mem _ hr') p h1 hmon
                · rcases List.mem_singleton.mp h1 with rfl
                  intro he
                  have he' : trimS r.source = trimS r'.source := he
                  exact hnotin (by rw [he']; exact List.mem_map_of_mem _ hr'))
              hcanon1 hscope1
          unfold phase4
          rw [hstep]
          dsimp only
          rw [hrec]
          dsimp only
          refine ⟨st', srv', _, done', rfl, f1.trans hdd, f2.trans hsx,
            f3.trans hsc, hcanon', hscope', ?_, ?_, ?_, g1, g2, g3⟩
          · intro p hp
            exact hdsub p (List.mem_append_left _ hp)
          · intro r' hr'
            rcases List.mem_cons.mp hr' with rfl | hr'
            · refine Or.inr ⟨hskip, ?_⟩
              exact hdsub _ (List.mem_append_right _ (List.mem_singleton.mpr rfl))
            · have hcong := skipCondR_congr r' hsx hsc
              rcases hper r' hr' with h1 | ⟨h1, h2⟩
              · rw [hcong] at h1
                exact Or.inl h1
              · rw [hcong] at h1
                exact Or.inr ⟨h1, h2⟩
          · intro k hk
            rcases htrack k hk with h1 | ⟨h1, h2⟩
            · by_cases hkb : k = trimS r.source
              · right
                refine ⟨by rw [List.map_cons, hkb]; exact List.mem_cons_self _ _, ?_⟩
                rw [hkb]
                exact beq_eq_false_iff_ne.mp hne1
              · have h1' : (lookupS (setS st.inputRouteModules (trimS r.source)
                    srv.nextId) k).isSome = true := h1
                rw [lookupS_setS_ne _ _ _ _ hkb] at h1'
                exact Or.inl h1'
            · right
              rw [List.map_cons]
              exact ⟨List.mem_cons_of_mem _ h1, h2⟩

/-! ## Claim C1 — idempotence of back-to-back reconciliation -/

/-- One matching stream rule and a `route_to = default` bus: enough to make a
second run re-issue commands. -/
def c1Cfg : Cfg :=
  ⟨[⟨"vsink.browser", "Browser", "default"⟩],
    [⟨⟨none, none, none⟩, "vsink.browser"⟩], [], []⟩

def c1Srv : Server := ⟨"hw0", [⟨1, "hw0", none⟩], [], [], [⟨100, 1, none, []⟩], 50⟩

/-- Claim C1 is false as stated: with one bus and one (empty-match) stream
rule, the second of two back-to-back runs on a steady server still issues
`move_sink_input` commands — the rules loop never checks whether the stream
already sits on the target bus. -/
theorem c1_counterexample :
    Cmd.moveSinkInput 100 "vsink.browser" ∈ secondRunTrace c1Cfg c1Srv := by
  decide

/-- Claim C1, amended.  Under a clean start — empty runtime state, a steady
server without loopback modules, pairwise-distinct bus names and input-route
sources, empty `mic_routes`, and no `source=` substring aliasing between the
configured routes — the second of two back-to-back runs issues no load, no
unload and no mute command: its trace is only `set-*-properties` re-tags and
`move_sink_input` re-moves. -/
theorem c1_second_run_no_heavy (cfg : Cfg) (srv : Server) (h : CleanStart cfg srv) :
    ∀ c ∈ secondRunTrace cfg srv, heavyCmd c = false := by
  obtain ⟨hnd, hndr, hmic, hnoloop, hna⟩ := h
  -- ===== run 1 =====
  have h0 : phase0 ((cfg.inputRoutes.map (fun r => trimS r.source)).filter
      (fun s => s != "")) emptyState srv = (emptyState, srv, []) := rfl
  have h1 : phase1 (cfg.buses.map (fun b => b.name)) emptyState srv =
      (emptyState, srv, []) := rfl
  obtain ⟨stC, srvC, t2, h2eq, hCd, hCsi, hCex, ⟨preC, hCsk, hCpre⟩, hCmods,
    e21, e22, e23, e24, hCbm⟩ := phase2_fwd cfg.buses emptyState srv
  have hCnoloop : ∀ m ∈ srvC.modules, ¬ m.name = "module-loopback" := by
    intro m hm hname
    rcases hCmods m hm with h1' | h1'
    · exact hnoloop m h1' hname
    · exact absurd (h1'.symm.trans hname) (by decide)
  have hCsinksT : ∀ s ∈ srvC.sinks, s.name ∈ possibleTargets cfg srv := by
    intro s hs
    rw [hCsk] at hs
    rcases List.mem_append.mp hs with h1' | h1'
    · exact possibleTargets_of_sink h1'
    · exact possibleTargets_of_name (hCpre s h1')
  have hCdT : srvC.defaultSink ∈ possibleTargets cfg srv := by
    rw [hCd]
    exact possibleTargets_default cfg srv
  obtain ⟨stD, srvD, t3, done3, h3eq, hDd, hDsk, hDsc, hcanon3, hscope3, hsub03,
    hdchr3, hper3, htrack3, e31, e32, e33⟩ :=
    phase3_fwd (allRouteSources cfg) (possibleTargets cfg srv) hna cfg.buses
      stC srvC []
      (fun b hb => allRouteSources_of_bus hb)
      (fun b hb => possibleTargets_of_routeTo hb)
      hnd hCsinksT hCdT
      (by
        intro b hb
        rw [e21]
        rfl)
      (by intro b hb p hp; cases hp)
      ⟨(by intro m hm hname; exact absurd hname (hCnoloop m hm)),
        (by intro p hp; cases hp)⟩
      ⟨(by intro p hp; cases hp), (by intro p hp q hq he; cases hp)⟩
  obtain ⟨stE, srvE, t4, done4, h4eq, hEd, hEsk, hEsc, hcanon4, hscope4, hsub34,
    hper4, htrack4, e41, e42, e43⟩ :=
    phase4_fwd (allRouteSources cfg) (possibleTargets cfg srv) hna cfg.inputRoutes
      stD srvD done3
      (fun r hr => allRouteSources_of_route hr)
      (fun r hr => possibleTargets_of_inputTarget hr)
      hndr
      (by
        intro r hr
        rw [e32, e22]
        rfl)
      (by
        intro r hr p hp hmonf he
        rcases hdchr3 p hp with h1' | ⟨b, hb, hpb⟩
        · cases h1'
        · have hmt : endsWithS (trimS r.source) ".monitor" = true := by
            rw [← he, hpb]
            exact endsWithS_append _ _
          rw [hmonf] at hmt
          exact absurd hmt Bool.false_ne_true)
      hcanon3 hscope3
  rcases h5eq : ensureModuleLoadedOp srvE "module-intended-roles" with ⟨srvF, t5⟩
  have hFspec := ensureModuleLoadedOp_spec srvE "module-intended-roles"
  rw [h5eq] at hFspec
  dsimp only at hFspec
  obtain ⟨hF1, hF2, hF3, hF4, ⟨extra5, hF5, hF6⟩, hF7⟩ := hFspec
  rcases h6eq : phase6 Env.ok cfg.rules srvF with ⟨srvG, t6⟩
  have hG := phase6_frame Env.ok cfg.rules srvF
  rw [h6eq] at hG
  dsimp only at hG
  obtain ⟨hG1, hG2, hG3, hG4⟩ := hG
  have hrm1 : reconcileMain cfg emptyState srv Env.ok =
      ⟨[] ++ [] ++ t2 ++ t3 ++ t4 ++ t5 ++ t6, srvG, some stE⟩ := by
    unfold reconcileMain
    dsimp only
    rw [h0]
    dsimp only
    rw [h1]
    dsimp only
    rw [h2eq]
    dsimp only
    rw [h3eq]
    dsimp only
    rw [h4eq]
    dsimp only
    rw [h5eq]
    dsimp only
    rw [h6eq]
  have hsaved1 : applyOnce cfg emptyState srv Env.ok =
      ⟨[] ++ [] ++ t2 ++ t3 ++ t4 ++ t5 ++ t6, srvG, some stE⟩ := by
    unfold applyOnce
    rw [hrm1, hmic]
    rfl
  -- ===== facts carried to the second run =====
  have hGsinksC : srvG.sinks = srvC.sinks := hG2.trans (hF2.trans (hEsk.trans hDsk))
  have hGsourcesC : srvG.sources = srvC.sources :=
    hG3.trans (hF3.trans (hEsc.trans hDsc))
  have hGdfltC : srvG.defaultSink = srvC.defaultSink :=
    hG1.trans (hF1.trans (hEd.trans hDd))
  have hGsinksD : srvG.sinks = srvD.sinks := hG2.trans (hF2.trans hEsk)
  have hGsourcesD : srvG.sources = srvD.sources := hG3.trans (hF3.trans hEsc)
  have hcanonG : CanonInv done4 srvG :=
    canonInv_extend (hG4.trans hF5)
      (fun m hm hname => absurd ((hF6 m hm).symm.trans hname) (by decide))
      hcanon4
  have hsinksG : ∀ b ∈ cfg.buses, sinkExists srvG b.name = true := by
    intro b hb
    rw [sinkExists_congr hGsinksC]
    exact hCex b hb
  have hloadedG : moduleLoaded srvG "module-intended-roles" = true := by
    unfold moduleLoaded
    rw [hG4]
    exact hF7
  have hP0 : ∀ p ∈ stE.inputRouteModules,
      ((cfg.inputRoutes.map (fun r => trimS r.source)).filter
        (fun s => s != "")).contains p.1 = true := by
    intro p hp
    have hsome := lookupS_isSome_of_mem hp
    rcases htrack4 p.1 hsome with h1' | ⟨h1', h2'⟩
    · have hnone : (lookupS stD.inputRouteModules p.1).isSome = false := by
        rw [e32, e22]
        exact rfl
      rw [hnone] at h1'
      exact absurd h1' Bool.false_ne_true
    · have hbeq : (p.1 == "") = false := beq_eq_false_iff_ne.mpr h2'
      have hmem : p.1 ∈ (cfg.inputRoutes.map (fun r => trimS r.source)).filter
          (fun s => s != "") := by
        apply List.mem_filter.mpr
        refine ⟨h1', ?_⟩
        simp [bne, hbeq]
      exact List.elem_eq_true_of_mem hmem
  have hP1r : ∀ p ∈ stE.routeModules,
      (cfg.buses.map (fun b => b.name)).contains p.1 = true := by
    intro p hp
    have hsome := lookupS_isSome_of_mem hp
    have hsome' : (lookupS stD.routeModules p.1).isSome = true := by
      rw [← e42]
      exact hsome
    rcases htrack3 p.1 hsome' with h1' | h1'
    · have hnone : (lookupS stC.routeModules p.1).isSome = false := by
        rw [e21]
        exact rfl
      rw [hnone] at h1'
      exact absurd h1' Bool.false_ne_true
    · exact List.elem_eq_true_of_mem h1'
  have hP1b : ∀ p ∈ stE.busModules,
      (cfg.buses.map (fun b => b.name)).contains p.1 = true := by
    intro p hp
    rw [e41, e31] at hp
    rcases hCbm p hp with h1' | h1'
    · cases h1'
    · exact List.elem_eq_true_of_mem h1'
  have hbus2 : ∀ b ∈ cfg.buses,
      (noneCond b = true ∧ lookupS stE.routeModules b.name = none) ∨
      (noneCond b = false ∧ skipCondB b srvG = true) ∨
      (noneCond b = false ∧ skipCondB b srvG = false ∧
        loopbackExists srvG (b.name ++ ".monitor") (resolveT b srvG) = true ∧
        CleanupNoop srvG (b.name ++ ".monitor") (resolveT b srvG)) := by
    intro b hb
    have hcongB : skipCondB b srvG = skipCondB b srvC :=
      skipCondB_congr b hGsinksC hGsourcesC hGdfltC
    have hresB : resolveT b srvG = resolveT b srvC :=
      resolveT_congr b hGsinksC hGdfltC
    rcases hper3 b hb with ⟨h1', h2'⟩ | ⟨h1', h2'⟩ | ⟨h1', h2', h3'⟩
    · left
      refine ⟨h1', ?_⟩
      rw [e42]
      exact h2'
    · right
      left
      exact ⟨h1', by rw [hcongB]; exact h2'⟩
    · right
      right
      refine ⟨h1', by rw [hcongB]; exact h2', ?_, ?_⟩
      · rw [hresB]
        exact loopbackExists_of_canonical (hcanonG.2 _ (hsub34 _ h3'))
      · rw [hresB]
        exact cleanupNoop_of_done hna hcanonG.1 hscope4.1 hscope4.2
          (allRouteSources_of_bus hb) (hsub34 _ h3')
  have hroute2 : ∀ r ∈ cfg.inputRoutes, skipCondR r srvG = true ∨
      (skipCondR r srvG = false ∧
        loopbackExists srvG (trimS r.source) (trimS r.targetBus) = true ∧
        CleanupNoop srvG (trimS r.source) (trimS r.targetBus)) := by
    intro r hr
    have hcongR : skipCondR r srvG = skipCondR r srvD :=
      skipCondR_congr r hGsinksD hGsourcesD
    rcases hper4 r hr with h1' | ⟨h1', h2'⟩
    · left
      rw [hcongR]
      exact h1'
    · right
      refine ⟨by rw [hcongR]; exact h1', ?_, ?_⟩
      · exact loopbackExists_of_canonical (hcanonG.2 _ h2')
      · exact cleanupNoop_of_done hna hcanonG.1 hscope4.1 hscope4.2
          (allRouteSources_of_route hr) h2'
  -- ===== run 2 =====
  have h0' : phase0 ((cfg.inputRoutes.map (fun r => trimS r.source)).filter
      (fun s => s != "")) stE srvG = (stE, srvG, []) := phase0_id _ _ _ hP0
  have h1' : phase1 (cfg.buses.map (fun b => b.name)) stE srvG =
      (stE, srvG, []) := phase1_id _ _ _ hP1r hP1b
  obtain ⟨trP, h2eq', hprops⟩ := phase2_steady cfg.buses stE srvG hsinksG
  obtain ⟨stE', h3eq', _, _, _, _⟩ := phase3_steady cfg.buses stE srvG hbus2
  obtain ⟨stE'', h4eq', _, _, _, _⟩ := phase4_steady cfg.inputRoutes stE' srvG hroute2
  have h5' : ensureModuleLoadedOp srvG "module-intended-roles" = (srvG, []) :=
    ensureModuleLoadedOp_noop hloadedG
  rcases h6eq' : phase6 Env.ok cfg.rules srvG with ⟨srvG2, t6'⟩
  have hmoves : ∀ c ∈ t6', isMoveCmd c = true := by
    have hmv := phase6_moves Env.ok cfg.rules srvG
    rw [h6eq'] at hmv
    exact hmv
  have hrm2 : reconcileMain cfg stE srvG Env.ok =
      ⟨[] ++ [] ++ trP ++ [] ++ [] ++ [] ++ t6', srvG2, some stE''⟩ := by
    unfold reconcileMain
    dsimp only
    rw [h0']
    dsimp only
    rw [h1']
    dsimp only
    rw [h2eq']
    dsimp only
    rw [h3eq']
    dsimp only
    rw [h4eq']
    dsimp only
    rw [h5']
    dsimp only
    rw [h6eq']
  have happ2 : (applyOnce cfg stE srvG Env.ok).trace =
      [] ++ [] ++ trP ++ [] ++ [] ++ [] ++ t6' := by
    unfold applyOnce
    rw [hrm2]
  -- ===== the second trace holds only props and moves =====
  intro c hc
  unfold secondRunTrace at hc
  rw [hsaved1] at hc
  dsimp only at hc
  rw [happ2] at hc
  simp only [List.mem_append, List.not_mem_nil, false_or, or_false] at hc
  rcases hc with hc | hc
  · exact heavy_of_props (hprops c hc)
  · exact heavy_of_move (hmoves c hc)

def c1WitnessCfg : Cfg := ⟨[⟨"vsink.b", "B", "out"⟩], [], [], []⟩

def c1WitnessSrv : Server := ⟨"out", [⟨1, "out", none⟩], [], [], [], 50⟩

/-- Witness for C1 at a one-bus configuration over a steady one-sink server:
the clean-start hypotheses evaluate to true and the amended theorem applies. -/
theorem c1_witness :
    CleanStart c1WitnessCfg c1WitnessSrv ∧
      (∀ c ∈ secondRunTrace c1WitnessCfg c1WitnessSrv, heavyCmd c = false) :=
  ⟨(by unfold CleanStart NoAlias; decide),
    c1_second_run_no_heavy c1WitnessCfg c1WitnessSrv
      (by unfold CleanStart NoAlias; decide)⟩

end AudioRouter
